import Mathlib

/-!
Offline-first synchronisation of the EHR client.

A shallow embedding of `src/services/offlineDB.js`, of the record operations
of `src/services/auth.js`, of `checkAlerts` of `src/services/notifications.js`
and of the form validation and submit handlers of `src/pages/PatientProfile.jsx`.

* JavaScript objects are association lists in property-insertion order (the
  field names of the payloads are identifiers, none is an array index).
* `async` functions that may reject return `Except String _`, the string being
  the `message` of the rejection.
* The IndexedDB table `offlineData` is the list of its rows in primary-key
  order; the Firestore sub-collections are one list of created documents.
* Everything the environment decides (connectivity, the clock, which call
  rejects) is an explicit argument of type `Env`.
-/

set_option autoImplicit false

deriving instance DecidableEq for Except

namespace Ehr

/-! ## JavaScript values and objects -/

/-- The JavaScript values that occur as fields of a payload: form fields are
strings, `dose` is the result of `parseInt` (an integral number or `NaN`),
`nextDueDate` may be `null`, and the read tag `offline` is a boolean. -/
inductive JSVal where
  | undefined
  | null
  | bool (b : Bool)
  | num (n : Int)
  | nan
  | str (s : String)
  deriving DecidableEq, Repr

/-- `ToBoolean`: the falsy values are `undefined`, `null`, `false`, `0`, `NaN`, `""`. -/
def JSVal.truthy : JSVal → Bool
  | .undefined => false
  | .null => false
  | .bool b => b
  | .num n => n != 0
  | .nan => false
  | .str s => s != ""

/-- The operator `===` on these values (`NaN` is not equal to itself). -/
def JSVal.strictEq : JSVal → JSVal → Bool
  | .undefined, .undefined => true
  | .null, .null => true
  | .bool a, .bool b => a == b
  | .num a, .num b => a == b
  | .str a, .str b => a == b
  | _, _ => false

/-- A plain object: its own properties in insertion order. -/
abbrev Record := List (String × JSVal)

/-- Property read `r.k`: `undefined` when the object has no such property. -/
def getField (r : Record) (k : String) : JSVal :=
  match r.lookup k with
  | some v => v
  | none => .undefined

/-- Whether the object has the own property `k`. -/
def hasField (r : Record) (k : String) : Bool :=
  r.any (fun kv => kv.1 == k)

/-- Property write `r.k = v`: an existing property keeps its place. -/
def setField : Record → String → JSVal → Record
  | [], k, v => [(k, v)]
  | (k', v') :: rest, k, v =>
    if k' == k then (k', v) :: rest else (k', v') :: setField rest k v

/-- Object spread `{ ...target, ...src }` onto an object under construction. -/
def spread (target src : Record) : Record :=
  src.foldl (fun acc kv => setField acc kv.1 kv.2) target

/-- The characters removed by `String.prototype.trim` (WhiteSpace and LineTerminator). -/
def isJSWhiteSpace (c : Char) : Bool :=
  let n := c.toNat
  n == 0x09 || n == 0x0A || n == 0x0B || n == 0x0C || n == 0x0D || n == 0x20 ||
  n == 0xA0 || n == 0x1680 || (0x2000 ≤ n && n ≤ 0x200A) || n == 0x2028 ||
  n == 0x2029 || n == 0x202F || n == 0x205F || n == 0x3000 || n == 0xFEFF

/-- `String.prototype.trim`. -/
def jsTrim (s : String) : String :=
  String.mk ((s.data.dropWhile isJSWhiteSpace).reverse.dropWhile isJSWhiteSpace).reverse

/-- `new Date(v).getTime()`, `none` standing for `NaN`.  Parsing of a date
string is the engine's (`parse`); the empty string is never a date. -/
def dateGetTime (parse : String → Option Int) : JSVal → Option Int
  | .undefined => none
  | .null => some 0
  | .bool b => some (if b then 1 else 0)
  | .num n => if n.natAbs ≤ 8640000000000000 then some n else none
  | .nan => none
  | .str s => if s = "" then none else parse s

/-- The comparison `a > b` of two numbers, false as soon as one is `NaN`. -/
def numGt : Option Int → Option Int → Bool
  | some a, some b => decide (b < a)
  | _, _ => false

/-! ## `offlineDB.js`: the conflict resolver -/

/-- The message of the `TypeError` raised by `.trim()` on a value that is not a string. -/
def trimTypeError : String := "trim is not a function"

/-- The expression `(x.notes || '').trim()`. -/
def trimmedNotes (v : JSVal) : Except String String :=
  if v.truthy then
    match v with
    | .str s => .ok (jsTrim s)
    | _ => .error trimTypeError
  else .ok (jsTrim "")

/-- `localTimestamp` of `resolveConflict`. -/
def localTimestamp (parse : String → Option Int) (localData : Record) : Option Int :=
  dateGetTime parse (getField localData "createdAt")

/-- `remoteTimestamp` of `resolveConflict`: `0` when `createdAt` is falsy. -/
def remoteTimestamp (parse : String → Option Int) (remoteData : Record) : Option Int :=
  if (getField remoteData "createdAt").truthy then
    dateGetTime parse (getField remoteData "createdAt")
  else some 0

/-- The value assigned to `mergedData.notes`:
`Array.from(new Set([r, l].filter(Boolean))).join('\n')`. -/
def joinNotes (r l : String) : String :=
  "\n".intercalate (([r, l].filter (fun s => s != "")).eraseDups)

/-- The last branch of `resolveConflict`, taken when neither timestamp is
greater: `{ ...remoteData, ...localData }`, with `notes` rebuilt for the types
`'visit'` and `'referral'`. -/
def mergeEqual (type : String) (localData remoteData : Record) : Except String Record :=
  let mergedData := spread (spread [] remoteData) localData
  if type == "visit" || type == "referral" then
    match trimmedNotes (getField remoteData "notes") with
    | .error e => .error e
    | .ok r =>
      match trimmedNotes (getField localData "notes") with
      | .error e => .error e
      | .ok l => .ok (setField mergedData "notes" (.str (joinNotes r l)))
  else .ok mergedData

/-- `resolveConflict(type, patientId, localData, remoteData)`. -/
def resolveConflict (parse : String → Option Int) (type : String) (_patientId : String)
    (localData remoteData : Record) : Except String Record :=
  let lt := localTimestamp parse localData
  let rt := remoteTimestamp parse remoteData
  if numGt lt rt then .ok localData
  else if numGt rt lt then .ok remoteData
  else mergeEqual type localData remoteData

/-! ## The local table and the remote store -/

/-- A row of the IndexedDB table `offlineData`. -/
structure OfflineDoc where
  id : String
  type : String
  patientId : String
  data : Record
  createdAt : String
  synced : Bool
  deriving DecidableEq, Repr

/-- A document created by `addDoc` in `patients/{patientId}/{collection}`. -/
structure RemoteDoc where
  patientId : String
  collection : String
  id : String
  data : Record
  deriving DecidableEq, Repr

/-- The two stores.  `offlineData` holds the rows in primary-key order,
`remote` the created documents in creation order, and `lastVisit` the
`updateDoc` calls accepted by the patient documents (patient, stamp). -/
structure World where
  offlineData : List OfflineDoc
  remote : List RemoteDoc
  lastVisit : List (String × String)
  deriving DecidableEq, Repr

/-- What the environment decides during one call of a service function:
`navigator.onLine`, the readings of the clock, and for each collaborator
whether its call rejects (with which message). -/
structure Env where
  online : Bool
  dateNow : Nat
  isoNow : String
  isoLater : String
  localFault : Option String
  createFault : Option String
  updateFault : Option String
  markFault : Option String
  deriving DecidableEq, Repr

/-- The UTF-16 code units of a character. -/
def utf16Units (c : Char) : List Nat :=
  if c.toNat < 0x10000 then [c.toNat]
  else [0xD800 + (c.toNat - 0x10000) / 0x400, 0xDC00 + (c.toNat - 0x10000) % 0x400]

/-- The UTF-16 code units of a string. -/
def codeUnits : List Char → List Nat
  | [] => []
  | c :: cs => utf16Units c ++ codeUnits cs

/-- Lexicographic order of two sequences of code units. -/
def unitsLt : List Nat → List Nat → Bool
  | _, [] => false
  | [], _ :: _ => true
  | a :: as, b :: bs =>
    if a < b then true
    else if b < a then false
    else unitsLt as bs

/-- Order of IndexedDB string keys: by UTF-16 code unit. -/
def keyLt (a b : List Char) : Bool :=
  unitsLt (codeUnits a) (codeUnits b)

/-- Place a row by primary key: the row with the same `id` is replaced. -/
def upsert (doc : OfflineDoc) : List OfflineDoc → List OfflineDoc
  | [] => [doc]
  | r :: rs =>
    if r.id == doc.id then doc :: rs
    else if keyLt doc.id.data r.id.data then doc :: r :: rs
    else r :: upsert doc rs

/-- The message of the rejection of `put` by the unique index
`&[patientId+type+createdAt]`. -/
def constraintError : String := "ConstraintError"

/-- `db.offlineData.put(doc)`: rejected when another row has the same
`[patientId+type+createdAt]`. -/
def tablePut (t : List OfflineDoc) (doc : OfflineDoc) : Except String (List OfflineDoc) :=
  if t.any (fun r => r.id != doc.id && r.patientId == doc.patientId && r.type == doc.type
      && r.createdAt == doc.createdAt) then .error constraintError
  else .ok (upsert doc t)

/-- `db.offlineData.update(id, { synced: true })`: no row, no change. -/
def tableMarkSynced (t : List OfflineDoc) (id : String) : List OfflineDoc :=
  t.map (fun r => if r.id == id then { r with synced := true } else r)

/-- `saveOfflineData(type, data, patientId)`; the value is the `id` of `{ id }`. -/
def saveOfflineData (env : Env) (w : World) (type : String) (data : Record)
    (patientId : String) : World × Except String String :=
  match env.localFault with
  | some m => (w, .error m)
  | none =>
    let id := type ++ "_" ++ patientId ++ "_" ++ toString env.dateNow
    let doc : OfflineDoc :=
      { id := id, type := type, patientId := patientId, data := data,
        createdAt := env.isoNow, synced := false }
    match tablePut w.offlineData doc with
    | .error m => (w, .error m)
    | .ok t => ({ w with offlineData := t }, .ok id)

/-- `getOfflineData(patientId)`. -/
def getOfflineData (env : Env) (w : World) (patientId : String) :
    Except String (List OfflineDoc) :=
  match env.localFault with
  | some m => .error ("Failed to fetch offline data: " ++ m)
  | none => .ok (w.offlineData.filter (fun doc => doc.patientId == patientId && doc.synced == false))

/-- `markAsSynced(id)`. -/
def markAsSynced (env : Env) (w : World) (id : String) : World × Except String Unit :=
  match env.markFault with
  | some m => (w, .error ("Failed to mark as synced: " ++ m))
  | none => ({ w with offlineData := tableMarkSynced w.offlineData id }, .ok ())

/-- Firestore `addDoc`: the new document gets an identifier not used before. -/
def addDoc (env : Env) (w : World) (patientId collection : String) (payload : Record) :
    World × Except String String :=
  match env.createFault with
  | some m => (w, .error m)
  | none =>
    let id := "r" ++ toString w.remote.length
    ({ w with remote := w.remote ++ [{ patientId := patientId, collection := collection,
                                       id := id, data := payload }] }, .ok id)

/-- Firestore `updateDoc(doc(db, 'patients', patientId), { lastVisit })`. -/
def updateDoc (env : Env) (w : World) (patientId stamp : String) : World × Except String Unit :=
  match env.updateFault with
  | some m => (w, .error m)
  | none => ({ w with lastVisit := w.lastVisit ++ [(patientId, stamp)] }, .ok ())

/-! ## `auth.js`: the write router -/

/-- The expression `error.message || fallback` of the `catch` blocks. -/
def messageOr (m fallback : String) : String :=
  if m != "" then m else fallback

/-- What distinguishes `addPatientVisit`, `addImmunization` and `addReferral`:
the `type` of the rows, the sub-collection, the fields compared by `find`,
whether `lastVisit` is updated, and the fallback message. -/
structure Kind where
  type : String
  collection : String
  matchKey : List String
  stampsLastVisit : Bool
  fallback : String
  deriving DecidableEq, Repr

/-- The predicate of `offlineDocs.find(...)`. -/
def matchesKey (k : Kind) (candidate : Record) (doc : OfflineDoc) : Bool :=
  doc.type == k.type &&
    k.matchKey.all (fun f => (getField doc.data f).strictEq (getField candidate f))

/-- The payload of `addDoc`: `{ ...data, createdAt: new Date().toISOString() }`. -/
def stamped (data : Record) (iso : String) : Record :=
  setField (spread [] data) "createdAt" (.str iso)

/-- The common body of the three `add*` functions. -/
def submit (parse : String → Option Int) (k : Kind) (env : Env) (w : World)
    (patientId : String) (data : Record) : World × Except String String :=
  if env.online then
    match getOfflineData env w patientId with
    | .error m => (w, .error (messageOr m k.fallback))
    | .ok offlineDocs =>
      let resolved : Except String Record :=
        match offlineDocs.find? (matchesKey k data) with
        | some offlineDoc => resolveConflict parse k.type patientId data offlineDoc.data
        | none => .ok data
      match resolved with
      | .error m => (w, .error (messageOr m k.fallback))
      | .ok data' =>
        match addDoc env w patientId k.collection (stamped data' env.isoNow) with
        | (w1, .error m) => (w1, .error (messageOr m k.fallback))
        | (w1, .ok id) =>
          if k.stampsLastVisit then
            match updateDoc env w1 patientId env.isoLater with
            | (w2, .error m) => (w2, .error (messageOr m k.fallback))
            | (w2, .ok _) => (w2, .ok id)
          else (w1, .ok id)
  else
    match saveOfflineData env w k.type data patientId with
    | (w1, .error m) => (w1, .error (messageOr m k.fallback))
    | (w1, .ok _) => (w1, .ok "Saved offline")

/-- The constants of `addPatientVisit`. -/
def visitKind : Kind :=
  { type := "visit", collection := "visits", matchKey := ["date"], stampsLastVisit := true,
    fallback := "Failed to add patient visit. Please try again." }

/-- The constants of `addImmunization`. -/
def immunizationKind : Kind :=
  { type := "immunization", collection := "immunizations",
    matchKey := ["vaccineType", "dateAdministered"], stampsLastVisit := false,
    fallback := "Failed to add immunization. Please try again." }

/-- The constants of `addReferral`. -/
def referralKind : Kind :=
  { type := "referral", collection := "referrals", matchKey := ["referralDate", "facility"],
    stampsLastVisit := false, fallback := "Failed to add referral. Please try again." }

/-- `addPatientVisit(patientId, visitData)`. -/
def addPatientVisit (parse : String → Option Int) (env : Env) (w : World)
    (patientId : String) (visitData : Record) : World × Except String String :=
  submit parse visitKind env w patientId visitData

/-- `addImmunization(patientId, immunizationData)`. -/
def addImmunization (parse : String → Option Int) (env : Env) (w : World)
    (patientId : String) (immunizationData : Record) : World × Except String String :=
  submit parse immunizationKind env w patientId immunizationData

/-- `addReferral(patientId, referralData)`. -/
def addReferral (parse : String → Option Int) (env : Env) (w : World)
    (patientId : String) (referralData : Record) : World × Except String String :=
  submit parse referralKind env w patientId referralData

/-! ## `offlineDB.js`: the sync coordinator -/

/-- What one turn of the loop of `syncWithFirestore` did with its row:
whether the `add*` call was fulfilled, how many remote documents the turn
created, and whether the row was then marked. -/
structure Attempt where
  docId : String
  delivered : Bool
  created : Nat
  marked : Bool
  deriving DecidableEq, Repr

/-- The dispatch on `doc.type` in the loop body; a row of another type awaits nothing. -/
def dispatch (parse : String → Option Int) (env : Env) (w : World) (doc : OfflineDoc) :
    World × Except String String :=
  if doc.type == "visit" then addPatientVisit parse env w doc.patientId doc.data
  else if doc.type == "immunization" then addImmunization parse env w doc.patientId doc.data
  else if doc.type == "referral" then addReferral parse env w doc.patientId doc.data
  else (w, .ok "")

/-- One turn of the loop: the inner `try` and its `catch`, which only logs. -/
def syncDoc (parse : String → Option Int) (env : Env) (w : World) (doc : OfflineDoc) :
    World × Attempt :=
  match dispatch parse env w doc with
  | (w1, .error _) =>
    (w1, { docId := doc.id, delivered := false,
           created := w1.remote.length - w.remote.length, marked := false })
  | (w1, .ok _) =>
    match env.markFault with
    | some _ =>
      (w1, { docId := doc.id, delivered := true,
             created := w1.remote.length - w.remote.length, marked := false })
    | none =>
      ({ w1 with offlineData := tableMarkSynced w1.offlineData doc.id },
       { docId := doc.id, delivered := true,
         created := w1.remote.length - w.remote.length, marked := true })

/-- The loop `for (const doc of docs)`; turn `i` runs in the environment `envs i`. -/
def syncLoop (parse : String → Option Int) (envs : Nat → Env) :
    Nat → List OfflineDoc → World → World × List Attempt
  | _, [], w => (w, [])
  | i, doc :: rest, w =>
    let step := syncDoc parse (envs i) w doc
    let tail := syncLoop parse envs (i + 1) rest step.1
    (tail.1, step.2 :: tail.2)

/-- The environment of one call of the sync coordinator: `navigator.onLine` at
the call, whether the first query of the table rejects, and the environment
of each turn of the loop. -/
structure SyncEnv where
  online : Bool
  queryFault : Option String
  turn : Nat → Env

/-- The outcome of a call of the sync coordinator: the stores afterwards, what
each turn did, and the returned count (or the rejection). -/
structure SyncRun where
  world : World
  attempts : List Attempt
  result : Except String Nat

/-- The rows selected by `db.offlineData.filter(doc => doc.synced === false)`. -/
def pendingDocs (w : World) : List OfflineDoc :=
  w.offlineData.filter (fun doc => doc.synced == false)

/-- `syncWithFirestore(addPatientVisit, addImmunization, addReferral)`. -/
def syncWithFirestore (parse : String → Option Int) (se : SyncEnv) (w : World) : SyncRun :=
  match se.queryFault with
  | some m => { world := w, attempts := [], result := .error m }
  | none =>
    let docs := pendingDocs w
    let run := syncLoop parse se.turn 0 docs w
    { world := run.1, attempts := run.2, result := .ok docs.length }

/-- `syncOfflineData()`. -/
def syncOfflineData (parse : String → Option Int) (se : SyncEnv) (w : World) : SyncRun :=
  if se.online then
    let run := syncWithFirestore parse se w
    match run.result with
    | .error m => { run with result := .error ("Sync failed: " ++ m) }
    | .ok count => { run with result := .ok count }
  else { world := w, attempts := [], result := .ok 0 }

/-! ## A date parser for the strings written by `toISOString` -/

/-- The value of a decimal digit. -/
def digitVal (c : Char) : Option Nat :=
  if 48 ≤ c.toNat ∧ c.toNat ≤ 57 then some (c.toNat - 48) else none

/-- The number written by a list of decimal digits. -/
def digitsVal : List Char → Option Nat
  | [] => some 0
  | cs => cs.foldl (fun acc c =>
      match acc, digitVal c with
      | some n, some d => some (10 * n + d)
      | _, _ => none) (some 0)

/-- Days in a month of the Gregorian calendar. -/
def daysInMonth (y m : Nat) : Nat :=
  if m = 2 then (if (y % 4 = 0 ∧ y % 100 ≠ 0) ∨ y % 400 = 0 then 29 else 28)
  else if m = 4 ∨ m = 6 ∨ m = 9 ∨ m = 11 then 30 else 31

/-- Days from 1970-01-01 to the given civil date (year at least 1). -/
def daysFromCivil (y m d : Nat) : Int :=
  let y' := if m ≤ 2 then y - 1 else y
  let era := y' / 400
  let yoe := y' - era * 400
  let mp := if m ≤ 2 then m + 9 else m - 3
  let doy := (153 * mp + 2) / 5 + d - 1
  let doe := yoe * 365 + yoe / 4 - yoe / 100 + doy
  ((era * 146097 + doe : Nat) : Int) - 719468

/-- The engine's date parser restricted to the strings `YYYY-MM-DDTHH:mm:ss.sssZ`,
the format of `Date.prototype.toISOString` in which the application writes every
`createdAt`: the milliseconds since the epoch.  It stands for `parse` in the
examples, which use such strings only; on other strings (`none` here) the
engine's parser may well return an instant. -/
def parseISO (s : String) : Option Int :=
  match s.data with
  | [y1, y2, y3, y4, '-', m1, m2, '-', d1, d2, 'T', h1, h2, ':', n1, n2, ':', s1, s2, '.',
      f1, f2, f3, 'Z'] =>
    match digitsVal [y1, y2, y3, y4], digitsVal [m1, m2], digitsVal [d1, d2],
        digitsVal [h1, h2], digitsVal [n1, n2], digitsVal [s1, s2], digitsVal [f1, f2, f3] with
    | some y, some m, some d, some h, some n, some sec, some ms =>
      if 1 ≤ y ∧ 1 ≤ m ∧ m ≤ 12 ∧ 1 ≤ d ∧ d ≤ daysInMonth y m ∧ h < 24 ∧ n < 60 ∧ sec < 60 then
        some (daysFromCivil y m d * 86400000 + ((h * 3600 + n * 60 + sec) * 1000 + ms : Nat))
      else none
    | _, _, _, _, _, _, _ => none
  | _ => none

/-! ## Notions used to state the properties -/

/-- An object has each of its property names once. -/
def uniqueKeys (r : Record) : Prop := (r.map Prod.fst).Nodup

instance (r : Record) : Decidable (uniqueKeys r) :=
  inferInstanceAs (Decidable ((r.map Prod.fst).Nodup))

/-- The `notes` of a payload are free text: a string, or absent (falsy). -/
def notesAreText (r : Record) : Bool :=
  match getField r "notes" with
  | .str _ => true
  | v => !v.truthy

/-- The text of the `notes` of a payload, empty when there is none. -/
def notesText (r : Record) : String :=
  match getField r "notes" with
  | .str s => s
  | _ => ""

/-- The union of notes in the words of the specification: the non-empty,
trimmed, distinct values of the two sides, joined by a newline. -/
def notesUnion (first second : String) : String :=
  "\n".intercalate ((([first, second].map jsTrim).filter (fun s => decide (s ≠ ""))).eraseDups)

/-- The rows of the table have distinct primary keys. -/
def uniqueIds (t : List OfflineDoc) : Prop := (t.map (fun r => r.id)).Nodup

instance (t : List OfflineDoc) : Decidable (uniqueIds t) :=
  inferInstanceAs (Decidable ((t.map (fun (r : OfflineDoc) => r.id)).Nodup))

/-- Whether the table has a row `id` with `synced = false`. -/
def pendingId (t : List OfflineDoc) (id : String) : Bool :=
  t.any (fun r => r.id == id && r.synced == false)

/-- Whether a turn of the run marked the row `id`. -/
def markedIn (attempts : List Attempt) (id : String) : Bool :=
  attempts.any (fun a => a.docId == id && a.marked)

/-- The number of remote documents created by the turns of the run for the row `id`. -/
def createdFor (id : String) (attempts : List Attempt) : Nat :=
  ((attempts.filter (fun a => a.docId == id)).map (fun a => a.created)).sum

/-- A sequence of calls of `syncOfflineData`, one after the other: the stores
at the end and the turns of all the calls. -/
def syncMany (parse : String → Option Int) : List SyncEnv → World → World × List Attempt
  | [], w => (w, [])
  | se :: rest, w =>
    let run := syncOfflineData parse se w
    let tail := syncMany parse rest run.world
    (tail.1, run.attempts ++ tail.2)

/-- The free-text notes of the pending visits and referrals of a table are text. -/
def pendingNotesAreText (t : List OfflineDoc) : Prop :=
  ∀ r ∈ t, r.synced = false → (r.type = "visit" ∨ r.type = "referral") →
    notesAreText r.data = true

/-- The row has one of the three types that the loop delivers. -/
def knownType (doc : OfflineDoc) : Bool :=
  doc.type == "visit" || doc.type == "immunization" || doc.type == "referral"

/-- The environment of a turn in which no call rejects and the client stays online. -/
def quietTurn (env : Env) : Prop :=
  env.online = true ∧ env.localFault = none ∧ env.createFault = none ∧
    env.updateFault = none ∧ env.markFault = none

/-- A turn in which the client is online and neither the update of
`lastVisit` nor the marking of the row rejects. -/
def settledTurn (env : Env) : Prop :=
  env.online = true ∧ env.updateFault = none ∧ env.markFault = none

/-- The field-union merge as the specification words it (§4.3, step 4): the
remote fields overlaid with the local fields, the free-text notes being the
union of the notes of the two sides. -/
def specMerge (localData remoteData : Record) : Record :=
  let merged := spread (spread [] remoteData) localData
  if hasField localData "notes" || hasField remoteData "notes" then
    setField merged "notes" (.str (notesUnion (notesText remoteData) (notesText localData)))
  else merged

/-- The resolver as the specification words it (§4.3 and §4.4): the queued
entry takes the local role with its enqueue-time `createdAt`, the candidate
payload the remote role; the strictly newer side gives the payload, and equal
instants give the field-union merge. -/
def specResolve (parse : String → Option Int) (queued : OfflineDoc) (candidate : Record) :
    Record :=
  let lt := dateGetTime parse (.str queued.createdAt)
  let rt := dateGetTime parse (getField candidate "createdAt")
  if numGt lt rt then queued.data
  else if numGt rt lt then candidate
  else specMerge queued.data candidate

/-! ## Sample data -/

/-- An environment in which the client is online and no call rejects. -/
def quietEnv : Env :=
  { online := true, dateNow := 1704153600000, isoNow := "2024-01-02T00:00:00.000Z",
    isoLater := "2024-01-02T00:00:00.001Z", localFault := none, createFault := none,
    updateFault := none, markFault := none }

/-- A pending visit of patient `P1`, saved offline on 2024-01-01. -/
def feverVisit : OfflineDoc :=
  { id := "visit_P1_1704067200000", type := "visit", patientId := "P1",
    data := [("date", .str "2024-01-01"), ("symptoms", .str "fever")],
    createdAt := "2024-01-01T00:00:00.000Z", synced := false }

/-- A pending immunization of patient `P2`, saved offline on 2024-01-01. -/
def mmrShot : OfflineDoc :=
  { id := "immunization_P2_1704067260000", type := "immunization", patientId := "P2",
    data := [("vaccineType", .str "MMR"), ("dose", .num 1),
      ("dateAdministered", .str "2024-01-01"), ("nextDueDate", .null)],
    createdAt := "2024-01-01T00:01:00.000Z", synced := false }

/-- Stores holding one pending visit and nothing remote. -/
def oneVisit : World := { offlineData := [feverVisit], remote := [], lastVisit := [] }

/-- Stores holding a pending immunization and a pending visit (in key order). -/
def twoPending : World := { offlineData := [mmrShot, feverVisit], remote := [], lastVisit := [] }

/-- A call of the sync coordinator in which nothing rejects. -/
def quietSync : SyncEnv := { online := true, queryFault := none, turn := fun _ => quietEnv }

/-- A call of the sync coordinator in which every `addDoc` rejects. -/
def createFailsSync : SyncEnv :=
  { online := true, queryFault := none,
    turn := fun _ => { quietEnv with createFault := some "unavailable" } }

/-- A call of the sync coordinator in which every update of `lastVisit` rejects. -/
def updateFailsSync : SyncEnv :=
  { online := true, queryFault := none,
    turn := fun _ => { quietEnv with updateFault := some "unavailable" } }

/-- A call of the sync coordinator in which `addDoc` rejects in the first turn only. -/
def firstCreateFailsSync : SyncEnv :=
  { online := true, queryFault := none,
    turn := fun j => if j = 0 then { quietEnv with createFault := some "unavailable" }
      else quietEnv }

/-- A pending immunization of patient `P1`, saved offline on 2024-01-02. -/
def mmrNoted : OfflineDoc :=
  { id := "immunization_P1_1704153600000", type := "immunization", patientId := "P1",
    data := [("vaccineType", .str "MMR"), ("dose", .num 1),
      ("dateAdministered", .str "2024-01-01"), ("notes", .str "given at the outreach clinic")],
    createdAt := "2024-01-02T00:00:00.000Z", synced := false }

/-- Stores holding that pending immunization and nothing remote. -/
def pendingMmr : World := { offlineData := [mmrNoted], remote := [], lastVisit := [] }

/-- An online immunization for the same vaccine and day, with other values and
an earlier `createdAt` (2024-01-01, noon). -/
def onlineMmr : Record :=
  [("vaccineType", .str "MMR"), ("dose", .num 2), ("dateAdministered", .str "2024-01-01"),
    ("notes", .str "entered online"), ("createdAt", .str "2024-01-01T12:00:00.000Z")]

/-- The same online immunization as the form sends it, without `createdAt`. -/
def onlineMmrForm : Record :=
  [("vaccineType", .str "MMR"), ("dose", .num 2), ("dateAdministered", .str "2024-01-01"),
    ("notes", .str "entered online")]

/-- An online visit for the day of `feverVisit`, with other symptoms and an
earlier `createdAt` (2023-12-31). -/
def onlineVisit : Record :=
  [("date", .str "2024-01-01"), ("symptoms", .str "cough"),
    ("createdAt", .str "2023-12-31T23:00:00.000Z")]

/-- An online visit for the day of `feverVisit`, with other symptoms and a
later `createdAt` (2024-01-02, noon). -/
def onlineVisitLater : Record :=
  [("date", .str "2024-01-01"), ("symptoms", .str "cough"),
    ("createdAt", .str "2024-01-02T12:00:00.000Z")]

/-- The environment of an online write on 2024-01-03 in which no call rejects. -/
def laterEnv : Env :=
  { online := true, dateNow := 1704240000000, isoNow := "2024-01-03T00:00:00.000Z",
    isoLater := "2024-01-03T00:00:00.001Z", localFault := none, createFault := none,
    updateFault := none, markFault := none }

/-! ## `auth.js`: the read merger -/

/-- Firestore `getDocs(collection(db, 'patients', patientId, collection))`: the
documents of the sub-collection (here in creation order), or a rejection. -/
def getDocs (remoteFault : Option String) (w : World) (patientId collection : String) :
    Except String (List RemoteDoc) :=
  match remoteFault with
  | some m => .error m
  | none => .ok (w.remote.filter (fun d => d.patientId == patientId && d.collection == collection))

/-- The record `{ id: doc.id, ...doc.data() }` made of a remote document. -/
def onlineRecord (d : RemoteDoc) : Record :=
  spread [("id", .str d.id)] d.data

/-- The record `{ id: doc.id, ...doc.data, offline: true }` made of a pending row. -/
def offlineRecord (doc : OfflineDoc) : Record :=
  setField (spread [("id", .str doc.id)] doc.data) "offline" (.bool true)

/-- The common body of `getPatientVisits`, `getImmunizations` and
`getReferrals`; `rethrow` is what the outer `catch` does to the message. -/
def mergedRead (type collection : String) (rethrow : String → String)
    (remoteFault : Option String) (env : Env) (w : World) (patientId : String) :
    Except String (List Record) :=
  match getDocs remoteFault w patientId collection with
  | .error m => .error (rethrow m)
  | .ok docs =>
    let online := docs.map onlineRecord
    let offline : List Record :=
      match getOfflineData env w patientId with
      | .error _ => []
      | .ok offlineDocs => (offlineDocs.filter (fun doc => doc.type == type)).map offlineRecord
    .ok (online ++ offline)

/-- `getPatientVisits(patientId)`; its `catch` throws the error it caught. -/
def getPatientVisits (remoteFault : Option String) (env : Env) (w : World)
    (patientId : String) : Except String (List Record) :=
  mergedRead "visit" "visits" (fun m => m) remoteFault env w patientId

/-- `getImmunizations(patientId)`. -/
def getImmunizations (remoteFault : Option String) (env : Env) (w : World)
    (patientId : String) : Except String (List Record) :=
  mergedRead "immunization" "immunizations"
    (fun m => messageOr m "Failed to fetch immunizations. Please try again.")
    remoteFault env w patientId

/-- `getReferrals(patientId)`. -/
def getReferrals (remoteFault : Option String) (env : Env) (w : World)
    (patientId : String) : Except String (List Record) :=
  mergedRead "referral" "referrals"
    (fun m => messageOr m "Failed to fetch referrals. Please try again.")
    remoteFault env w patientId

/-! ## Notions used to state the properties of the router and the queue -/

/-- The lookup of the online branch of `submit`: `find` over the rows that
`getOfflineData(patientId)` returns. -/
def conflictLookup (k : Kind) (w : World) (patientId : String) (candidate : Record) :
    Option OfflineDoc :=
  (w.offlineData.filter (fun doc => doc.patientId == patientId && doc.synced == false)).find?
    (matchesKey k candidate)

/-- The row is of the patient and of the type of the kind, is pending, and
agrees (`===`) with the candidate on every field of the match key. -/
def qualifies (k : Kind) (patientId : String) (candidate : Record) (doc : OfflineDoc) : Bool :=
  doc.patientId == patientId && doc.type == k.type && doc.synced == false &&
    k.matchKey.all (fun f => (getField doc.data f).strictEq (getField candidate f))

/-- The row that `saveOfflineData(type, data, patientId)` builds. -/
def newDoc (env : Env) (type : String) (data : Record) (patientId : String) : OfflineDoc :=
  { id := type ++ "_" ++ patientId ++ "_" ++ toString env.dateNow, type := type,
    patientId := patientId, data := data, createdAt := env.isoNow, synced := false }

/-- An operation on the local queue. -/
inductive QueueOp where
  | enqueue (env : Env) (type : String) (data : Record) (patientId : String)
  | listPending (env : Env) (patientId : String)
  | markSynced (env : Env) (id : String)
  | drain (se : SyncEnv)

/-- The stores after one operation on the queue. -/
def applyOp (parse : String → Option Int) (w : World) : QueueOp → World
  | .enqueue env type data patientId => (saveOfflineData env w type data patientId).1
  | .listPending _ _ => w
  | .markSynced env id => (markAsSynced env w id).1
  | .drain se => (syncOfflineData parse se w).world

/-- The stores after a sequence of operations on the queue. -/
def applyOps (parse : String → Option Int) (w : World) (ops : List QueueOp) : World :=
  ops.foldl (applyOp parse) w

/-- Every row of `t` is still in `t'`, as it was or with `synced := true`. -/
def keepsRows (t t' : List OfflineDoc) : Prop :=
  ∀ r ∈ t, r ∈ t' ∨ { r with synced := true } ∈ t'

/-- The operation generates no key that the table already has: an enqueue
builds a row whose id is new, and a drain stays online in every turn (so that
it enqueues nothing). -/
def freshOp (w : World) : QueueOp → Prop
  | .enqueue env type data patientId =>
    ∀ r ∈ w.offlineData, r.id ≠ (newDoc env type data patientId).id
  | .listPending _ _ => True
  | .markSynced _ _ => True
  | .drain se => ∀ j, (se.turn j).online = true

/-- Every operation of the sequence is fresh in the stores it meets. -/
def freshOps (parse : String → Option Int) : World → List QueueOp → Prop
  | _, [] => True
  | w, op :: ops => freshOp w op ∧ freshOps parse (applyOp parse w op) ops

/-! ## More sample data -/

/-- Stores with nothing in them. -/
def emptyWorld : World := { offlineData := [], remote := [], lastVisit := [] }

/-- An environment in which the client is offline, at midnight of 2024-01-01. -/
def offlineEnv : Env :=
  { online := false, dateNow := 1704067200000, isoNow := "2024-01-01T00:00:00.000Z",
    isoLater := "2024-01-01T00:00:00.000Z", localFault := none, createFault := none,
    updateFault := none, markFault := none }

/-- The visit payload of the scenario of the specification. -/
def feverPayload : Record := [("date", .str "2024-01-01"), ("symptoms", .str "fever")]

/-- A second visit payload for the same day. -/
def coughPayload : Record := [("date", .str "2024-01-01"), ("symptoms", .str "cough")]

/-- A visit payload whose notes end in a blank, as the form accepts it. -/
def restPayload : Record :=
  [("date", .str "2024-01-01"), ("symptoms", .str "fever"), ("notes", .str "rest ")]

/-- A visit document in the remote store. -/
def remoteVisit : RemoteDoc :=
  { patientId := "P1", collection := "visits", id := "r0",
    data := [("date", .str "2023-12-24"), ("symptoms", .str "rash"),
      ("createdAt", .str "2023-12-24T09:00:00.000Z")] }

/-- Stores holding one remote visit and one pending visit of patient `P1`. -/
def mixedWorld : World := { offlineData := [feverVisit], remote := [remoteVisit], lastVisit := [] }

/-- An environment in which the client is offline, at midnight of 2024-01-02,
the instant at which `mmrNoted` was saved. -/
def offlineEnvLater : Env :=
  { online := false, dateNow := 1704153600000, isoNow := "2024-01-02T00:00:00.000Z",
    isoLater := "2024-01-02T00:00:00.000Z", localFault := none, createFault := none,
    updateFault := none, markFault := none }

/-! ## `notifications.js`: the follow-up alerts -/

/-- `ToString`, as the template literals apply it to a field. -/
def JSVal.toText : JSVal → String
  | .undefined => "undefined"
  | .null => "null"
  | .bool true => "true"
  | .bool false => "false"
  | .num n => toString n
  | .nan => "NaN"
  | .str s => s

/-- The comparison `a < b` of two strings. -/
def stringLt (a b : String) : Bool :=
  unitsLt (codeUnits a.data) (codeUnits b.data)

/-- The comparison `v < today`, where `today` is a date `YYYY-MM-DD`: such a
string is not a numeric literal, so the comparison with a value that is not
a string is a comparison with `NaN`, which is false. -/
def ltToday (v : JSVal) (today : String) : Bool :=
  match v with
  | .str s => stringLt s today
  | _ => false

/-- An element of the array that `checkAlerts` returns. -/
structure Alert where
  type : String
  message : String
  key : String
  deriving DecidableEq, Repr

/-- The body of the `forEach` of `checkAlerts`: the alert pushed for one
record, if any; `displayedAlerts` is the module's set of keys on screen. -/
def alertFor (today : String) (displayedAlerts : List String) (imm : Record) : Option Alert :=
  if (getField imm "nextDueDate").truthy && ltToday (getField imm "nextDueDate") today
      && !(getField imm "offline").truthy then
    let alertKey := "followup-" ++ (getField imm "vaccineType").toText ++ "-"
      ++ (getField imm "nextDueDate").toText
    if !displayedAlerts.contains alertKey then
      some { type := "followup",
             message := "Follow-up immunization due for "
               ++ (getField imm "vaccineType").toText ++ " on "
               ++ (getField imm "nextDueDate").toText ++ ".",
             key := alertKey }
    else none
  else none

/-- `iso.split('T')[0]`. -/
def datePart (iso : String) : String :=
  String.mk (iso.data.takeWhile (fun c => c != 'T'))

/-- `checkAlerts(immunizations)`; `iso` is `new Date().toISOString()`. -/
def checkAlerts (iso : String) (displayedAlerts : List String) (immunizations : List Record) :
    List Alert :=
  immunizations.filterMap (alertFor (datePart iso) displayedAlerts)

/-- The day `YYYYMMDD` as a number, for a string of the form `YYYY-MM-DD`. -/
def dayNumber (s : String) : Option Nat :=
  match s.data with
  | [y1, y2, y3, y4, '-', m1, m2, '-', d1, d2] =>
    match digitVal y1, digitVal y2, digitVal y3, digitVal y4, digitVal m1, digitVal m2,
        digitVal d1, digitVal d2 with
    | some a, some b, some c, some d, some e, some f, some g, some h =>
      some (a * 10000000 + b * 1000000 + c * 100000 + d * 10000 + e * 1000 + f * 100 + g * 10 + h)
    | _, _, _, _, _, _, _, _ => none
  | _ => none

/-! ## `PatientProfile.jsx`: validation of the forms -/

/-- The state `visitForm`. -/
structure VisitForm where
  date : String
  symptoms : String
  diagnoses : String
  treatments : String
  notes : String
  deriving DecidableEq, Repr

/-- The state `immunizationForm`. -/
structure ImmunizationForm where
  vaccineType : String
  dose : String
  dateAdministered : String
  nextDueDate : String
  deriving DecidableEq, Repr

/-- The state `referralForm`. -/
structure ReferralForm where
  facility : String
  reason : String
  notes : String
  referralDate : String
  deriving DecidableEq, Repr

/-- Whether the string matches `/^\d{4}-\d{2}-\d{2}$/`. -/
def matchesDate (s : String) : Bool :=
  match s.data with
  | [y1, y2, y3, y4, '-', m1, m2, '-', d1, d2] =>
    [y1, y2, y3, y4, m1, m2, d1, d2].all (fun c => (digitVal c).isSome)
  | _ => false

/-- The test `!s.trim()`. -/
def isBlank (s : String) : Bool :=
  jsTrim s == ""

/-- The keys of `newErrors` in `validateVisitForm`. -/
def visitErrors (f : VisitForm) : List String :=
  (if !matchesDate f.date then ["date"] else []) ++
  (if isBlank f.symptoms then ["symptoms"] else []) ++
  (if isBlank f.diagnoses then ["diagnoses"] else []) ++
  (if isBlank f.treatments then ["treatments"] else []) ++
  (if isBlank f.notes then ["notes"] else [])

/-- `validateVisitForm()`. -/
def validateVisitForm (f : VisitForm) : Bool :=
  (visitErrors f).length == 0

/-- The test `!dose || dose < 1` on the string of the dose field; `toNumber`
is the engine's conversion of a string to a number (`none` for `NaN`). -/
def doseRejected (toNumber : String → Option ℚ) (dose : String) : Bool :=
  dose == "" ||
    (match toNumber dose with
     | some q => decide (q < 1)
     | none => false)

/-- The keys of `newErrors` in `validateImmunizationForm`. -/
def immunizationErrors (toNumber : String → Option ℚ) (f : ImmunizationForm) : List String :=
  (if isBlank f.vaccineType then ["vaccineType"] else []) ++
  (if doseRejected toNumber f.dose then ["dose"] else []) ++
  (if !matchesDate f.dateAdministered then ["dateAdministered"] else []) ++
  (if f.nextDueDate != "" && !matchesDate f.nextDueDate then ["nextDueDate"] else [])

/-- `validateImmunizationForm()`. -/
def validateImmunizationForm (toNumber : String → Option ℚ) (f : ImmunizationForm) : Bool :=
  (immunizationErrors toNumber f).length == 0

/-- The keys of `newErrors` in `validateReferralForm`. -/
def referralErrors (f : ReferralForm) : List String :=
  (if isBlank f.facility then ["facility"] else []) ++
  (if isBlank f.reason then ["reason"] else []) ++
  (if isBlank f.notes then ["notes"] else []) ++
  (if !matchesDate f.referralDate then ["referralDate"] else [])

/-- `validateReferralForm()`. -/
def validateReferralForm (f : ReferralForm) : Bool :=
  (referralErrors f).length == 0

/-- The object `visitForm` that `handleVisitSubmit` passes on. -/
def visitPayload (f : VisitForm) : Record :=
  [("date", .str f.date), ("symptoms", .str f.symptoms), ("diagnoses", .str f.diagnoses),
    ("treatments", .str f.treatments), ("notes", .str f.notes)]

/-- The object that `handleImmunizationSubmit` builds; `parseInt` is the
engine's. -/
def immunizationPayload (parseInt : String → JSVal) (f : ImmunizationForm) : Record :=
  [("vaccineType", .str f.vaccineType), ("dose", parseInt f.dose),
    ("dateAdministered", .str f.dateAdministered),
    ("nextDueDate", if f.nextDueDate != "" then .str f.nextDueDate else .null)]

/-- The object that `handleReferralSubmit` builds. -/
def referralPayload (f : ReferralForm) : Record :=
  [("facility", .str f.facility), ("reason", .str f.reason), ("notes", .str f.notes),
    ("referralDate", .str f.referralDate)]

/-- What a submit handler did: it stopped at the validation, or it awaited
the `add*` call, whose outcome it reports in a toast. -/
inductive Handled where
  | invalid
  | submitted (result : Except String String)
  deriving DecidableEq, Repr

/-- `handleVisitSubmit`, as far as the stores are concerned. -/
def handleVisitSubmit (parse : String → Option Int) (env : Env) (w : World)
    (patientId : String) (f : VisitForm) : World × Handled :=
  if !validateVisitForm f then (w, .invalid)
  else
    let r := addPatientVisit parse env w patientId (visitPayload f)
    (r.1, .submitted r.2)

/-- `handleImmunizationSubmit`, as far as the stores are concerned. -/
def handleImmunizationSubmit (parse : String → Option Int) (toNumber : String → Option ℚ)
    (parseInt : String → JSVal) (env : Env) (w : World) (patientId : String)
    (f : ImmunizationForm) : World × Handled :=
  if !validateImmunizationForm toNumber f then (w, .invalid)
  else
    let r := addImmunization parse env w patientId (immunizationPayload parseInt f)
    (r.1, .submitted r.2)

/-- `handleReferralSubmit`, as far as the stores are concerned. -/
def handleReferralSubmit (parse : String → Option Int) (env : Env) (w : World)
    (patientId : String) (f : ReferralForm) : World × Handled :=
  if !validateReferralForm f then (w, .invalid)
  else
    let r := addReferral parse env w patientId (referralPayload f)
    (r.1, .submitted r.2)

/-! ## Notions and sample data for the remaining properties -/

/-- The `lastVisit` of a patient document: the stamp of the last accepted update. -/
def lastVisitOf (w : World) (patientId : String) : Option String :=
  (w.lastVisit.reverse.find? (fun u => u.1 == patientId)).map (fun u => u.2)

/-- A conversion of the strings of decimal digits to numbers, for examples. -/
def decimalNumber (s : String) : Option ℚ :=
  match s.data with
  | [] => none
  | cs => (digitsVal cs).map (fun n => (n : ℚ))

/-- A `parseInt` for the strings of decimal digits, for examples. -/
def decimalParseInt (s : String) : JSVal :=
  match s.data with
  | [] => .nan
  | cs =>
    match digitsVal cs with
    | some n => .num n
    | none => .nan

/-- An environment in which the table cannot be read. -/
def brokenTableEnv : Env := { quietEnv with localFault := some "database closed" }

/-- A pending row of a type that the loop does not deliver. -/
def strayNote : OfflineDoc :=
  { id := "note_P1_1704067200000", type := "note", patientId := "P1",
    data := [("text", .str "call back")], createdAt := "2024-01-01T00:00:00.000Z",
    synced := false }

/-- Stores holding that row only. -/
def strayWorld : World := { offlineData := [strayNote], remote := [], lastVisit := [] }

/-- A pending visit whose notes end in a blank. -/
def restVisit : OfflineDoc :=
  { id := "visit_P1_1704067200000", type := "visit", patientId := "P1", data := restPayload,
    createdAt := "2024-01-01T00:00:00.000Z", synced := false }

/-- Stores holding that visit only. -/
def restWorld : World := { offlineData := [restVisit], remote := [], lastVisit := [] }

/-- Immunization records as the read merger returns them: one overdue, one
overdue but pending, one due later, one without a due date. -/
def shotRecords : List Record :=
  [[("id", .str "r0"), ("vaccineType", .str "MMR"), ("nextDueDate", .str "2023-12-01")],
   [("id", .str "immunization_P1_1"), ("vaccineType", .str "BCG"),
     ("nextDueDate", .str "2023-11-01"), ("offline", .bool true)],
   [("id", .str "r1"), ("vaccineType", .str "OPV"), ("nextDueDate", .str "2024-06-01")],
   [("id", .str "r2"), ("vaccineType", .str "HepB"), ("nextDueDate", .null)]]

/-- A visit form that passes the validation. -/
def goodVisitForm : VisitForm :=
  { date := "2024-01-01", symptoms := "fever", diagnoses := "flu", treatments := "rest",
    notes := "review in a week" }

/-- A visit form whose date is not of the form `YYYY-MM-DD`. -/
def badDateForm : VisitForm := { goodVisitForm with date := "01/01/2024" }

/-- An immunization form whose dose is 0. -/
def zeroDoseForm : ImmunizationForm :=
  { vaccineType := "MMR", dose := "0", dateAdministered := "2024-01-01", nextDueDate := "" }

/-- A referral form whose reason is blank. -/
def blankReasonForm : ReferralForm :=
  { facility := "North", reason := "  ", notes := "urgent", referralDate := "2024-01-01" }

/-! ## Notions and sample data for the properties of the drain -/

/-- Whether the turn lets the delivery through: neither the read of the table
by the `add*` function nor `addDoc` rejects. -/
def accepts (env : Env) : Bool :=
  env.localFault.isNone && env.createFault.isNone

/-- The sub-collection in which the loop creates the document of a row: that
of the `add*` function it dispatches the row to. -/
def collectionOf (type : String) : String :=
  if type == "visit" then visitKind.collection
  else if type == "immunization" then immunizationKind.collection
  else referralKind.collection

/-- The rows of `docs` whose turn lets the delivery through, the first row
having the turn `i`. -/
def acceptedRows (envs : Nat → Env) : Nat → List OfflineDoc → List OfflineDoc
  | _, [] => []
  | i, d :: ds =>
    if accepts (envs i) then d :: acceptedRows envs (i + 1) ds
    else acceptedRows envs (i + 1) ds

/-- The rows of `docs` whose turn rejects the delivery, the first row having
the turn `i`. -/
def rejectedRows (envs : Nat → Env) : Nat → List OfflineDoc → List OfflineDoc
  | _, [] => []
  | i, d :: ds =>
    if accepts (envs i) then rejectedRows envs (i + 1) ds
    else d :: rejectedRows envs (i + 1) ds

/-- The patient and the sub-collection of a remote document. -/
def remoteKey (d : RemoteDoc) : String × String := (d.patientId, d.collection)

/-- The patient and the sub-collection in which a row is to be delivered. -/
def targetKey (d : OfflineDoc) : String × String := (d.patientId, collectionOf d.type)

/-- A call of the sync coordinator during which the connection drops: online
at the call, offline in every turn of the loop. -/
def dropSync : SyncEnv := { online := true, queryFault := none, turn := fun _ => offlineEnvLater }

/-- A call of the sync coordinator in which every marking rejects. -/
def markFailsSync : SyncEnv :=
  { online := true, queryFault := none,
    turn := fun _ => { quietEnv with markFault := some "database closed" } }

/-- Stores holding a pending row of another type and a pending visit (in key order). -/
def strayAndVisit : World :=
  { offlineData := [strayNote, feverVisit], remote := [], lastVisit := [] }

/-- A pending visit whose notes are a number and not a text. -/
def tallyVisit : OfflineDoc :=
  { id := "visit_P1_1704067200000", type := "visit", patientId := "P1",
    data := [("date", .str "2024-01-01"), ("notes", .num 5)],
    createdAt := "2024-01-01T00:00:00.000Z", synced := false }

/-- Stores holding that visit only. -/
def tallyWorld : World := { offlineData := [tallyVisit], remote := [], lastVisit := [] }

/-! ## Lemmas and properties -/

theorem getField_nil (k : String) : getField [] k = .undefined := rfl

theorem getField_cons (a : String) (b : JSVal) (r : Record) (k : String) :
    getField ((a, b) :: r) k = if k = a then b else getField r k := by
  unfold getField
  by_cases h : k = a
  · subst h; simp [List.lookup]
  · have : (k == a) = false := by simpa using h
    simp [List.lookup, this, h]

theorem hasField_cons (a : String) (b : JSVal) (r : Record) (k : String) :
    hasField ((a, b) :: r) k = (decide (k = a) || hasField r k) := by
  unfold hasField
  by_cases h : k = a
  · subst h; simp
  · have h' : ¬ a = k := fun e => h e.symm
    simp [h, h']

theorem getField_of_hasField_false (r : Record) (k : String) (h : hasField r k = false) :
    getField r k = .undefined := by
  induction r with
  | nil => rfl
  | cons p r ih =>
    obtain ⟨a, b⟩ := p
    rw [hasField_cons] at h
    simp only [Bool.or_eq_false_iff, decide_eq_false_iff_not] at h
    rw [getField_cons, if_neg h.1, ih h.2]

theorem getField_setField (r : Record) (k : String) (v : JSVal) (k' : String) :
    getField (setField r k v) k' = if k' = k then v else getField r k' := by
  induction r with
  | nil => simp [setField, getField_cons, getField_nil]
  | cons p r ih =>
    obtain ⟨a, b⟩ := p
    by_cases hak : a = k
    · subst hak
      by_cases h1 : k' = a <;> simp [setField, getField_cons, h1]
    · have : (a == k) = false := by simpa using hak
      simp only [setField, this, Bool.false_eq_true, if_false, getField_cons, ih]
      by_cases h1 : k' = a
      · subst h1; simp [hak]
      · simp [h1]

theorem hasField_setField (r : Record) (k : String) (v : JSVal) (k' : String) :
    hasField (setField r k v) k' = (hasField r k' || decide (k' = k)) := by
  induction r with
  | nil =>
    by_cases h1 : k' = k
    · subst h1; simp [setField, hasField]
    · have h2 : ¬ k = k' := fun e => h1 e.symm
      simp [setField, hasField, h1, h2]
  | cons p r ih =>
    obtain ⟨a, b⟩ := p
    by_cases hak : a = k
    · subst hak
      by_cases h1 : k' = a <;> simp [setField, hasField_cons, h1]
    · have : (a == k) = false := by simpa using hak
      simp only [setField, this, Bool.false_eq_true, if_false, hasField_cons, ih]
      simp [Bool.or_assoc]

theorem hasField_spread (t s : Record) (k : String) :
    hasField (spread t s) k = (hasField t k || hasField s k) := by
  induction s generalizing t with
  | nil => simp [spread, hasField]
  | cons p s ih =>
    obtain ⟨a, b⟩ := p
    have : spread t ((a, b) :: s) = spread (setField t a b) s := rfl
    rw [this, ih, hasField_setField, hasField_cons, Bool.or_assoc]

theorem getField_spread (t s : Record) (hs : (s.map Prod.fst).Nodup) (k : String) :
    getField (spread t s) k = if hasField s k then getField s k else getField t k := by
  induction s generalizing t with
  | nil => simp [spread, hasField]
  | cons p s ih =>
    obtain ⟨a, b⟩ := p
    have e : spread t ((a, b) :: s) = spread (setField t a b) s := rfl
    simp only [List.map_cons, List.nodup_cons] at hs
    rw [e, ih _ hs.2, getField_setField, hasField_cons, getField_cons]
    by_cases h : k = a
    · subst h
      have hn : hasField s k = false := by
        cases hh : hasField s k with
        | false => rfl
        | true =>
          exfalso
          apply hs.1
          simp only [hasField, List.any_eq_true] at hh
          obtain ⟨x, hx, hxk⟩ := hh
          have : x.1 = k := by simpa using hxk
          exact this ▸ List.mem_map_of_mem Prod.fst hx
      simp [hn]
    · simp [h]

theorem numGt_irrefl (x : Option Int) : numGt x x = false := by
  cases x <;> simp [numGt]

theorem remoteTimestamp_of_dateGetTime (parse : String → Option Int) (r : Record) (t : Int)
    (h : dateGetTime parse (getField r "createdAt") = some t) :
    remoteTimestamp parse r = some t := by
  unfold remoteTimestamp
  cases hv : getField r "createdAt" with
  | undefined => simp [hv, dateGetTime] at h
  | null => simp [hv, dateGetTime] at h; simp [JSVal.truthy, h]
  | bool b =>
    cases b
    · simp [hv, dateGetTime] at h; simp [JSVal.truthy, h]
    · simp [hv, dateGetTime] at h; simp [JSVal.truthy, dateGetTime, h]
  | num n =>
    rw [hv] at h
    by_cases hn : n = 0
    · subst hn; simp [dateGetTime] at h; simp [JSVal.truthy, h]
    · simp [JSVal.truthy, hn, h]
  | nan => simp [hv, dateGetTime] at h
  | str s =>
    rw [hv] at h
    by_cases hs : s = ""
    · subst hs; simp [dateGetTime] at h
    · simp [JSVal.truthy, hs, h]

theorem no_winner_of_equal (parse : String → Option Int) (l r : Record)
    (h : dateGetTime parse (getField l "createdAt") = dateGetTime parse (getField r "createdAt")) :
    numGt (localTimestamp parse l) (remoteTimestamp parse r) = false ∧
    numGt (remoteTimestamp parse r) (localTimestamp parse l) = false := by
  unfold localTimestamp
  cases ht : dateGetTime parse (getField r "createdAt") with
  | none =>
    rw [ht] at h
    rw [h]
    cases remoteTimestamp parse r <;> simp [numGt]
  | some t =>
    rw [remoteTimestamp_of_dateGetTime parse r t ht, h, ht]
    exact ⟨numGt_irrefl _, numGt_irrefl _⟩

theorem resolveConflict_of_equal (parse : String → Option Int) (type pid : String) (l r : Record)
    (h : dateGetTime parse (getField l "createdAt") = dateGetTime parse (getField r "createdAt")) :
    resolveConflict parse type pid l r = mergeEqual type l r := by
  obtain ⟨h1, h2⟩ := no_winner_of_equal parse l r h
  simp [resolveConflict, h1, h2]

theorem trimmedNotes_of_text (r : Record) (h : notesAreText r = true) :
    trimmedNotes (getField r "notes") = .ok (jsTrim (notesText r)) := by
  unfold notesAreText at h
  unfold notesText trimmedNotes
  cases hv : getField r "notes" with
  | str s =>
    by_cases hs : s = ""
    · subst hs; simp [JSVal.truthy]
    · simp [JSVal.truthy, hs]
  | undefined => simp [JSVal.truthy]
  | null => simp [JSVal.truthy]
  | nan => simp [JSVal.truthy]
  | bool b => rw [hv] at h; cases b <;> simp_all [JSVal.truthy]
  | num n =>
    rw [hv] at h
    by_cases hn : n = 0
    · subst hn; simp [JSVal.truthy]
    · simp [JSVal.truthy, hn] at h

theorem joinNotes_trim (a b : String) : joinNotes (jsTrim a) (jsTrim b) = notesUnion a b := by
  unfold joinNotes notesUnion
  congr 2
  simp only [List.map_cons, List.map_nil]
  apply List.filter_congr
  intro x _
  by_cases hx : x = "" <;> simp [hx]

theorem getField_merged (l r : Record) (hl : uniqueKeys l) (hr : uniqueKeys r) (k : String) :
    getField (spread (spread [] r) l) k = if hasField l k then getField l k else getField r k := by
  rw [getField_spread _ _ hl, getField_spread _ _ hr]
  cases h1 : hasField l k with
  | true => simp
  | false =>
    cases h2 : hasField r k with
    | true => simp
    | false => simp [getField_of_hasField_false r k h2, getField_nil]

theorem hasField_merged (l r : Record) (k : String) :
    hasField (spread (spread [] r) l) k = (hasField r k || hasField l k) := by
  rw [hasField_spread, hasField_spread]
  simp [hasField]

/-- C6: when both `createdAt` denote instants, a strictly later local record is
returned as it is, and a strictly later remote record is returned as it is,
for every record type. -/
theorem resolveConflict_timestamp_precedence (parse : String → Option Int)
    (type patientId : String) (localData remoteData : Record) (tl tr : Int)
    (hl : dateGetTime parse (getField localData "createdAt") = some tl)
    (hr : dateGetTime parse (getField remoteData "createdAt") = some tr) :
    (tr < tl → resolveConflict parse type patientId localData remoteData = .ok localData) ∧
    (tl < tr → resolveConflict parse type patientId localData remoteData = .ok remoteData) := by
  have hrt := remoteTimestamp_of_dateGetTime parse remoteData tr hr
  constructor
  · intro h
    simp [resolveConflict, localTimestamp, hl, hrt, numGt, h]
  · intro h
    have h' : ¬ tr < tl := by omega
    simp [resolveConflict, localTimestamp, hl, hrt, numGt, h, h']

theorem resolveConflict_timestamp_precedence_witness :
    resolveConflict parseISO "immunization" "P1"
        [("notes", .str "later"), ("createdAt", .str "2024-01-02T00:00:00.000Z")]
        [("notes", .str "earlier"), ("createdAt", .str "2024-01-01T00:00:00.000Z")]
      = .ok [("notes", .str "later"), ("createdAt", .str "2024-01-02T00:00:00.000Z")] :=
  (resolveConflict_timestamp_precedence parseISO "immunization" "P1"
    [("notes", .str "later"), ("createdAt", .str "2024-01-02T00:00:00.000Z")]
    [("notes", .str "earlier"), ("createdAt", .str "2024-01-01T00:00:00.000Z")]
    1704153600000 1704067200000 (by decide) (by decide)).1 (by decide)

theorem mergeEqual_notes_type (type : String) (l r : Record)
    (ht : type = "visit" ∨ type = "referral")
    (hl : notesAreText l = true) (hr : notesAreText r = true) :
    mergeEqual type l r =
      .ok (setField (spread (spread [] r) l) "notes"
        (.str (notesUnion (notesText r) (notesText l)))) := by
  have hb : (type == "visit" || type == "referral") = true := by
    rcases ht with h | h <;> simp [h]
  simp only [mergeEqual, hb, if_true, trimmedNotes_of_text r hr, trimmedNotes_of_text l hl,
    joinNotes_trim]

theorem mergeEqual_other_type (type : String) (l r : Record)
    (h1 : type ≠ "visit") (h2 : type ≠ "referral") :
    mergeEqual type l r = .ok (spread (spread [] r) l) := by
  simp [mergeEqual, h1, h2]

/-- C7 (amended): with equal `createdAt`, for the types visit and referral and
notes that are text, the merged `notes` is the newline-join of the distinct,
non-empty, trimmed notes of the remote and the local side ("B" and "A" give
"B\nA", "A" and "A" give "A"); for every other type, immunization among them,
`notes` is overlaid like any other field. -/
theorem resolveConflict_equal_notes (parse : String → Option Int) (type patientId : String)
    (localData remoteData : Record)
    (heq : dateGetTime parse (getField localData "createdAt")
      = dateGetTime parse (getField remoteData "createdAt"))
    (hl : uniqueKeys localData) (hr : uniqueKeys remoteData) :
    ((type = "visit" ∨ type = "referral") →
      notesAreText localData = true → notesAreText remoteData = true →
      ∃ merged, resolveConflict parse type patientId localData remoteData = .ok merged ∧
        getField merged "notes"
          = .str (notesUnion (notesText remoteData) (notesText localData))) ∧
    (type ≠ "visit" → type ≠ "referral" →
      ∃ merged, resolveConflict parse type patientId localData remoteData = .ok merged ∧
        getField merged "notes"
          = if hasField localData "notes" then getField localData "notes"
            else getField remoteData "notes") ∧
    notesUnion "B" "A" = "B\nA" ∧ notesUnion "A" "A" = "A" := by
  rw [resolveConflict_of_equal parse type patientId localData remoteData heq]
  refine ⟨?_, ?_, by decide, by decide⟩
  · intro ht hnl hnr
    refine ⟨_, mergeEqual_notes_type type localData remoteData ht hnl hnr, ?_⟩
    rw [getField_setField]
    simp
  · intro h1 h2
    exact ⟨_, mergeEqual_other_type type localData remoteData h1 h2,
      getField_merged localData remoteData hl hr "notes"⟩

theorem resolveConflict_equal_notes_witness :
    ∃ merged, resolveConflict parseISO "visit" "P1"
        [("createdAt", .str "2024-01-01T00:00:00.000Z"), ("notes", .str " A ")]
        [("createdAt", .str "2024-01-01T00:00:00.000Z"), ("notes", .str "B")] = .ok merged ∧
      getField merged "notes" = .str "B\nA" :=
  (resolveConflict_equal_notes parseISO "visit" "P1"
    [("createdAt", .str "2024-01-01T00:00:00.000Z"), ("notes", .str " A ")]
    [("createdAt", .str "2024-01-01T00:00:00.000Z"), ("notes", .str "B")]
    (by decide) (by decide) (by decide)).1 (Or.inl rfl) (by decide) (by decide)

/-- C7 as stated fails for the type immunization: with equal `createdAt` and
notes "A" (local) and "B" (remote), the merged notes are "A" alone. -/
theorem resolveConflict_immunization_notes_overwritten :
    resolveConflict parseISO "immunization" "P1"
        [("createdAt", .str "2024-01-01T00:00:00.000Z"), ("notes", .str "A")]
        [("createdAt", .str "2024-01-01T00:00:00.000Z"), ("notes", .str "B")]
      = .ok [("createdAt", .str "2024-01-01T00:00:00.000Z"), ("notes", .str "A")] ∧
    notesUnion "A" "B" = "A\nB" ∧ notesUnion "B" "A" = "B\nA" := by
  decide

/-- C8 (amended): with equal `createdAt`, the merged record has the fields of
the two records, and the field `notes` besides for the types visit and
referral; every field other than `notes` has the local value when the local
record has the field and the remote value otherwise. -/
theorem resolveConflict_equal_fields (parse : String → Option Int) (type patientId : String)
    (localData remoteData : Record)
    (heq : dateGetTime parse (getField localData "createdAt")
      = dateGetTime parse (getField remoteData "createdAt"))
    (hl : uniqueKeys localData) (hr : uniqueKeys remoteData)
    (hnotes : (type = "visit" ∨ type = "referral") →
      notesAreText localData = true ∧ notesAreText remoteData = true) :
    ∃ merged, resolveConflict parse type patientId localData remoteData = .ok merged ∧
      (∀ k, hasField merged k = true ↔
        (hasField remoteData k = true ∨ hasField localData k = true ∨
          (k = "notes" ∧ (type = "visit" ∨ type = "referral")))) ∧
      (∀ k, k ≠ "notes" →
        getField merged k
          = if hasField localData k then getField localData k else getField remoteData k) := by
  rw [resolveConflict_of_equal parse type patientId localData remoteData heq]
  by_cases ht : type = "visit" ∨ type = "referral"
  · obtain ⟨hnl, hnr⟩ := hnotes ht
    refine ⟨_, mergeEqual_notes_type type localData remoteData ht hnl hnr, ?_, ?_⟩
    · intro k
      rw [hasField_setField, hasField_merged]
      simp only [Bool.or_eq_true, decide_eq_true_eq]
      constructor
      · rintro ((h | h) | h)
        · exact Or.inl h
        · exact Or.inr (Or.inl h)
        · exact Or.inr (Or.inr ⟨h, ht⟩)
      · rintro (h | h | ⟨h, _⟩)
        · exact Or.inl (Or.inl h)
        · exact Or.inl (Or.inr h)
        · exact Or.inr h
    · intro k hk
      rw [getField_setField, if_neg hk, getField_merged localData remoteData hl hr]
  · have h1 : type ≠ "visit" := fun h => ht (Or.inl h)
    have h2 : type ≠ "referral" := fun h => ht (Or.inr h)
    refine ⟨_, mergeEqual_other_type type localData remoteData h1 h2, ?_, ?_⟩
    · intro k
      rw [hasField_merged]
      simp only [Bool.or_eq_true]
      constructor
      · rintro (h | h)
        · exact Or.inl h
        · exact Or.inr (Or.inl h)
      · rintro (h | h | ⟨_, h⟩)
        · exact Or.inl h
        · exact Or.inr h
        · exact absurd h ht
    · intro k _
      exact getField_merged localData remoteData hl hr k

theorem resolveConflict_equal_fields_witness :
    ∃ merged, resolveConflict parseISO "referral" "P1"
        [("createdAt", .str "2024-01-01T00:00:00.000Z"), ("facility", .str "North"),
          ("notes", .str "A")]
        [("createdAt", .str "2024-01-01T00:00:00.000Z"), ("facility", .str "South"),
          ("reason", .str "x-ray")] = .ok merged ∧
      (∀ k, hasField merged k = true ↔
        (hasField [("createdAt", JSVal.str "2024-01-01T00:00:00.000Z"),
            ("facility", .str "South"), ("reason", .str "x-ray")] k = true ∨
          hasField [("createdAt", JSVal.str "2024-01-01T00:00:00.000Z"),
            ("facility", .str "North"), ("notes", .str "A")] k = true ∨
          (k = "notes" ∧ ("referral" = "visit" ∨ "referral" = "referral")))) ∧
      (∀ k, k ≠ "notes" →
        getField merged k
          = if hasField [("createdAt", JSVal.str "2024-01-01T00:00:00.000Z"),
              ("facility", .str "North"), ("notes", .str "A")] k
            then getField [("createdAt", JSVal.str "2024-01-01T00:00:00.000Z"),
              ("facility", .str "North"), ("notes", .str "A")] k
            else getField [("createdAt", JSVal.str "2024-01-01T00:00:00.000Z"),
              ("facility", .str "South"), ("reason", .str "x-ray")] k) :=
  resolveConflict_equal_fields parseISO "referral" "P1"
    [("createdAt", .str "2024-01-01T00:00:00.000Z"), ("facility", .str "North"),
      ("notes", .str "A")]
    [("createdAt", .str "2024-01-01T00:00:00.000Z"), ("facility", .str "South"),
      ("reason", .str "x-ray")]
    (by decide) (by decide) (by decide) (fun _ => ⟨by decide, by decide⟩)

/-- C8 as stated fails for a visit when neither record has notes: the merged
record has a field `notes` that is in neither of the two records. -/
theorem resolveConflict_adds_notes_field :
    resolveConflict parseISO "visit" "P1"
        [("createdAt", .str "2024-01-01T00:00:00.000Z"), ("date", .str "2024-01-01")]
        [("createdAt", .str "2024-01-01T00:00:00.000Z"), ("date", .str "2024-01-01")]
      = .ok [("createdAt", .str "2024-01-01T00:00:00.000Z"), ("date", .str "2024-01-01"),
          ("notes", .str "")] ∧
    hasField [("createdAt", JSVal.str "2024-01-01T00:00:00.000Z"),
      ("date", .str "2024-01-01")] "notes" = false ∧
    hasField [("createdAt", JSVal.str "2024-01-01T00:00:00.000Z"), ("date", .str "2024-01-01"),
      ("notes", .str "")] "notes" = true := by
  decide

/-- The online branch of `submit` leaves the local table alone and creates at
most one remote document; when the update of `lastVisit` does not reject, a
created document means a fulfilled call. -/
theorem submit_online_facts (parse : String → Option Int) (k : Kind) (env : Env) (w : World)
    (pid : String) (data : Record) (h : env.online = true) :
    (submit parse k env w pid data).1.offlineData = w.offlineData ∧
    w.remote.length ≤ (submit parse k env w pid data).1.remote.length ∧
    (submit parse k env w pid data).1.remote.length ≤ w.remote.length + 1 ∧
    (env.updateFault = none →
      (submit parse k env w pid data).1.remote.length = w.remote.length + 1 →
      ∃ v, (submit parse k env w pid data).2 = .ok v) := by
  simp only [submit, h, if_true, getOfflineData, addDoc, updateDoc]
  cases hl : env.localFault with
  | some m => simp
  | none =>
    simp only []
    generalize (match List.find? (matchesKey k data)
        (List.filter (fun doc => doc.patientId == pid && doc.synced == false) w.offlineData) with
      | some offlineDoc => resolveConflict parse k.type pid data offlineDoc.data
      | none => Except.ok data) = resolved
    cases resolved with
    | error m => simp
    | ok d =>
      cases hc : env.createFault with
      | some m => simp
      | none =>
        cases hs : k.stampsLastVisit with
        | false => simp
        | true =>
          cases hu : env.updateFault with
          | some m => simp
          | none => simp

theorem dispatch_online_facts (parse : String → Option Int) (env : Env) (w : World)
    (doc : OfflineDoc) (h : env.online = true) :
    (dispatch parse env w doc).1.offlineData = w.offlineData ∧
    w.remote.length ≤ (dispatch parse env w doc).1.remote.length ∧
    (dispatch parse env w doc).1.remote.length ≤ w.remote.length + 1 ∧
    (env.updateFault = none →
      (dispatch parse env w doc).1.remote.length = w.remote.length + 1 →
      ∃ v, (dispatch parse env w doc).2 = .ok v) := by
  unfold dispatch addPatientVisit addImmunization addReferral
  split
  · exact submit_online_facts parse visitKind env w doc.patientId doc.data h
  · split
    · exact submit_online_facts parse immunizationKind env w doc.patientId doc.data h
    · split
      · exact submit_online_facts parse referralKind env w doc.patientId doc.data h
      · simp

theorem syncDoc_docId (parse : String → Option Int) (env : Env) (w : World) (doc : OfflineDoc) :
    (syncDoc parse env w doc).2.docId = doc.id := by
  unfold syncDoc
  split
  · rfl
  · split <;> rfl

theorem syncDoc_online_facts (parse : String → Option Int) (env : Env) (w : World)
    (doc : OfflineDoc) (h : env.online = true) :
    (syncDoc parse env w doc).1.offlineData
      = (if (syncDoc parse env w doc).2.marked then tableMarkSynced w.offlineData doc.id
          else w.offlineData) ∧
    (syncDoc parse env w doc).1.remote.length
      = w.remote.length + (syncDoc parse env w doc).2.created ∧
    (syncDoc parse env w doc).1.lastVisit = (dispatch parse env w doc).1.lastVisit ∧
    (syncDoc parse env w doc).2.created ≤ 1 ∧
    (env.updateFault = none → env.markFault = none →
      (syncDoc parse env w doc).2.created = 1 → (syncDoc parse env w doc).2.marked = true) := by
  obtain ⟨h1, h2, h3, h4⟩ := dispatch_online_facts parse env w doc h
  unfold syncDoc
  cases hd : dispatch parse env w doc with
  | mk w1 r =>
    rw [hd] at h1 h2 h3 h4
    simp only at h1 h2 h3 h4
    cases r with
    | error m =>
      refine ⟨by simpa using h1, by simp; omega, by simp, by simp; omega, ?_⟩
      intro hu _ hc
      simp only at hc
      obtain ⟨v, hv⟩ := h4 hu (by omega)
      cases hv
    | ok v =>
      cases hm : env.markFault with
      | some m =>
        refine ⟨by simpa using h1, by simp; omega, by simp, by simp; omega, ?_⟩
        intro _ hmf
        cases hmf
      | none =>
        refine ⟨by simp [h1], by simp; omega, by simp, by simp; omega, ?_⟩
        intro _ _ _
        rfl

theorem tableMarkSynced_eq_map (t : List OfflineDoc) (a : Attempt) (id : String)
    (ha : a.docId = id) :
    (if a.marked then tableMarkSynced t id else t)
      = t.map (fun r => { r with synced := r.synced || (a.docId == r.id && a.marked) }) := by
  subst ha
  cases hm : a.marked with
  | false => simp
  | true =>
    simp only [if_true, tableMarkSynced, Bool.and_true]
    apply List.map_congr_left
    intro r _
    by_cases h : r.id = a.docId
    · simp [h]
    · have h' : (a.docId == r.id) = false := by simpa using fun e => h (Eq.symm e)
      simp [h, h']

/-- The loop of the sync coordinator under connectivity: a row ends marked iff
it was marked before or a turn marked it, and there is one turn per row. -/
theorem syncLoop_online (parse : String → Option Int) (envs : Nat → Env)
    (honline : ∀ j, (envs j).online = true) (docs : List OfflineDoc) :
    ∀ (i : Nat) (w : World),
      (syncLoop parse envs i docs w).1.offlineData
        = w.offlineData.map (fun r =>
            { r with synced := r.synced || markedIn (syncLoop parse envs i docs w).2 r.id }) ∧
      (syncLoop parse envs i docs w).2.map (fun a => a.docId) = docs.map (fun d => d.id) := by
  induction docs with
  | nil =>
    intro i w
    simp [syncLoop, markedIn]
  | cons d ds ih =>
    intro i w
    obtain ⟨h1, _⟩ := syncDoc_online_facts parse (envs i) w d (honline i)
    obtain ⟨ih1, ih2⟩ := ih (i + 1) (syncDoc parse (envs i) w d).1
    simp only [syncLoop]
    refine ⟨?_, ?_⟩
    · rw [ih1, h1, tableMarkSynced_eq_map _ _ _ (syncDoc_docId parse (envs i) w d),
        List.map_map]
      apply List.map_congr_left
      intro r _
      simp [markedIn, Bool.or_assoc]
    · simp [ih2, syncDoc_docId]

theorem syncOfflineData_online (parse : String → Option Int) (se : SyncEnv) (w : World)
    (hon : se.online = true) (hq : se.queryFault = none) :
    (syncOfflineData parse se w).world = (syncLoop parse se.turn 0 (pendingDocs w) w).1 ∧
    (syncOfflineData parse se w).attempts = (syncLoop parse se.turn 0 (pendingDocs w) w).2 ∧
    (syncOfflineData parse se w).result = .ok (pendingDocs w).length := by
  simp [syncOfflineData, syncWithFirestore, hon, hq]

theorem resolveConflict_total (parse : String → Option Int) (type pid : String) (l r : Record)
    (h : (type = "visit" ∨ type = "referral") →
      notesAreText l = true ∧ notesAreText r = true) :
    ∃ m, resolveConflict parse type pid l r = .ok m := by
  unfold resolveConflict
  simp only []
  split
  · exact ⟨_, rfl⟩
  · split
    · exact ⟨_, rfl⟩
    · by_cases ht : type = "visit" ∨ type = "referral"
      · exact ⟨_, mergeEqual_notes_type type l r ht (h ht).1 (h ht).2⟩
      · exact ⟨_, mergeEqual_other_type type l r (fun e => ht (Or.inl e)) (fun e => ht (Or.inr e))⟩

theorem matchesKey_type (k : Kind) (data : Record) (doc : OfflineDoc)
    (h : matchesKey k data doc = true) : doc.type = k.type := by
  simp only [matchesKey, Bool.and_eq_true, beq_iff_eq] at h
  exact h.1

theorem submit_online_ok (parse : String → Option Int) (k : Kind) (env : Env) (w : World)
    (pid : String) (data : Record) (h : env.online = true) (hl : env.localFault = none)
    (hc : env.createFault = none) (hu : env.updateFault = none)
    (hw : pendingNotesAreText w.offlineData)
    (hd : (k.type = "visit" ∨ k.type = "referral") → notesAreText data = true) :
    ∃ v, (submit parse k env w pid data).2 = .ok v := by
  simp only [submit, h, if_true, getOfflineData, addDoc, updateDoc, hl, hc, hu]
  have hres : ∃ d, (match List.find? (matchesKey k data)
        (List.filter (fun doc => doc.patientId == pid && doc.synced == false) w.offlineData) with
      | some offlineDoc => resolveConflict parse k.type pid data offlineDoc.data
      | none => Except.ok data) = .ok d := by
    cases hf : List.find? (matchesKey k data)
        (List.filter (fun doc => doc.patientId == pid && doc.synced == false) w.offlineData) with
    | none => exact ⟨_, rfl⟩
    | some od =>
      have hmem := List.mem_of_find?_eq_some hf
      have hkey := List.find?_some hf
      simp only [List.mem_filter, Bool.and_eq_true, beq_iff_eq] at hmem
      apply resolveConflict_total
      intro ht
      refine ⟨hd ht, hw od hmem.1 hmem.2.2 ?_⟩
      rw [matchesKey_type k data od hkey]
      exact ht
  obtain ⟨d, hd'⟩ := hres
  rw [hd']
  cases k.stampsLastVisit <;> simp

theorem dispatch_online_ok (parse : String → Option Int) (env : Env) (w : World)
    (doc : OfflineDoc) (h : env.online = true) (hl : env.localFault = none)
    (hc : env.createFault = none) (hu : env.updateFault = none)
    (hw : pendingNotesAreText w.offlineData)
    (hd : (doc.type = "visit" ∨ doc.type = "referral") → notesAreText doc.data = true) :
    ∃ v, (dispatch parse env w doc).2 = .ok v := by
  unfold dispatch addPatientVisit addImmunization addReferral
  split
  · next ht =>
    have ht' : doc.type = "visit" := by simpa using ht
    exact submit_online_ok parse visitKind env w doc.patientId doc.data h hl hc hu hw
      (fun _ => hd (Or.inl ht'))
  · split
    · exact submit_online_ok parse immunizationKind env w doc.patientId doc.data h hl hc hu hw
        (fun e => by simp [immunizationKind] at e)
    · split
      · next ht =>
        have ht' : doc.type = "referral" := by simpa using ht
        exact submit_online_ok parse referralKind env w doc.patientId doc.data h hl hc hu hw
          (fun _ => hd (Or.inr ht'))
      · exact ⟨_, rfl⟩

theorem syncDoc_ok (parse : String → Option Int) (env : Env) (w : World) (doc : OfflineDoc)
    (hm : env.markFault = none) (hok : ∃ v, (dispatch parse env w doc).2 = .ok v) :
    (syncDoc parse env w doc).2.delivered = true ∧ (syncDoc parse env w doc).2.marked = true := by
  obtain ⟨v, hv⟩ := hok
  unfold syncDoc
  cases hd : dispatch parse env w doc with
  | mk w1 r =>
    rw [hd] at hv
    simp only at hv
    subst hv
    simp [hm]

theorem pendingNotesAreText_mark (t : List OfflineDoc) (id : String)
    (h : pendingNotesAreText t) : pendingNotesAreText (tableMarkSynced t id) := by
  intro r hr hs ht
  simp only [tableMarkSynced, List.mem_map] at hr
  obtain ⟨r0, hr0, he⟩ := hr
  by_cases hid : r0.id = id
  · simp [hid] at he
    subst he
    simp at hs
  · have : (r0.id == id) = false := by simpa using hid
    simp [this] at he
    subst he
    exact h r0 hr0 hs ht

theorem syncLoop_all_marked (parse : String → Option Int) (envs : Nat → Env)
    (hgood : ∀ j, quietTurn (envs j)) (docs : List OfflineDoc) :
    ∀ (i : Nat) (w : World), pendingNotesAreText w.offlineData →
      (∀ d ∈ docs, (d.type = "visit" ∨ d.type = "referral") → notesAreText d.data = true) →
      ∀ a ∈ (syncLoop parse envs i docs w).2, a.delivered = true ∧ a.marked = true := by
  induction docs with
  | nil => intro i w _ _ a ha; simp [syncLoop] at ha
  | cons d ds ih =>
    intro i w hw hdocs a ha
    obtain ⟨hon, hl, hc, hu, hm⟩ := hgood i
    have hok := syncDoc_ok parse (envs i) w d hm
      (dispatch_online_ok parse (envs i) w d hon hl hc hu hw
        (hdocs d (List.mem_cons_self _ _)))
    simp only [syncLoop, List.mem_cons] at ha
    rcases ha with ha | ha
    · subst ha; exact hok
    · refine ih (i + 1) _ ?_ (fun d' hd' => hdocs d' (List.mem_cons_of_mem _ hd')) a ha
      rw [(syncDoc_online_facts parse (envs i) w d hon).1, hok.2]
      exact pendingNotesAreText_mark _ _ hw

theorem submit_online_ok_length (parse : String → Option Int) (k : Kind) (env : Env)
    (w : World) (pid : String) (data : Record) (h : env.online = true)
    (hok : ∃ v, (submit parse k env w pid data).2 = .ok v) :
    (submit parse k env w pid data).1.remote.length = w.remote.length + 1 := by
  revert hok
  simp only [submit, h, if_true, getOfflineData, addDoc, updateDoc]
  cases hl : env.localFault with
  | some m => simp
  | none =>
    simp only []
    generalize (match List.find? (matchesKey k data)
        (List.filter (fun doc => doc.patientId == pid && doc.synced == false) w.offlineData) with
      | some offlineDoc => resolveConflict parse k.type pid data offlineDoc.data
      | none => Except.ok data) = resolved
    cases resolved with
    | error m => simp
    | ok d =>
      cases hc : env.createFault with
      | some m => simp
      | none =>
        cases hs : k.stampsLastVisit with
        | false => simp
        | true =>
          cases hu : env.updateFault with
          | some m => simp
          | none => simp

theorem dispatch_online_ok_length (parse : String → Option Int) (env : Env) (w : World)
    (doc : OfflineDoc) (h : env.online = true)
    (hok : ∃ v, (dispatch parse env w doc).2 = .ok v) :
    (dispatch parse env w doc).1.remote.length
      = w.remote.length + (if knownType doc then 1 else 0) := by
  revert hok
  unfold dispatch addPatientVisit addImmunization addReferral knownType
  split
  · next ht =>
    intro hok
    simp only [ht, Bool.true_or, if_true]
    exact submit_online_ok_length parse visitKind env w doc.patientId doc.data h hok
  · split
    · next ht =>
      intro hok
      simp only [ht, Bool.true_or, Bool.or_true, if_true]
      exact submit_online_ok_length parse immunizationKind env w doc.patientId doc.data h hok
    · split
      · next ht =>
        intro hok
        simp only [ht, Bool.or_true, if_true]
        exact submit_online_ok_length parse referralKind env w doc.patientId doc.data h hok
      · next h1 h2 h3 =>
        intro _
        simp [h1, h2, h3]

theorem syncDoc_remote (parse : String → Option Int) (env : Env) (w : World) (doc : OfflineDoc) :
    (syncDoc parse env w doc).1.remote = (dispatch parse env w doc).1.remote := by
  unfold syncDoc
  split
  · next hd => rw [hd]
  · next hd =>
    rw [hd]
    split <;> rfl

theorem mem_pendingDocs (w : World) (r : OfflineDoc) :
    r ∈ pendingDocs w ↔ r ∈ w.offlineData ∧ r.synced = false := by
  simp [pendingDocs, List.mem_filter]

theorem uniqueIds_pendingDocs (w : World) (h : uniqueIds w.offlineData) :
    ((pendingDocs w).map (fun d => d.id)).Nodup := by
  unfold uniqueIds at h
  exact h.sublist ((List.filter_sublist _).map _)

theorem markedIn_cons (a : Attempt) (tr : List Attempt) (id : String) :
    markedIn (a :: tr) id = ((a.docId == id && a.marked) || markedIn tr id) := by
  simp [markedIn]

theorem pendingId_mark (t : List OfflineDoc) (x y : String) :
    pendingId (tableMarkSynced t x) y = (pendingId t y && !(y == x)) := by
  induction t with
  | nil => simp [pendingId, tableMarkSynced]
  | cons r t ih =>
    have ih' : (List.map (fun r => if r.id == x then { r with synced := true } else r) t).any
        (fun r => r.id == y && r.synced == false)
        = (t.any (fun r => r.id == y && r.synced == false) && !(y == x)) := by
      simpa [pendingId, tableMarkSynced] using ih
    simp only [pendingId, tableMarkSynced, List.map_cons, List.any_cons, ih']
    by_cases hx : r.id = x
    · by_cases hy : r.id = y
      · have hyx : y = x := hy ▸ hx
        simp [hx, hyx]
      · have hy' : (r.id == y) = false := by simpa using hy
        have hxy : (x == y) = false := by simpa using fun e => hy (hx.trans e)
        simp [hx, hy', hxy]
    · have hx' : (r.id == x) = false := by simpa using hx
      by_cases hy : r.id = y
      · have hyx : (y == x) = false := by simpa using fun e => hx (hy.trans e)
        simp [hx', hy, hyx]
      · have hy' : (r.id == y) = false := by simpa using hy
        simp [hx', hy']

theorem createdFor_cons (id : String) (a : Attempt) (tr : List Attempt) :
    createdFor id (a :: tr) = (if a.docId == id then a.created else 0) + createdFor id tr := by
  unfold createdFor
  by_cases h : (a.docId == id) = true
  · simp [List.filter_cons, h]
  · simp [List.filter_cons, h]

theorem createdFor_append (id : String) (tr1 tr2 : List Attempt) :
    createdFor id (tr1 ++ tr2) = createdFor id tr1 + createdFor id tr2 := by
  simp [createdFor, List.filter_append]

/-- Through the loop, the documents created for a row and its being still
pending afterwards never exceed its being pending before. -/
theorem syncLoop_created (parse : String → Option Int) (envs : Nat → Env)
    (hturn : ∀ j, settledTurn (envs j)) (id : String) (docs : List OfflineDoc) :
    ∀ (i : Nat) (w : World), (docs.map (fun d => d.id)).Nodup →
      (∀ d ∈ docs, pendingId w.offlineData d.id = true) →
      createdFor id (syncLoop parse envs i docs w).2
          + (pendingId (syncLoop parse envs i docs w).1.offlineData id).toNat
        ≤ (pendingId w.offlineData id).toNat := by
  induction docs with
  | nil => intro i w _ _; simp [syncLoop, createdFor]
  | cons d ds ih =>
    intro i w hn hp
    obtain ⟨hon, hu, hm⟩ := hturn i
    obtain ⟨h1, _, _, h4, h5⟩ := syncDoc_online_facts parse (envs i) w d hon
    have hid := syncDoc_docId parse (envs i) w d
    simp only [List.map_cons, List.nodup_cons] at hn
    obtain ⟨hnot, hn'⟩ := hn
    have hp1 : ∀ d' ∈ ds, pendingId (syncDoc parse (envs i) w d).1.offlineData d'.id = true := by
      intro d' hd'
      have hne : d'.id ≠ d.id := fun e => hnot (e ▸ List.mem_map_of_mem (fun d => d.id) hd')
      have hne' : (d'.id == d.id) = false := by simpa using hne
      rw [h1]
      split
      · rw [pendingId_mark, hp d' (List.mem_cons_of_mem _ hd'), hne']; rfl
      · exact hp d' (List.mem_cons_of_mem _ hd')
    have ih' := ih (i + 1) (syncDoc parse (envs i) w d).1 hn' hp1
    simp only [syncLoop]
    rw [createdFor_cons, hid]
    have hpd := hp d (List.mem_cons_self _ _)
    by_cases hd : d.id = id
    · subst hd
      rw [hpd]
      simp only [beq_self_eq_true, if_true]
      by_cases hc : (syncDoc parse (envs i) w d).2.created = 0
      · rw [hc]
        have hle : (pendingId (syncDoc parse (envs i) w d).1.offlineData d.id).toNat ≤ 1 :=
          Bool.toNat_le _
        simp only [Bool.toNat_true]
        omega
      · have hc1 : (syncDoc parse (envs i) w d).2.created = 1 := by omega
        have hmk := h5 hu hm hc1
        rw [h1, hmk] at ih'
        simp only [if_true, pendingId_mark, beq_self_eq_true, Bool.not_true, Bool.and_false,
          Bool.toNat_false] at ih'
        rw [hc1]
        simp only [Bool.toNat_true]
        omega
    · have hd' : (d.id == id) = false := by simpa using hd
      have hd'' : (id == d.id) = false := by simpa using fun e => hd (Eq.symm e)
      have hsame : pendingId (syncDoc parse (envs i) w d).1.offlineData id
          = pendingId w.offlineData id := by
        rw [h1]
        split
        · rw [pendingId_mark, hd'']; simp
        · rfl
      rw [hsame] at ih'
      simp only [hd', Bool.false_eq_true, if_false]
      omega

theorem pendingId_of_mem_pendingDocs (w : World) (d : OfflineDoc) (h : d ∈ pendingDocs w) :
    pendingId w.offlineData d.id = true := by
  obtain ⟨h1, h2⟩ := (mem_pendingDocs w d).1 h
  simp only [pendingId, List.any_eq_true, Bool.and_eq_true, beq_iff_eq]
  exact ⟨d, h1, rfl, h2⟩

theorem syncOfflineData_idle (parse : String → Option Int) (se : SyncEnv) (w : World)
    (h : se.online = false ∨ se.queryFault ≠ none) :
    (syncOfflineData parse se w).world = w ∧ (syncOfflineData parse se w).attempts = [] := by
  unfold syncOfflineData syncWithFirestore
  cases ho : se.online with
  | false => simp
  | true =>
    cases hq : se.queryFault with
    | none => rcases h with h | h <;> simp_all
    | some m => simp

/-- One call of the sync coordinator: what it creates for a row, and the row
being pending afterwards, never exceed the row being pending before; the
keys of the table stay distinct. -/
theorem syncOfflineData_created (parse : String → Option Int) (se : SyncEnv) (w : World)
    (id : String) (hids : uniqueIds w.offlineData) (hturn : ∀ j, settledTurn (se.turn j)) :
    createdFor id (syncOfflineData parse se w).attempts
        + (pendingId (syncOfflineData parse se w).world.offlineData id).toNat
      ≤ (pendingId w.offlineData id).toNat ∧
    uniqueIds (syncOfflineData parse se w).world.offlineData := by
  by_cases h : se.online = true ∧ se.queryFault = none
  · obtain ⟨hw, ha, _⟩ := syncOfflineData_online parse se w h.1 h.2
    rw [hw, ha]
    refine ⟨syncLoop_created parse se.turn hturn id (pendingDocs w) 0 w
      (uniqueIds_pendingDocs w hids) (fun d hd => pendingId_of_mem_pendingDocs w d hd), ?_⟩
    rw [(syncLoop_online parse se.turn (fun j => (hturn j).1) (pendingDocs w) 0 w).1]
    unfold uniqueIds at hids ⊢
    rw [List.map_map]
    exact hids
  · have h' : se.online = false ∨ se.queryFault ≠ none := by
      by_cases ho : se.online = true
      · exact Or.inr (fun hq => h ⟨ho, hq⟩)
      · exact Or.inl (by simpa using ho)
    obtain ⟨hw, ha⟩ := syncOfflineData_idle parse se w h'
    rw [hw, ha]
    exact ⟨by simp [createdFor], hids⟩

theorem syncMany_created (parse : String → Option Int) (id : String) (ses : List SyncEnv) :
    ∀ w : World, uniqueIds w.offlineData →
      (∀ se ∈ ses, ∀ j, settledTurn (se.turn j)) →
      createdFor id (syncMany parse ses w).2
          + (pendingId (syncMany parse ses w).1.offlineData id).toNat
        ≤ (pendingId w.offlineData id).toNat := by
  induction ses with
  | nil => intro w _ _; simp [syncMany, createdFor]
  | cons se rest ih =>
    intro w hids hturn
    obtain ⟨h1, h2⟩ := syncOfflineData_created parse se w id hids
      (hturn se (List.mem_cons_self _ _))
    have ih' := ih (syncOfflineData parse se w).world h2
      (fun se' hse' => hturn se' (List.mem_cons_of_mem _ hse'))
    simp only [syncMany]
    rw [createdFor_append]
    omega

/-- C3 (amended): over any sequence of calls of the sync coordinator, one
after the other, in which no step after a remote create rejects (neither the
update of `lastVisit` nor the marking of the row; the client stays online),
the turns for one row create at most one remote document, and none for a row
that is not pending; a remote create may reject in any turn. -/
theorem drains_create_at_most_once (parse : String → Option Int) (ses : List SyncEnv)
    (w : World) (id : String) (hids : uniqueIds w.offlineData)
    (hturn : ∀ se ∈ ses, ∀ j, settledTurn (se.turn j)) :
    createdFor id (syncMany parse ses w).2 ≤ 1 ∧
    (pendingId w.offlineData id = false → createdFor id (syncMany parse ses w).2 = 0) := by
  have h := syncMany_created parse id ses w hids hturn
  have hle : (pendingId w.offlineData id).toNat ≤ 1 := Bool.toNat_le _
  refine ⟨by omega, ?_⟩
  intro hp
  rw [hp] at h
  simp only [Bool.toNat_false] at h
  omega

theorem drains_create_at_most_once_witness :
    createdFor "visit_P1_1704067200000"
        (syncMany parseISO [createFailsSync, quietSync, quietSync] oneVisit).2 ≤ 1 :=
  (drains_create_at_most_once parseISO [createFailsSync, quietSync, quietSync] oneVisit
    "visit_P1_1704067200000" (by decide)
    (by
      intro se hse j
      simp only [List.mem_cons, List.mem_singleton, List.not_mem_nil, or_false] at hse
      rcases hse with h | h | h <;> subst h <;> exact ⟨rfl, rfl, rfl⟩)).1

/-- C3 as stated fails: when the update of `lastVisit` rejects after the remote
create of a visit, the row stays pending and the next call creates a second
remote document for it. -/
theorem drain_retry_duplicates :
    createdFor "visit_P1_1704067200000"
        (syncMany parseISO [updateFailsSync, quietSync] oneVisit).2 = 2 ∧
    (syncMany parseISO [updateFailsSync, quietSync] oneVisit).1.remote.length = 2 ∧
    oneVisit.offlineData.length = 1 := by
  decide

theorem keys_setField (r : Record) (k : String) (v : JSVal) :
    (setField r k v).map Prod.fst
      = if k ∈ r.map Prod.fst then r.map Prod.fst else r.map Prod.fst ++ [k] := by
  induction r with
  | nil => simp [setField]
  | cons p r ih =>
    obtain ⟨a, b⟩ := p
    by_cases hak : a = k
    · subst hak; simp [setField]
    · have h1 : (a == k) = false := by simpa using hak
      have h2 : ¬ k = a := fun e => hak e.symm
      simp only [setField, h1, Bool.false_eq_true, if_false, List.map_cons, ih, List.mem_cons, h2,
        false_or]
      split <;> simp

theorem uniqueKeys_setField (r : Record) (k : String) (v : JSVal) (h : uniqueKeys r) :
    uniqueKeys (setField r k v) := by
  unfold uniqueKeys at h ⊢
  rw [keys_setField]
  split
  · exact h
  · next hk =>
    rw [List.nodup_append]
    refine ⟨h, List.nodup_singleton k, ?_⟩
    intro x hx hx'
    simp only [List.mem_singleton] at hx'
    exact hk (hx' ▸ hx)

theorem uniqueKeys_spread (s : Record) : ∀ t : Record, uniqueKeys t → uniqueKeys (spread t s) := by
  induction s with
  | nil => intro t h; exact h
  | cons p s ih =>
    intro t h
    exact ih _ (uniqueKeys_setField t p.1 p.2 h)

theorem uniqueKeys_nil : uniqueKeys [] := by simp [uniqueKeys]

theorem uniqueKeys_resolveConflict (parse : String → Option Int) (type pid : String)
    (l r m : Record) (hl : uniqueKeys l) (hr : uniqueKeys r)
    (h : resolveConflict parse type pid l r = .ok m) : uniqueKeys m := by
  have hm : uniqueKeys (spread (spread [] r) l) :=
    uniqueKeys_spread l _ (uniqueKeys_spread r _ uniqueKeys_nil)
  unfold resolveConflict at h
  simp only [] at h
  split at h
  · cases h; exact hl
  · split at h
    · cases h; exact hr
    · unfold mergeEqual at h
      simp only [] at h
      split at h
      · split at h
        · cases h
        · split at h
          · cases h
          · cases h
            exact uniqueKeys_setField _ _ _ hm
      · cases h; exact hm

theorem getField_stamped (r : Record) (iso : String) (hr : uniqueKeys r) (f : String) :
    getField (stamped r iso) f = if f = "createdAt" then .str iso else getField r f := by
  unfold stamped
  rw [getField_setField, getField_spread _ _ hr]
  by_cases hf : f = "createdAt"
  · simp [hf]
  · simp only [hf, if_false]
    cases hh : hasField r f with
    | true => simp
    | false => simp [getField_of_hasField_false r f hh, getField_nil]

/-- C9: evaluation at failing inputs.  The table holds the pending visit of
2024-01-01, queued at midnight with the symptoms "fever".  An online visit of
the same day with the symptoms "cough", as the form sends it or stamped
earlier than the queued entry: the resolution with the queued entry in the
local role, by the words of the specification or by `resolveConflict` called
with the entry stamped with its `createdAt`, keeps the symptoms of the
queued entry; the payload written has the symptoms of the candidate. -/
theorem submit_resolves_with_roles_swapped :
    specResolve parseISO feverVisit coughPayload
      = [("date", .str "2024-01-01"), ("symptoms", .str "fever")] ∧
    (addPatientVisit parseISO laterEnv oneVisit "P1" coughPayload).1.remote.map (fun d => d.data)
      = [[("date", .str "2024-01-01"), ("symptoms", .str "cough"), ("notes", .str ""),
          ("createdAt", .str "2024-01-03T00:00:00.000Z")]] ∧
    specResolve parseISO feverVisit onlineVisit
      = [("date", .str "2024-01-01"), ("symptoms", .str "fever")] ∧
    resolveConflict parseISO "visit" "P1"
        (setField feverVisit.data "createdAt" (.str feverVisit.createdAt)) onlineVisit
      = .ok [("date", .str "2024-01-01"), ("symptoms", .str "fever"),
          ("createdAt", .str "2024-01-01T00:00:00.000Z")] ∧
    (addPatientVisit parseISO laterEnv oneVisit "P1" onlineVisit).1.remote.map (fun d => d.data)
      = [[("date", .str "2024-01-01"), ("symptoms", .str "cough"),
          ("createdAt", .str "2024-01-03T00:00:00.000Z")]] ∧
    conflictLookup visitKind oneVisit "P1" coughPayload = some feverVisit ∧
    conflictLookup visitKind oneVisit "P1" onlineVisit = some feverVisit := by
  decide

/-- C10: evaluation at the scenario.  A pending immunization (MMR, 2024-01-01,
queued on 2024-01-02) and an online write for the same vaccine and day, with
other values, stamped earlier or not stamped at all: the document created
remotely carries the dose and notes of the online write, not those of the
pending entry. -/
theorem addImmunization_persists_online_values :
    (addImmunization parseISO laterEnv pendingMmr "P1" onlineMmr).1.remote.map (fun d => d.data)
      = [[("vaccineType", .str "MMR"), ("dose", .num 2), ("dateAdministered", .str "2024-01-01"),
          ("notes", .str "entered online"), ("createdAt", .str "2024-01-03T00:00:00.000Z")]] ∧
    (addImmunization parseISO laterEnv pendingMmr "P1" onlineMmrForm).1.remote.map
        (fun d => d.data)
      = [[("vaccineType", .str "MMR"), ("dose", .num 2), ("dateAdministered", .str "2024-01-01"),
          ("notes", .str "entered online"), ("createdAt", .str "2024-01-03T00:00:00.000Z")]] ∧
    getField mmrNoted.data "notes" = .str "given at the outreach clinic" ∧
    getField mmrNoted.data "dose" = .num 1 ∧
    parseISO "2024-01-01T12:00:00.000Z" = some 1704110400000 ∧
    parseISO mmrNoted.createdAt = some 1704153600000 := by
  decide

theorem twoPending_notes : pendingNotesAreText twoPending.offlineData := by
  intro r hr _ _
  simp only [twoPending, List.mem_cons, List.mem_singleton, List.not_mem_nil, or_false] at hr
  rcases hr with h | h <;> subst h <;> decide

/-- C1: evaluation at failing inputs.  With one pending row whose remote create
rejects, the call returns 1 and leaves the stores as they were; with two
pending rows of which the first fails, it returns 2 and marks one row. -/
theorem drain_counts_failed_deliveries :
    (syncOfflineData parseISO createFailsSync oneVisit).result = .ok 1 ∧
    (syncOfflineData parseISO createFailsSync oneVisit).world = oneVisit ∧
    (syncOfflineData parseISO firstCreateFailsSync twoPending).result = .ok 2 ∧
    (syncOfflineData parseISO firstCreateFailsSync twoPending).world.offlineData.map
        (fun r => r.synced) = [false, true] ∧
    twoPending.offlineData.map (fun r => r.synced) = [false, false] := by
  decide

/-- C5 as stated fails: when the remote create of the first call rejects, the
row stays pending, nothing is created, and the second call delivers the row
and returns 1, so the counts are (1, 1). -/
theorem second_drain_after_failure :
    (syncOfflineData parseISO createFailsSync oneVisit).result = .ok 1 ∧
    (syncOfflineData parseISO createFailsSync oneVisit).world = oneVisit ∧
    (syncOfflineData parseISO quietSync
        (syncOfflineData parseISO createFailsSync oneVisit).world).result = .ok 1 ∧
    (syncOfflineData parseISO quietSync
        (syncOfflineData parseISO createFailsSync oneVisit).world).world.remote.map remoteKey
      = [("P1", "visits")] ∧
    (syncOfflineData parseISO quietSync
        (syncOfflineData parseISO createFailsSync oneVisit).world).world.offlineData.map
        (fun r => r.synced) = [true] := by
  decide

/-! ## The write router, the queue and the read merger -/

theorem qualifies_iff (k : Kind) (pid : String) (cand : Record) (doc : OfflineDoc) :
    qualifies k pid cand doc = true ↔
      doc.patientId = pid ∧ doc.type = k.type ∧ doc.synced = false ∧
        ∀ f ∈ k.matchKey, (getField doc.data f).strictEq (getField cand f) = true := by
  simp [qualifies, and_assoc]

theorem qualifies_eq (k : Kind) (pid : String) (cand : Record) (doc : OfflineDoc) :
    qualifies k pid cand doc
      = ((doc.patientId == pid && doc.synced == false) && matchesKey k cand doc) := by
  unfold qualifies matchesKey
  cases (doc.patientId == pid) <;> cases (doc.type == k.type) <;> cases (doc.synced == false) <;>
    simp

theorem conflictLookup_eq_head (k : Kind) (w : World) (pid : String) (cand : Record) :
    conflictLookup k w pid cand = (w.offlineData.filter (qualifies k pid cand)).head? := by
  unfold conflictLookup
  induction w.offlineData with
  | nil => rfl
  | cons d t ih =>
    rw [List.filter_cons, List.filter_cons, qualifies_eq]
    cases h1 : (d.patientId == pid && d.synced == false) with
    | false => simpa using ih
    | true =>
      cases h2 : matchesKey k cand d with
      | false => simpa [List.find?_cons, h2] using ih
      | true => simp [List.find?_cons, h2]

theorem all_strictEq_congr (fields : List String) (a cand cand' : Record)
    (h : ∀ f ∈ fields, getField cand' f = getField cand f) :
    fields.all (fun f => (getField a f).strictEq (getField cand' f))
      = fields.all (fun f => (getField a f).strictEq (getField cand f)) := by
  induction fields with
  | nil => rfl
  | cons f fs ih =>
    simp only [List.all_cons]
    rw [h f (List.mem_cons_self _ _), ih (fun g hg => h g (List.mem_cons_of_mem _ hg))]

theorem all_strictEq_congr_left (fields : List String) (a a' cand : Record)
    (h : ∀ f ∈ fields, getField a' f = getField a f) :
    fields.all (fun f => (getField a' f).strictEq (getField cand f))
      = fields.all (fun f => (getField a f).strictEq (getField cand f)) := by
  induction fields with
  | nil => rfl
  | cons f fs ih =>
    simp only [List.all_cons]
    rw [h f (List.mem_cons_self _ _), ih (fun g hg => h g (List.mem_cons_of_mem _ hg))]

theorem matchesKey_congr (k : Kind) (cand cand' : Record) (doc : OfflineDoc)
    (h : ∀ f ∈ k.matchKey, getField cand' f = getField cand f) :
    matchesKey k cand' doc = matchesKey k cand doc := by
  unfold matchesKey
  rw [all_strictEq_congr k.matchKey doc.data cand cand' h]

theorem submit_online_remote (parse : String → Option Int) (k : Kind) (env : Env) (w : World)
    (pid : String) (data r : Record) (hon : env.online = true) (hl : env.localFault = none)
    (hc : env.createFault = none)
    (hres : (match conflictLookup k w pid data with
      | some offlineDoc => resolveConflict parse k.type pid data offlineDoc.data
      | none => Except.ok data) = .ok r) :
    (submit parse k env w pid data).1.remote
      = w.remote ++ [{ patientId := pid, collection := k.collection,
                       id := "r" ++ toString w.remote.length, data := stamped r env.isoNow }] := by
  unfold conflictLookup at hres
  simp only [submit, hon, if_true, getOfflineData, hl, hres, addDoc, hc, updateDoc]
  cases k.stampsLastVisit with
  | false => rfl
  | true => cases env.updateFault <;> rfl

theorem remoteId_ne_marker (n : Nat) : "r" ++ toString n ≠ "Saved offline" := by
  intro h
  have h' := congrArg String.data h
  rw [String.data_append] at h'
  have hr : "r".data = ['r'] := rfl
  have hs : "Saved offline".data
      = ['S', 'a', 'v', 'e', 'd', ' ', 'o', 'f', 'f', 'l', 'i', 'n', 'e'] := rfl
  rw [hr, hs] at h'
  simp only [List.singleton_append, List.cons.injEq] at h'
  exact absurd h'.1 (by decide)

theorem saveOfflineData_remote (env : Env) (w : World) (type : String) (data : Record)
    (pid : String) :
    (saveOfflineData env w type data pid).1.remote = w.remote ∧
    (saveOfflineData env w type data pid).1.lastVisit = w.lastVisit := by
  unfold saveOfflineData
  cases env.localFault with
  | some m => exact ⟨rfl, rfl⟩
  | none =>
    simp only []
    cases tablePut w.offlineData _ with
    | error m => exact ⟨rfl, rfl⟩
    | ok t => exact ⟨rfl, rfl⟩

theorem saveOfflineData_eq (env : Env) (w : World) (type : String) (data : Record)
    (pid : String) :
    saveOfflineData env w type data pid
      = (match env.localFault with
        | some m => (w, .error m)
        | none =>
          match tablePut w.offlineData (newDoc env type data pid) with
          | .error m => (w, .error m)
          | .ok t => ({ w with offlineData := t }, .ok (newDoc env type data pid).id)) := rfl

theorem tablePut_ok (t t' : List OfflineDoc) (doc : OfflineDoc) (h : tablePut t doc = .ok t') :
    t' = upsert doc t := by
  unfold tablePut at h
  split at h
  · cases h
  · cases h; rfl

theorem saveOfflineData_ok (env : Env) (w : World) (type : String) (data : Record)
    (pid id : String) (h : (saveOfflineData env w type data pid).2 = .ok id) :
    env.localFault = none ∧ id = (newDoc env type data pid).id ∧
    tablePut w.offlineData (newDoc env type data pid)
      = .ok (saveOfflineData env w type data pid).1.offlineData ∧
    (saveOfflineData env w type data pid).1.offlineData
      = upsert (newDoc env type data pid) w.offlineData := by
  rw [saveOfflineData_eq] at h ⊢
  cases hl : env.localFault with
  | some m => simp [hl] at h
  | none =>
    simp only [hl] at h ⊢
    cases hp : tablePut w.offlineData (newDoc env type data pid) with
    | error m => simp [hp] at h
    | ok t =>
      simp only [hp] at h ⊢
      have hid : id = (newDoc env type data pid).id := by cases h; rfl
      exact ⟨trivial, hid, trivial, tablePut_ok _ _ _ hp⟩

/-- The result of `submit` when it is fulfilled, and what fulfilment excludes. -/
theorem submit_ok_cases (parse : String → Option Int) (k : Kind) (env : Env) (w : World)
    (pid : String) (data : Record) (v : String)
    (h : (submit parse k env w pid data).2 = .ok v) :
    (env.online = false →
      v = "Saved offline" ∧ (submit parse k env w pid data).1.remote = w.remote ∧
        (submit parse k env w pid data).1.offlineData = upsert (newDoc env k.type data pid) w.offlineData) ∧
    (env.online = true →
      v = "r" ++ toString w.remote.length ∧
      (submit parse k env w pid data).1.offlineData = w.offlineData ∧
      ∃ payload, (submit parse k env w pid data).1.remote
        = w.remote ++ [{ patientId := pid, collection := k.collection, id := v,
                         data := payload }]) ∧
    env.localFault = none ∧
    (env.online = true → env.createFault = none ∧
      (k.stampsLastVisit = true → env.updateFault = none)) := by
  cases hon : env.online with
  | false =>
    have hsub : submit parse k env w pid data
        = (match saveOfflineData env w k.type data pid with
          | (w1, .error m) => (w1, .error (messageOr m k.fallback))
          | (w1, .ok _) => (w1, .ok "Saved offline")) := by
      simp [submit, hon]
    rw [hsub] at h ⊢
    cases hs : saveOfflineData env w k.type data pid with
    | mk w1 r =>
      rw [hs] at h
      cases r with
      | error m => simp at h
      | ok id =>
        simp only at h ⊢
        have hok := saveOfflineData_ok env w k.type data pid id (by rw [hs])
        have hrem := saveOfflineData_remote env w k.type data pid
        rw [hs] at hok hrem
        refine ⟨fun _ => ⟨?_, hrem.1, hok.2.2.2⟩, (fun hc => by cases hc), hok.1, (fun hc => by cases hc)⟩
        cases h; rfl
  | true =>
    revert h
    simp only [submit, hon, if_true, getOfflineData, addDoc, updateDoc]
    cases hl : env.localFault with
    | some m => simp
    | none =>
      simp only []
      generalize (match List.find? (matchesKey k data)
          (List.filter (fun doc => doc.patientId == pid && doc.synced == false) w.offlineData) with
        | some offlineDoc => resolveConflict parse k.type pid data offlineDoc.data
        | none => Except.ok data) = resolved
      cases resolved with
      | error m => simp
      | ok d =>
        cases hc : env.createFault with
        | some m => simp
        | none =>
          cases hs : k.stampsLastVisit with
          | false =>
            intro h
            simp only [Bool.false_eq_true, if_false, Except.ok.injEq] at h
            subst h
            simp
          | true =>
            cases hu : env.updateFault with
            | some m => simp
            | none =>
              intro h
              simp only [if_true, Except.ok.injEq] at h
              subst h
              simp

theorem except_ok_or_error {α : Type} (r : Except String α) :
    (∃ v, r = .ok v) ∨ (∃ m, r = .error m) := by
  cases r with
  | ok v => exact Or.inl ⟨v, rfl⟩
  | error m => exact Or.inr ⟨m, rfl⟩

/-- C12: a fulfilled `addPatientVisit`, `addImmunization` or `addReferral`
(each is `submit` at its kind) returns 'Saved offline' exactly when the
client is offline at the call, and when online the identifier of the one
remote document it created; whenever a collaborator call made on the way
rejects, the result is a rejection, not a value. -/
theorem submit_returns_marker_or_id (parse : String → Option Int) (k : Kind) (env : Env)
    (w : World) (patientId : String) (data : Record) :
    (∀ v, (submit parse k env w patientId data).2 = .ok v →
      (v = "Saved offline" ↔ env.online = false) ∧
      (env.online = false → (submit parse k env w patientId data).1.remote = w.remote) ∧
      (env.online = true →
        ∃ payload, (submit parse k env w patientId data).1.remote
          = w.remote ++ [{ patientId := patientId, collection := k.collection, id := v,
                           data := payload }])) ∧
    ((env.localFault ≠ none ∨
        (env.online = true ∧ (env.createFault ≠ none ∨
          (k.stampsLastVisit = true ∧ env.updateFault ≠ none))) ∨
        (env.online = false ∧
          ∃ m, tablePut w.offlineData (newDoc env k.type data patientId) = .error m)) →
      ∃ m, (submit parse k env w patientId data).2 = .error m) ∧
    (addPatientVisit parse env w patientId data = submit parse visitKind env w patientId data ∧
      addImmunization parse env w patientId data
        = submit parse immunizationKind env w patientId data ∧
      addReferral parse env w patientId data
        = submit parse referralKind env w patientId data) := by
  refine ⟨?_, ?_, ⟨rfl, rfl, rfl⟩⟩
  · intro v hv
    obtain ⟨hoff, hon, _, _⟩ := submit_ok_cases parse k env w patientId data v hv
    refine ⟨?_, fun h => (hoff h).2.1, fun h => (hon h).2.2⟩
    cases ho : env.online with
    | false => simp [(hoff ho).1]
    | true =>
      simp only [Bool.true_eq_false, iff_false]
      rw [(hon ho).1]
      exact remoteId_ne_marker _
  · intro hfault
    rcases except_ok_or_error (submit parse k env w patientId data).2 with ⟨v, hv⟩ | herr
    · exfalso
      obtain ⟨hoff, _, hl, hrem⟩ := submit_ok_cases parse k env w patientId data v hv
      rcases hfault with h | ⟨ho, h⟩ | ⟨ho, m, hm⟩
      · exact h hl
      · rcases h with h | ⟨hs, h⟩
        · exact h (hrem ho).1
        · exact h ((hrem ho).2 hs)
      · have hup := (hoff ho).2.2
        have hsave : (saveOfflineData env w k.type data patientId).2
            = .error m := by
          rw [saveOfflineData_eq]
          cases hl' : env.localFault with
          | some m' => rw [hl] at hl'; cases hl'
          | none => simp [hm]
        have hsub : (submit parse k env w patientId data).2
            = .error (messageOr m k.fallback) := by
          simp only [submit, ho, Bool.false_eq_true, if_false]
          cases hs : saveOfflineData env w k.type data patientId with
          | mk w1 r =>
            rw [hs] at hsave
            simp only at hsave
            subst hsave
            rfl
        rw [hsub] at hv
        cases hv
    · exact herr

theorem submit_returns_marker_or_id_witness :
    ("Saved offline" = "Saved offline" ↔ offlineEnv.online = false) ∧
    (addPatientVisit parseISO offlineEnv emptyWorld "P1" feverPayload).2 = .ok "Saved offline" ∧
    (addPatientVisit parseISO quietEnv emptyWorld "P1" feverPayload).2 = .ok "r0" :=
  ⟨((submit_returns_marker_or_id parseISO visitKind offlineEnv emptyWorld "P1"
      feverPayload).1 "Saved offline" (by decide)).1, by decide, by decide⟩

/-- C13: evaluation at a failing input.  The queue holds the pending
immunization `immunization_P1_1704153600000`; an offline `addImmunization`
for the same patient at the same clock reading is fulfilled with 'Saved
offline', yet the queue still has one row: the earlier row is replaced by the
new one instead of a row being added. -/
theorem offline_submit_replaces_row :
    (addImmunization parseISO offlineEnvLater pendingMmr "P1" onlineMmrForm).2
      = .ok "Saved offline" ∧
    pendingMmr.offlineData.length = 1 ∧
    (addImmunization parseISO offlineEnvLater pendingMmr "P1" onlineMmrForm).1.offlineData.length
      = 1 ∧
    (addImmunization parseISO offlineEnvLater pendingMmr "P1" onlineMmrForm).1.offlineData.map
        (fun r => r.data) = [onlineMmrForm] ∧
    pendingMmr.offlineData.map (fun r => r.data) = [mmrNoted.data] ∧
    mmrNoted.data ≠ onlineMmrForm := by
  decide

/-- C15: evaluation at a failing input.  Two visits of patient `P1` saved at
the same clock reading: both calls are fulfilled with the same id, and the
queue afterwards holds the second payload only. -/
theorem same_reading_overwrites :
    (saveOfflineData offlineEnv emptyWorld "visit" feverPayload "P1").2
      = .ok "visit_P1_1704067200000" ∧
    (saveOfflineData offlineEnv
        (saveOfflineData offlineEnv emptyWorld "visit" feverPayload "P1").1
        "visit" coughPayload "P1").2 = .ok "visit_P1_1704067200000" ∧
    (saveOfflineData offlineEnv
        (saveOfflineData offlineEnv emptyWorld "visit" feverPayload "P1").1
        "visit" coughPayload "P1").1.offlineData
      = [{ id := "visit_P1_1704067200000", type := "visit", patientId := "P1",
           data := coughPayload, createdAt := "2024-01-01T00:00:00.000Z", synced := false }] := by
  decide

/-- C20: evaluation at a failing input.  Enqueue a visit, mark it synced, and
enqueue another visit of the same patient at the same clock reading: the
synced row is replaced, and the row of that id is pending again. -/
theorem enqueue_replaces_synced_row :
    (applyOps parseISO emptyWorld
        [.enqueue offlineEnv "visit" feverPayload "P1",
         .markSynced offlineEnv "visit_P1_1704067200000"]).offlineData
      = [{ id := "visit_P1_1704067200000", type := "visit", patientId := "P1",
           data := feverPayload, createdAt := "2024-01-01T00:00:00.000Z", synced := true }] ∧
    (applyOps parseISO emptyWorld
        [.enqueue offlineEnv "visit" feverPayload "P1",
         .markSynced offlineEnv "visit_P1_1704067200000",
         .enqueue offlineEnv "visit" coughPayload "P1"]).offlineData
      = [{ id := "visit_P1_1704067200000", type := "visit", patientId := "P1",
           data := coughPayload, createdAt := "2024-01-01T00:00:00.000Z", synced := false }] ∧
    (applyOps parseISO emptyWorld
        [.enqueue offlineEnv "visit" feverPayload "P1",
         .enqueue offlineEnv "visit" coughPayload "P1"]).offlineData
      = [{ id := "visit_P1_1704067200000", type := "visit", patientId := "P1",
           data := coughPayload, createdAt := "2024-01-01T00:00:00.000Z", synced := false }] := by
  decide

theorem mem_upsert_self (doc : OfflineDoc) (t : List OfflineDoc) : doc ∈ upsert doc t := by
  induction t with
  | nil => simp [upsert]
  | cons r rs ih =>
    unfold upsert
    split
    · exact List.mem_cons_self _ _
    · split
      · exact List.mem_cons_self _ _
      · exact List.mem_cons_of_mem _ ih

theorem mem_upsert (doc r : OfflineDoc) (t : List OfflineDoc) (h : r ∈ upsert doc t) :
    r = doc ∨ r ∈ t := by
  induction t with
  | nil =>
    simp only [upsert, List.mem_singleton] at h
    exact Or.inl h
  | cons x xs ih =>
    unfold upsert at h
    split at h
    · simp only [List.mem_cons] at h
      rcases h with h | h
      · exact Or.inl h
      · exact Or.inr (List.mem_cons_of_mem _ h)
    · split at h
      · simp only [List.mem_cons] at h
        rcases h with h | h | h
        · exact Or.inl h
        · exact Or.inr (h ▸ List.mem_cons_self _ _)
        · exact Or.inr (List.mem_cons_of_mem _ h)
      · simp only [List.mem_cons] at h
        rcases h with h | h
        · exact Or.inr (h ▸ List.mem_cons_self _ _)
        · rcases ih h with h' | h'
          · exact Or.inl h'
          · exact Or.inr (List.mem_cons_of_mem _ h')

theorem mem_upsert_of_ne (doc r : OfflineDoc) (t : List OfflineDoc) (h : r ∈ t)
    (hne : r.id ≠ doc.id) : r ∈ upsert doc t := by
  induction t with
  | nil => cases h
  | cons x xs ih =>
    simp only [List.mem_cons] at h
    unfold upsert
    split
    · next hx =>
      rcases h with h | h
      · subst h
        exact absurd (by simpa using hx) hne
      · exact List.mem_cons_of_mem _ h
    · split
      · rcases h with h | h
        · subst h
          exact List.mem_cons_of_mem _ (List.mem_cons_self _ _)
        · exact List.mem_cons_of_mem _ (List.mem_cons_of_mem _ h)
      · rcases h with h | h
        · subst h
          exact List.mem_cons_self _ _
        · exact List.mem_cons_of_mem _ (ih h)

theorem tablePut_eq_ok_iff (t : List OfflineDoc) (doc : OfflineDoc) :
    (∃ t', tablePut t doc = .ok t') ↔
      ∀ r ∈ t, r.id ≠ doc.id →
        ¬ (r.patientId = doc.patientId ∧ r.type = doc.type ∧ r.createdAt = doc.createdAt) := by
  unfold tablePut
  by_cases hany : (t.any (fun r => r.id != doc.id && r.patientId == doc.patientId
      && r.type == doc.type && r.createdAt == doc.createdAt)) = true
  · rw [if_pos hany]
    simp only [List.any_eq_true, Bool.and_eq_true, bne_iff_ne, ne_eq, beq_iff_eq] at hany
    obtain ⟨r, hr, ⟨⟨h1, h2⟩, h3⟩, h4⟩ := hany
    constructor
    · rintro ⟨t', ht'⟩
      cases ht'
    · intro h
      exact absurd ⟨h2, h3, h4⟩ (h r hr h1)
  · rw [if_neg hany]
    constructor
    · intro _ r hr hne hsame
      apply hany
      simp only [List.any_eq_true, Bool.and_eq_true, bne_iff_ne, ne_eq, beq_iff_eq]
      exact ⟨r, hr, ⟨⟨hne, hsame.1⟩, hsame.2.1⟩, hsame.2.2⟩
    · intro _
      exact ⟨_, rfl⟩

theorem saveOfflineData_ok_iff (env : Env) (w : World) (type : String) (data : Record)
    (pid : String) :
    (∃ id, (saveOfflineData env w type data pid).2 = .ok id) ↔
      env.localFault = none ∧
      ∀ r ∈ w.offlineData, r.id ≠ (newDoc env type data pid).id →
        ¬ (r.patientId = pid ∧ r.type = type ∧ r.createdAt = env.isoNow) := by
  rw [saveOfflineData_eq]
  cases hl : env.localFault with
  | some m => simp
  | none =>
    simp only [true_and]
    have hput := tablePut_eq_ok_iff w.offlineData (newDoc env type data pid)
    cases hp : tablePut w.offlineData (newDoc env type data pid) with
    | error m =>
      rw [hp] at hput
      constructor
      · rintro ⟨id, hid⟩
        cases hid
      · intro h
        obtain ⟨t', ht'⟩ := hput.2 h
        cases ht'
    | ok t' =>
      rw [hp] at hput
      exact ⟨fun _ => hput.1 ⟨t', rfl⟩, fun _ => ⟨_, rfl⟩⟩

theorem newDoc_eq (env : Env) (type : String) (data : Record) (pid id : String)
    (h : id = (newDoc env type data pid).id) :
    ({ id := id, type := type, patientId := pid, data := data,
       createdAt := env.isoNow, synced := false } : OfflineDoc) = newDoc env type data pid := by
  rw [h]; rfl

/-- C14: a fulfilled `saveOfflineData(type, data, patientId)` returns the id
`type_patientId_now` and leaves in the table the row with that id, type,
patient and payload, the clock's `createdAt` and `synced = false`; a
following `getOfflineData(patientId)` returns a list that contains this row.
The call is fulfilled exactly when the table is reachable and no other row
has the same patient, type and `createdAt`. -/
theorem saveOfflineData_stores (env : Env) (w : World) (type : String) (data : Record)
    (patientId id : String)
    (h : (saveOfflineData env w type data patientId).2 = .ok id) :
    id = type ++ "_" ++ patientId ++ "_" ++ toString env.dateNow ∧
    ({ id := id, type := type, patientId := patientId, data := data,
       createdAt := env.isoNow, synced := false } : OfflineDoc)
      ∈ (saveOfflineData env w type data patientId).1.offlineData ∧
    (∀ env' : Env, env'.localFault = none →
      ∃ l, getOfflineData env' (saveOfflineData env w type data patientId).1 patientId = .ok l ∧
        ({ id := id, type := type, patientId := patientId, data := data,
           createdAt := env.isoNow, synced := false } : OfflineDoc) ∈ l) ∧
    ((∃ id', (saveOfflineData env w type data patientId).2 = .ok id') ↔
      env.localFault = none ∧
      ∀ r ∈ w.offlineData, r.id ≠ type ++ "_" ++ patientId ++ "_" ++ toString env.dateNow →
        ¬ (r.patientId = patientId ∧ r.type = type ∧ r.createdAt = env.isoNow)) := by
  obtain ⟨_, hid, _, hup⟩ := saveOfflineData_ok env w type data patientId id h
  have hdoc := newDoc_eq env type data patientId id hid
  have hmem : newDoc env type data patientId
      ∈ (saveOfflineData env w type data patientId).1.offlineData := by
    rw [hup]; exact mem_upsert_self _ _
  refine ⟨hid, hdoc ▸ hmem, ?_, saveOfflineData_ok_iff env w type data patientId⟩
  intro env' hl'
  have hget : getOfflineData env' (saveOfflineData env w type data patientId).1 patientId
      = .ok ((saveOfflineData env w type data patientId).1.offlineData.filter
          (fun doc => doc.patientId == patientId && doc.synced == false)) := by
    simp only [getOfflineData, hl']
  refine ⟨_, hget, ?_⟩
  rw [hdoc, List.mem_filter]
  exact ⟨hmem, by simp [newDoc]⟩

theorem nodup_of_uniqueIds (t : List OfflineDoc) (h : uniqueIds t) : t.Nodup := by
  unfold uniqueIds at h
  exact List.Nodup.of_map _ h

/-- C16: when the table is reachable, `getOfflineData(patientId)` returns the
rows of the table that have this patient and `synced = false`, in the order
of the table: a row is in the result iff it is such a row of the table; with
distinct keys every row of the result is there once. -/
theorem getOfflineData_exact (env : Env) (w : World) (patientId : String)
    (h : env.localFault = none) :
    ∃ l, getOfflineData env w patientId = .ok l ∧
      (∀ doc, doc ∈ l ↔ doc ∈ w.offlineData ∧ doc.patientId = patientId ∧ doc.synced = false) ∧
      List.Sublist l w.offlineData ∧
      (∀ doc, doc.patientId = patientId → doc.synced = false →
        l.count doc = w.offlineData.count doc) ∧
      (uniqueIds w.offlineData → ∀ doc ∈ l, l.count doc = 1) := by
  refine ⟨w.offlineData.filter (fun doc => doc.patientId == patientId && doc.synced == false),
    by simp only [getOfflineData, h], ?_, List.filter_sublist _, ?_, ?_⟩
  · intro doc
    simp [List.mem_filter]
  · intro doc h1 h2
    rw [List.count_filter]
    simp [h1, h2]
  · intro hids doc hdoc
    exact List.count_eq_one_of_mem
      ((nodup_of_uniqueIds _ hids).sublist (List.filter_sublist _)) hdoc

theorem getOfflineData_exact_witness :
    ∃ l, getOfflineData quietEnv twoPending "P1" = .ok l ∧
      (∀ doc, doc ∈ l ↔
        doc ∈ twoPending.offlineData ∧ doc.patientId = "P1" ∧ doc.synced = false) ∧
      List.Sublist l twoPending.offlineData ∧
      (∀ doc, doc.patientId = "P1" → doc.synced = false →
        l.count doc = twoPending.offlineData.count doc) ∧
      (uniqueIds twoPending.offlineData → ∀ doc ∈ l, l.count doc = 1) :=
  getOfflineData_exact quietEnv twoPending "P1" rfl

theorem tableMarkSynced_of_synced (t : List OfflineDoc) (id : String)
    (h : ∀ r ∈ t, r.id = id → r.synced = true) : tableMarkSynced t id = t := by
  have hrow : ∀ r ∈ t, (if r.id == id then { r with synced := true } else r) = r := by
    intro r hr
    by_cases hid : r.id = id
    · have hs := h r hr hid
      cases r with
      | mk rid rt rp rd rc rs =>
        simp only at hs hid
        subst hs
        simp
    · have hne : (r.id == id) = false := by simpa using hid
      simp [hne]
  unfold tableMarkSynced
  rw [List.map_congr_left hrow]
  simp

theorem tableMarkSynced_twice (t : List OfflineDoc) (id : String) :
    tableMarkSynced (tableMarkSynced t id) id = tableMarkSynced t id := by
  apply tableMarkSynced_of_synced
  intro r hr hid
  simp only [tableMarkSynced, List.mem_map] at hr
  obtain ⟨r0, _, he⟩ := hr
  by_cases h0 : r0.id = id
  · simp [h0] at he
    subst he
    rfl
  · have h0' : (r0.id == id) = false := by simpa using h0
    simp [h0'] at he
    subst he
    exact absurd hid h0

/-- C17: when the table is reachable, `markAsSynced(id)` is fulfilled; it
leaves the stores as they are when no row of that id is pending (the id is
absent or already synced); a second call changes nothing more; and the table
afterwards is the table before with `synced := true` in the rows of that id
and every other row, and every other field, as it was. -/
theorem markAsSynced_idempotent (env : Env) (w : World) (id : String)
    (h : env.markFault = none) :
    (markAsSynced env w id).2 = .ok () ∧
    ((∀ r ∈ w.offlineData, r.id = id → r.synced = true) → (markAsSynced env w id).1 = w) ∧
    (markAsSynced env (markAsSynced env w id).1 id).1 = (markAsSynced env w id).1 ∧
    (markAsSynced env w id).1.offlineData
      = w.offlineData.map (fun r => if r.id = id then { r with synced := true } else r) ∧
    (markAsSynced env w id).1.remote = w.remote ∧
    (markAsSynced env w id).1.lastVisit = w.lastVisit ∧
    (∀ r ∈ w.offlineData, r.id ≠ id → r ∈ (markAsSynced env w id).1.offlineData) ∧
    (∀ r ∈ w.offlineData, r.id = id →
      { r with synced := true } ∈ (markAsSynced env w id).1.offlineData) := by
  have hw : (markAsSynced env w id).1 = { w with offlineData := tableMarkSynced w.offlineData id } := by
    simp only [markAsSynced, h]
  refine ⟨by simp only [markAsSynced, h], ?_, ?_, ?_, by rw [hw], by rw [hw], ?_, ?_⟩
  · intro hs
    rw [hw, tableMarkSynced_of_synced _ _ hs]
  · have hw2 : (markAsSynced env (markAsSynced env w id).1 id).1
        = { (markAsSynced env w id).1 with
            offlineData := tableMarkSynced (markAsSynced env w id).1.offlineData id } := by
      simp only [markAsSynced, h]
    rw [hw2, hw]
    simp only [tableMarkSynced_twice]
  · rw [hw]
    simp only [tableMarkSynced]
    apply List.map_congr_left
    intro r _
    by_cases hid : r.id = id <;> simp [hid]
  · intro r hr hne
    rw [hw]
    simp only [tableMarkSynced, List.mem_map]
    exact ⟨r, hr, by simp [hne]⟩
  · intro r hr hid
    rw [hw]
    simp only [tableMarkSynced, List.mem_map]
    exact ⟨r, hr, by simp [hid]⟩

theorem markAsSynced_idempotent_witness :
    (markAsSynced quietEnv twoPending "visit_P1_1704067200000").1.offlineData
      = twoPending.offlineData.map
          (fun r => if r.id = "visit_P1_1704067200000" then { r with synced := true } else r) :=
  (markAsSynced_idempotent quietEnv twoPending "visit_P1_1704067200000" rfl).2.2.2.1

theorem mergedRead_ok (type collection : String) (rethrow : String → String) (env : Env)
    (w : World) (pid : String) (hl : env.localFault = none) :
    mergedRead type collection rethrow none env w pid
      = .ok ((w.remote.filter (fun d => d.patientId == pid && d.collection == collection)).map
            onlineRecord
          ++ ((w.offlineData.filter (fun doc => doc.patientId == pid && doc.synced == false)).filter
              (fun doc => doc.type == type)).map offlineRecord) := by
  simp only [mergedRead, getDocs, getOfflineData, hl]

theorem getField_onlineRecord (d : RemoteDoc) (f : String) (hd : uniqueKeys d.data) :
    getField (onlineRecord d) f
      = if hasField d.data f then getField d.data f
        else if f = "id" then .str d.id else .undefined := by
  unfold onlineRecord
  rw [getField_spread _ _ hd, getField_cons, getField_nil]

theorem hasField_onlineRecord (d : RemoteDoc) (f : String) :
    hasField (onlineRecord d) f = (decide (f = "id") || hasField d.data f) := by
  unfold onlineRecord
  rw [hasField_spread, hasField_cons]
  simp [hasField]

theorem getField_offlineRecord (doc : OfflineDoc) (f : String) (hd : uniqueKeys doc.data) :
    getField (offlineRecord doc) f
      = if f = "offline" then .bool true
        else if hasField doc.data f then getField doc.data f
        else if f = "id" then .str doc.id else .undefined := by
  unfold offlineRecord
  rw [getField_setField, getField_spread _ _ hd, getField_cons, getField_nil]

/-- C18 (amended): when both reads are answered, `getPatientVisits`,
`getImmunizations` and `getReferrals` return one record per remote document
of the patient's sub-collection, each the stored fields with the document id
and with no `offline` field unless the stored document has one, followed by
one record per pending row of that patient and type, each the payload fields
with the row id and `offline = true`; the length is the number of the former
plus the number of the latter. -/
theorem merged_read_view (env : Env) (w : World) (patientId : String)
    (hl : env.localFault = none) :
    getPatientVisits none env w patientId
      = .ok ((w.remote.filter
              (fun d => d.patientId == patientId && d.collection == "visits")).map onlineRecord
          ++ ((w.offlineData.filter
              (fun doc => doc.patientId == patientId && doc.synced == false)).filter
                (fun doc => doc.type == "visit")).map offlineRecord) ∧
    getImmunizations none env w patientId
      = .ok ((w.remote.filter
              (fun d => d.patientId == patientId && d.collection == "immunizations")).map
                onlineRecord
          ++ ((w.offlineData.filter
              (fun doc => doc.patientId == patientId && doc.synced == false)).filter
                (fun doc => doc.type == "immunization")).map offlineRecord) ∧
    getReferrals none env w patientId
      = .ok ((w.remote.filter
              (fun d => d.patientId == patientId && d.collection == "referrals")).map onlineRecord
          ++ ((w.offlineData.filter
              (fun doc => doc.patientId == patientId && doc.synced == false)).filter
                (fun doc => doc.type == "referral")).map offlineRecord) ∧
    (∀ l, getPatientVisits none env w patientId = .ok l →
      l.length
        = (w.remote.filter
            (fun d => d.patientId == patientId && d.collection == "visits")).length
          + (w.offlineData.filter (fun doc =>
              doc.patientId == patientId && doc.synced == false && doc.type == "visit")).length) ∧
    (∀ doc : OfflineDoc, getField (offlineRecord doc) "offline" = .bool true) ∧
    (∀ (doc : OfflineDoc) (f : String), uniqueKeys doc.data → f ≠ "offline" →
      getField (offlineRecord doc) f
        = if hasField doc.data f then getField doc.data f
          else if f = "id" then .str doc.id else .undefined) ∧
    (∀ (d : RemoteDoc) (f : String),
      hasField (onlineRecord d) f = (decide (f = "id") || hasField d.data f)) ∧
    (∀ (d : RemoteDoc) (f : String), uniqueKeys d.data →
      getField (onlineRecord d) f
        = if hasField d.data f then getField d.data f
          else if f = "id" then .str d.id else .undefined) := by
  refine ⟨mergedRead_ok _ _ _ env w patientId hl, ?_, ?_, ?_, ?_, ?_, hasField_onlineRecord,
    fun d f hd => getField_onlineRecord d f hd⟩
  · unfold getImmunizations
    exact mergedRead_ok _ _ _ env w patientId hl
  · unfold getReferrals
    exact mergedRead_ok _ _ _ env w patientId hl
  · intro l hlist
    have h := mergedRead_ok "visit" "visits" (fun m => m) env w patientId hl
    unfold getPatientVisits at hlist
    rw [h] at hlist
    cases hlist
    simp only [List.length_append, List.length_map, List.filter_filter]
    congr 2
    apply List.filter_congr
    intro doc _
    cases (doc.patientId == patientId) <;> cases (doc.synced == false) <;>
      cases (doc.type == "visit") <;> rfl
  · intro doc
    unfold offlineRecord
    rw [getField_setField]
    simp
  · intro doc f hd hf
    rw [getField_offlineRecord doc f hd, if_neg hf]

theorem merged_read_view_witness :
    getPatientVisits none quietEnv mixedWorld "P1"
      = .ok ((mixedWorld.remote.filter
              (fun d => d.patientId == "P1" && d.collection == "visits")).map onlineRecord
          ++ ((mixedWorld.offlineData.filter
              (fun doc => doc.patientId == "P1" && doc.synced == false)).filter
                (fun doc => doc.type == "visit")).map offlineRecord) :=
  (merged_read_view quietEnv mixedWorld "P1" rfl).1

/-- C18 as stated fails: the record returned for a remote visit has no
`offline` field at all, so its tag reads `undefined`, not `false`. -/
theorem remote_record_has_no_offline_tag :
    getPatientVisits none quietEnv mixedWorld "P1"
      = .ok [[("id", .str "r0"), ("date", .str "2023-12-24"), ("symptoms", .str "rash"),
              ("createdAt", .str "2023-12-24T09:00:00.000Z")],
             [("id", .str "visit_P1_1704067200000"), ("date", .str "2024-01-01"),
              ("symptoms", .str "fever"), ("offline", .bool true)]] ∧
    hasField [("id", JSVal.str "r0"), ("date", .str "2023-12-24"), ("symptoms", .str "rash"),
      ("createdAt", .str "2023-12-24T09:00:00.000Z")] "offline" = false ∧
    getField [("id", JSVal.str "r0"), ("date", .str "2023-12-24"), ("symptoms", .str "rash"),
      ("createdAt", .str "2023-12-24T09:00:00.000Z")] "offline" = .undefined ∧
    JSVal.undefined ≠ .bool false := by
  decide

theorem hasField_stamped (r : Record) (iso : String) (f : String) :
    hasField (stamped r iso) f = (hasField r f || decide (f = "createdAt")) := by
  unfold stamped
  rw [hasField_setField, hasField_spread]
  simp [hasField]

/-- The payload that the delivery of a lone pending visit creates: apart from
`notes` and `createdAt` it has the fields of the queued payload. -/
theorem lone_visit_payload (parse : String → Option Int) (env : Env) (w : World)
    (doc : OfflineDoc) (hw : w.offlineData = [doc])
    (hs : doc.synced = false) (hon : env.online = true) (hl : env.localFault = none)
    (hc : env.createFault = none) (hn : notesAreText doc.data = true)
    (hk : uniqueKeys doc.data) :
    ∃ payload,
      (submit parse visitKind env w doc.patientId doc.data).1.remote
        = w.remote ++ [{ patientId := doc.patientId, collection := "visits",
                         id := "r" ++ toString w.remote.length, data := payload }] ∧
      getField payload "createdAt" = .str env.isoNow ∧
      (∀ f, f ≠ "notes" → f ≠ "createdAt" → getField payload f = getField doc.data f) ∧
      (∀ f, hasField doc.data f = true → hasField payload f = true) ∧
      (∀ f, hasField payload f = true → f ≠ "notes" → f ≠ "createdAt" →
        hasField doc.data f = true) := by
  have hfilter : w.offlineData.filter
      (fun d => d.patientId == doc.patientId && d.synced == false) = [doc] := by
    rw [hw]
    simp [hs]
  cases hm : matchesKey visitKind doc.data doc with
  | false =>
    have hlook : conflictLookup visitKind w doc.patientId doc.data = none := by
      unfold conflictLookup
      rw [hfilter]
      simp [hm]
    refine ⟨stamped doc.data env.isoNow,
      submit_online_remote parse visitKind env w doc.patientId doc.data doc.data hon hl hc
        (by rw [hlook]), ?_, ?_, ?_, ?_⟩
    · rw [getField_stamped _ _ hk]; simp
    · intro f _ h2
      rw [getField_stamped _ _ hk, if_neg h2]
    · intro f hf
      rw [hasField_stamped, hf]; rfl
    · intro f hf _ h2
      rw [hasField_stamped] at hf
      simpa [h2] using hf
  | true =>
    have hlook : conflictLookup visitKind w doc.patientId doc.data = some doc := by
      unfold conflictLookup
      rw [hfilter]
      simp [hm]
    have hres : resolveConflict parse visitKind.type doc.patientId doc.data doc.data
        = .ok (setField (spread (spread [] doc.data) doc.data) "notes"
            (.str (notesUnion (notesText doc.data) (notesText doc.data)))) := by
      rw [resolveConflict_of_equal parse _ _ _ _ rfl]
      exact mergeEqual_notes_type _ _ _ (Or.inl rfl) hn hn
    have hku : uniqueKeys (setField (spread (spread [] doc.data) doc.data) "notes"
        (.str (notesUnion (notesText doc.data) (notesText doc.data)))) :=
      uniqueKeys_setField _ _ _ (uniqueKeys_spread _ _ (uniqueKeys_spread _ _ uniqueKeys_nil))
    refine ⟨_, submit_online_remote parse visitKind env w doc.patientId doc.data _ hon hl hc
        (by rw [hlook]; exact hres), ?_, ?_, ?_, ?_⟩
    · rw [getField_stamped _ _ hku]; simp
    · intro f h1 h2
      rw [getField_stamped _ _ hku, if_neg h2, getField_setField, if_neg h1,
        getField_merged _ _ hk hk]
      simp
    · intro f hf
      rw [hasField_stamped, hasField_setField, hasField_merged, hf]; rfl
    · intro f hf h1 h2
      rw [hasField_stamped, hasField_setField, hasField_merged] at hf
      simpa [h1, h2] using hf

theorem offline_visit_first (parse : String → Option Int) (e1 : Env) (w0 : World)
    (pid : String) (data : Record) (hq : w0.offlineData = []) (hoff : e1.online = false)
    (hl1 : e1.localFault = none) :
    addPatientVisit parse e1 w0 pid data
      = ({ w0 with offlineData := [newDoc e1 "visit" data pid] }, .ok "Saved offline") := by
  unfold addPatientVisit
  simp only [submit, hoff, Bool.false_eq_true, if_false, saveOfflineData_eq, hl1]
  have hput : tablePut w0.offlineData (newDoc e1 visitKind.type data pid)
      = .ok [newDoc e1 "visit" data pid] := by
    rw [hq]; rfl
  rw [hput]

/-- C19 (amended): from an empty queue, an offline `addPatientVisit` for a
patient returns 'Saved offline'; `getOfflineData` then returns exactly the
one new row and `getPatientVisits` ends with its record, tagged
`offline = true`; a following call of the sync coordinator in which nothing
rejects returns 1, after which `getOfflineData` returns no row and the remote
store has exactly one more visit, whose `createdAt` is the time of the write
and whose other fields, `notes` apart, are those of the submitted payload
(for a payload whose notes are text or absent). -/
theorem offline_visit_scenario (parse : String → Option Int) (e1 e2 : Env) (se : SyncEnv)
    (w0 : World) (patientId : String) (data : Record)
    (hq : w0.offlineData = []) (hoff : e1.online = false) (hl1 : e1.localFault = none)
    (hl2 : e2.localFault = none) (hon : se.online = true) (hqf : se.queryFault = none)
    (hquiet : ∀ j, quietTurn (se.turn j))
    (hn : notesAreText data = true) (hk : uniqueKeys data) :
    (addPatientVisit parse e1 w0 patientId data).2 = .ok "Saved offline" ∧
    getOfflineData e2 (addPatientVisit parse e1 w0 patientId data).1 patientId
      = .ok [newDoc e1 "visit" data patientId] ∧
    getPatientVisits none e2 (addPatientVisit parse e1 w0 patientId data).1 patientId
      = .ok ((w0.remote.filter
              (fun d => d.patientId == patientId && d.collection == "visits")).map onlineRecord
          ++ [offlineRecord (newDoc e1 "visit" data patientId)]) ∧
    getField (offlineRecord (newDoc e1 "visit" data patientId)) "offline" = .bool true ∧
    (syncOfflineData parse se (addPatientVisit parse e1 w0 patientId data).1).result = .ok 1 ∧
    getOfflineData e2
        (syncOfflineData parse se (addPatientVisit parse e1 w0 patientId data).1).world patientId
      = .ok [] ∧
    ∃ payload,
      (syncOfflineData parse se (addPatientVisit parse e1 w0 patientId data).1).world.remote
        = w0.remote ++ [{ patientId := patientId, collection := "visits",
                          id := "r" ++ toString w0.remote.length, data := payload }] ∧
      getField payload "createdAt" = .str (se.turn 0).isoNow ∧
      (∀ f, f ≠ "notes" → f ≠ "createdAt" → getField payload f = getField data f) ∧
      (∀ f, hasField data f = true → hasField payload f = true) ∧
      (∀ f, hasField payload f = true → f ≠ "notes" → f ≠ "createdAt" →
        hasField data f = true) := by
  have hfirst := offline_visit_first parse e1 w0 patientId data hq hoff hl1
  rw [hfirst]
  simp only []
  generalize hw1 : ({ w0 with offlineData := [newDoc e1 "visit" data patientId] } : World) = w1
  have hw1o : w1.offlineData = [newDoc e1 "visit" data patientId] := by rw [← hw1]
  have hw1r : w1.remote = w0.remote := by rw [← hw1]
  have hpend : pendingDocs w1 = [newDoc e1 "visit" data patientId] := by
    unfold pendingDocs
    rw [hw1o]
    simp [newDoc]
  have hget : getOfflineData e2 w1 patientId = .ok [newDoc e1 "visit" data patientId] := by
    simp only [getOfflineData, hl2, hw1o]
    simp [newDoc]
  have hread := mergedRead_ok "visit" "visits" (fun m => m) e2 w1 patientId hl2
  obtain ⟨hrw, _, hrr⟩ := syncOfflineData_online parse se w1 hon hqf
  obtain ⟨qon, qlocal, qcreate, qupdate, qmark⟩ := hquiet 0
  have hnotes : pendingNotesAreText w1.offlineData := by
    intro r hr _ _
    rw [hw1o, List.mem_singleton] at hr
    subst hr
    exact hn
  have hdisp : dispatch parse (se.turn 0) w1 (newDoc e1 "visit" data patientId)
      = submit parse visitKind (se.turn 0) w1 patientId data := by
    simp [dispatch, addPatientVisit, newDoc]
  have hok := syncDoc_ok parse (se.turn 0) w1 (newDoc e1 "visit" data patientId) qmark
    (dispatch_online_ok parse (se.turn 0) w1 _ qon qlocal qcreate qupdate hnotes (fun _ => hn))
  have hfacts := syncDoc_online_facts parse (se.turn 0) w1 (newDoc e1 "visit" data patientId) qon
  have hworld : (syncOfflineData parse se w1).world
      = (syncDoc parse (se.turn 0) w1 (newDoc e1 "visit" data patientId)).1 := by
    rw [hrw, hpend]
    rfl
  have hafter : (syncOfflineData parse se w1).world.offlineData
      = [{ newDoc e1 "visit" data patientId with synced := true }] := by
    rw [hworld, hfacts.1, hok.2, hw1o]
    simp [tableMarkSynced]
  refine ⟨trivial, hget, ?_, ?_, ?_, ?_, ?_⟩
  · unfold getPatientVisits
    rw [hread, hw1o, hw1r]
    simp [newDoc]
  · unfold offlineRecord
    rw [getField_setField]
    simp
  · rw [hrr, hpend]
    rfl
  · simp only [getOfflineData, hl2, hafter]
    simp
  · obtain ⟨payload, hp1, hp2, hp3, hp4, hp5⟩ :=
      lone_visit_payload parse (se.turn 0) w1 (newDoc e1 "visit" data patientId) hw1o rfl
        qon qlocal qcreate hn hk
    refine ⟨payload, ?_, hp2, hp3, hp4, hp5⟩
    rw [hworld, syncDoc_remote, hdisp, ← hw1r]
    exact hp1

theorem offline_visit_scenario_witness :
    (syncOfflineData parseISO quietSync
        (addPatientVisit parseISO offlineEnv emptyWorld "P1" feverPayload).1).result = .ok 1 ∧
    getOfflineData quietEnv
        (syncOfflineData parseISO quietSync
          (addPatientVisit parseISO offlineEnv emptyWorld "P1" feverPayload).1).world "P1"
      = .ok [] :=
  ⟨(offline_visit_scenario parseISO offlineEnv quietEnv quietSync emptyWorld "P1" feverPayload
      rfl rfl rfl rfl rfl rfl (fun _ => ⟨rfl, rfl, rfl, rfl, rfl⟩) (by decide)
      (by decide)).2.2.2.2.1,
   (offline_visit_scenario parseISO offlineEnv quietEnv quietSync emptyWorld "P1" feverPayload
      rfl rfl rfl rfl rfl rfl (fun _ => ⟨rfl, rfl, rfl, rfl, rfl⟩) (by decide)
      (by decide)).2.2.2.2.2.1⟩

/-- C19 as stated fails.  For the payload of the scenario the visit created
remotely has, besides `createdAt`, a field `notes` (empty) that the payload
does not have; for a payload with notes "rest " the visit created has the
notes "rest". -/
theorem drained_visit_differs_from_payload :
    (syncOfflineData parseISO quietSync
        (addPatientVisit parseISO offlineEnv emptyWorld "P1" feverPayload).1).world.remote.map
        (fun d => d.data)
      = [[("date", .str "2024-01-01"), ("symptoms", .str "fever"), ("notes", .str ""),
          ("createdAt", .str "2024-01-02T00:00:00.000Z")]] ∧
    hasField feverPayload "notes" = false ∧
    (syncOfflineData parseISO quietSync
        (addPatientVisit parseISO offlineEnv emptyWorld "P1" restPayload).1).world.remote.map
        (fun d => d.data)
      = [[("date", .str "2024-01-01"), ("symptoms", .str "fever"), ("notes", .str "rest"),
          ("createdAt", .str "2024-01-02T00:00:00.000Z")]] ∧
    getField restPayload "notes" = .str "rest " := by
  decide

theorem keepsRows_refl (t : List OfflineDoc) : keepsRows t t :=
  fun _ hr => Or.inl hr

theorem keepsRows_trans (t t' t'' : List OfflineDoc) (h1 : keepsRows t t')
    (h2 : keepsRows t' t'') : keepsRows t t'' := by
  intro r hr
  rcases h1 r hr with h | h
  · exact h2 r h
  · rcases h2 _ h with h' | h'
    · exact Or.inr h'
    · exact Or.inr h'

theorem keepsRows_map (t : List OfflineDoc) (b : OfflineDoc → Bool) :
    keepsRows t (t.map (fun r => { r with synced := r.synced || b r })) := by
  intro r hr
  cases hb : b r with
  | false =>
    left
    rw [List.mem_map]
    exact ⟨r, hr, by simp [hb]⟩
  | true =>
    right
    rw [List.mem_map]
    exact ⟨r, hr, by simp [hb]⟩

theorem keepsRows_mark (t : List OfflineDoc) (id : String) :
    keepsRows t (tableMarkSynced t id) := by
  intro r hr
  unfold tableMarkSynced
  by_cases hid : r.id = id
  · right
    rw [List.mem_map]
    exact ⟨r, hr, by simp [hid]⟩
  · left
    rw [List.mem_map]
    exact ⟨r, hr, by simp [hid]⟩

theorem keepsRows_save (env : Env) (w : World) (type : String) (data : Record) (pid : String)
    (hfresh : ∀ r ∈ w.offlineData, r.id ≠ (newDoc env type data pid).id) :
    keepsRows w.offlineData (saveOfflineData env w type data pid).1.offlineData := by
  rcases except_ok_or_error (saveOfflineData env w type data pid).2 with ⟨id, hid⟩ | ⟨m, hm⟩
  · rw [(saveOfflineData_ok env w type data pid id hid).2.2.2]
    intro r hr
    exact Or.inl (mem_upsert_of_ne _ r _ hr (hfresh r hr))
  · have hsame : (saveOfflineData env w type data pid).1 = w := by
      rw [saveOfflineData_eq] at hm ⊢
      cases hl : env.localFault with
      | some m' => rfl
      | none =>
        rw [hl] at hm
        simp only at hm ⊢
        cases hp : tablePut w.offlineData (newDoc env type data pid) with
        | error m' => rfl
        | ok t =>
          rw [hp] at hm
          simp at hm
    rw [hsame]
    exact keepsRows_refl _

theorem keepsRows_sync (parse : String → Option Int) (se : SyncEnv) (w : World)
    (honline : ∀ j, (se.turn j).online = true) :
    keepsRows w.offlineData (syncOfflineData parse se w).world.offlineData := by
  by_cases h : se.online = true ∧ se.queryFault = none
  · rw [(syncOfflineData_online parse se w h.1 h.2).1,
      (syncLoop_online parse se.turn honline (pendingDocs w) 0 w).1]
    exact keepsRows_map _ _
  · have h' : se.online = false ∨ se.queryFault ≠ none := by
      by_cases ho : se.online = true
      · exact Or.inr (fun hq => h ⟨ho, hq⟩)
      · exact Or.inl (by simpa using ho)
    rw [(syncOfflineData_idle parse se w h').1]
    exact keepsRows_refl _

theorem keepsRows_applyOp (parse : String → Option Int) (w : World) (op : QueueOp)
    (h : freshOp w op) : keepsRows w.offlineData (applyOp parse w op).offlineData := by
  cases op with
  | enqueue env type data pid => exact keepsRows_save env w type data pid h
  | listPending env pid => exact keepsRows_refl _
  | markSynced env id =>
    simp only [applyOp, markAsSynced]
    cases env.markFault with
    | some m => exact keepsRows_refl _
    | none => exact keepsRows_mark _ _
  | drain se => exact keepsRows_sync parse se w h

/-- Over a sequence of operations none of which generates a key that the
table already has, every row stays in the table, as it was or with
`synced := true`: none is removed or replaced and none goes back to pending. -/
theorem queue_ops_keep_rows (parse : String → Option Int) (ops : List QueueOp) :
    ∀ w : World, freshOps parse w ops →
      keepsRows w.offlineData (applyOps parse w ops).offlineData := by
  induction ops with
  | nil => intro w _; exact keepsRows_refl _
  | cons op ops ih =>
    intro w h
    exact keepsRows_trans _ _ _ (keepsRows_applyOp parse w op h.1)
      (ih (applyOp parse w op) h.2)

theorem upsert_perm_of_fresh (doc : OfflineDoc) (t : List OfflineDoc)
    (h : ∀ r ∈ t, r.id ≠ doc.id) : List.Perm (upsert doc t) (doc :: t) := by
  induction t with
  | nil => exact List.Perm.refl _
  | cons x xs ih =>
    have hx : (x.id == doc.id) = false := by simpa using h x (List.mem_cons_self _ _)
    unfold upsert
    rw [hx]
    simp only [Bool.false_eq_true, if_false]
    split
    · exact List.Perm.refl _
    · exact ((ih (fun r hr => h r (List.mem_cons_of_mem _ hr))).cons x).trans
        (List.Perm.swap doc x xs)

/-- A fulfilled offline `submit` that builds a row with a new id adds this
row to the table and changes nothing else. -/
theorem offline_submit_adds_row (parse : String → Option Int) (k : Kind) (env : Env)
    (w : World) (pid : String) (data : Record) (v : String) (hoff : env.online = false)
    (hok : (submit parse k env w pid data).2 = .ok v)
    (hfresh : ∀ r ∈ w.offlineData, r.id ≠ (newDoc env k.type data pid).id) :
    List.Perm (submit parse k env w pid data).1.offlineData
      (newDoc env k.type data pid :: w.offlineData) ∧
    (submit parse k env w pid data).1.remote = w.remote := by
  obtain ⟨h1, _, _, _⟩ := submit_ok_cases parse k env w pid data v hok
  obtain ⟨_, hrem, hup⟩ := h1 hoff
  exact ⟨hup ▸ upsert_perm_of_fresh _ _ hfresh, hrem⟩

/-! ## The patient documents, the alerts, the forms and the stray rows -/

theorem submit_lastVisit (parse : String → Option Int) (k : Kind) (env : Env) (w : World)
    (pid : String) (data : Record) :
    (env.online = false → (submit parse k env w pid data).1.lastVisit = w.lastVisit) ∧
    (k.stampsLastVisit = false → (submit parse k env w pid data).1.lastVisit = w.lastVisit) ∧
    (env.online = true → k.stampsLastVisit = true →
      ∀ v, (submit parse k env w pid data).2 = .ok v →
        (submit parse k env w pid data).1.lastVisit = w.lastVisit ++ [(pid, env.isoLater)]) ∧
    (∀ m, (submit parse k env w pid data).2 = .error m →
      (submit parse k env w pid data).1.lastVisit = w.lastVisit) := by
  cases hon : env.online with
  | false =>
    have hsub : submit parse k env w pid data
        = (match saveOfflineData env w k.type data pid with
          | (w1, .error m) => (w1, .error (messageOr m k.fallback))
          | (w1, .ok _) => (w1, .ok "Saved offline")) := by
      simp [submit, hon]
    have hlv := (saveOfflineData_remote env w k.type data pid).2
    have hall : (submit parse k env w pid data).1.lastVisit = w.lastVisit := by
      rw [hsub]
      cases hs : saveOfflineData env w k.type data pid with
      | mk w1 r =>
        rw [hs] at hlv
        cases r <;> exact hlv
    exact ⟨fun _ => hall, fun _ => hall, (fun h => by cases h), fun _ _ => hall⟩
  | true =>
    simp only [submit, hon, if_true, getOfflineData, addDoc, updateDoc]
    cases hl : env.localFault with
    | some m => simp
    | none =>
      simp only []
      generalize (match List.find? (matchesKey k data)
          (List.filter (fun doc => doc.patientId == pid && doc.synced == false) w.offlineData) with
        | some offlineDoc => resolveConflict parse k.type pid data offlineDoc.data
        | none => Except.ok data) = resolved
      cases resolved with
      | error m => simp
      | ok d =>
        cases hc : env.createFault with
        | some m => simp
        | none =>
          cases hs : k.stampsLastVisit with
          | false => simp
          | true =>
            cases hu : env.updateFault with
            | some m => simp
            | none => simp

theorem lastVisitOf_append_self (w : World) (l : List (String × String)) (pid stamp : String)
    (h : w.lastVisit = l ++ [(pid, stamp)]) : lastVisitOf w pid = some stamp := by
  simp [lastVisitOf, h]

theorem lastVisitOf_append_other (w w' : World) (pid stamp p : String)
    (h : w'.lastVisit = w.lastVisit ++ [(pid, stamp)]) (hp : p ≠ pid) :
    lastVisitOf w' p = lastVisitOf w p := by
  have hne : (pid == p) = false := by simpa using fun e => hp (Eq.symm e)
  simp [lastVisitOf, h, List.find?_cons, hne]

/-- C21: a fulfilled online `addPatientVisit` appends the stamp of the patient
to the `lastVisit` updates, so that the patient's `lastVisit` is the time of
the call and that of every other patient is as before; `addImmunization` and
`addReferral`, and every offline submit, leave `lastVisit` as it was. -/
theorem lastVisit_set_by_online_visit_only (parse : String → Option Int) (env : Env)
    (w : World) (patientId : String) (data : Record) :
    (∀ v, (addPatientVisit parse env w patientId data).2 = .ok v → env.online = true →
      (addPatientVisit parse env w patientId data).1.lastVisit
        = w.lastVisit ++ [(patientId, env.isoLater)] ∧
      lastVisitOf (addPatientVisit parse env w patientId data).1 patientId
        = some env.isoLater ∧
      ∀ p, p ≠ patientId →
        lastVisitOf (addPatientVisit parse env w patientId data).1 p = lastVisitOf w p) ∧
    (addImmunization parse env w patientId data).1.lastVisit = w.lastVisit ∧
    (addReferral parse env w patientId data).1.lastVisit = w.lastVisit ∧
    (∀ k, env.online = false →
      (submit parse k env w patientId data).1.lastVisit = w.lastVisit) := by
  refine ⟨?_, ?_, ?_, ?_⟩
  · intro v hv hon
    have h := (submit_lastVisit parse visitKind env w patientId data).2.2.1 hon rfl v hv
    exact ⟨h, lastVisitOf_append_self _ _ _ _ h,
      fun p hp => lastVisitOf_append_other w _ _ _ p h hp⟩
  · exact (submit_lastVisit parse immunizationKind env w patientId data).2.1 rfl
  · exact (submit_lastVisit parse referralKind env w patientId data).2.1 rfl
  · intro k hoff
    exact (submit_lastVisit parse k env w patientId data).1 hoff

theorem lastVisit_set_by_online_visit_only_witness :
    lastVisitOf (addPatientVisit parseISO quietEnv emptyWorld "P1" feverPayload).1 "P1"
      = some quietEnv.isoLater :=
  (((lastVisit_set_by_online_visit_only parseISO quietEnv emptyWorld "P1" feverPayload).1
    "r0" (by decide)) rfl).2.1

theorem mergedRead_local_fault (type collection : String) (rethrow : String → String)
    (env : Env) (w : World) (pid m : String) (hl : env.localFault = some m) :
    mergedRead type collection rethrow none env w pid
      = .ok ((w.remote.filter (fun d => d.patientId == pid && d.collection == collection)).map
          onlineRecord) := by
  simp [mergedRead, getDocs, getOfflineData, hl]

theorem mergedRead_remote_fault (type collection : String) (rethrow : String → String)
    (env : Env) (w : World) (pid m : String) :
    mergedRead type collection rethrow (some m) env w pid = .error (rethrow m) := by
  simp [mergedRead, getDocs]

/-- C22 (amended): when the read of the local table fails, `getOfflineData`
rejects, but `getPatientVisits`, `getImmunizations` and `getReferrals` catch
the rejection and return the remote records alone; it is the rejection of
the remote read that they pass on to the caller. -/
theorem merged_read_swallows_table_fault (env : Env) (w : World) (patientId m : String)
    (hl : env.localFault = some m) :
    getOfflineData env w patientId = .error ("Failed to fetch offline data: " ++ m) ∧
    getPatientVisits none env w patientId
      = .ok ((w.remote.filter
          (fun d => d.patientId == patientId && d.collection == "visits")).map onlineRecord) ∧
    getImmunizations none env w patientId
      = .ok ((w.remote.filter
          (fun d => d.patientId == patientId && d.collection == "immunizations")).map
            onlineRecord) ∧
    getReferrals none env w patientId
      = .ok ((w.remote.filter
          (fun d => d.patientId == patientId && d.collection == "referrals")).map
            onlineRecord) ∧
    (∀ m', getPatientVisits (some m') env w patientId = .error m') ∧
    (∀ m', getImmunizations (some m') env w patientId
      = .error (messageOr m' "Failed to fetch immunizations. Please try again.")) ∧
    (∀ m', getReferrals (some m') env w patientId
      = .error (messageOr m' "Failed to fetch referrals. Please try again.")) := by
  refine ⟨by simp [getOfflineData, hl], mergedRead_local_fault _ _ _ env w patientId m hl,
    mergedRead_local_fault _ _ _ env w patientId m hl,
    mergedRead_local_fault _ _ _ env w patientId m hl, ?_, ?_, ?_⟩
  · intro m'
    exact mergedRead_remote_fault _ _ _ env w patientId m'
  · intro m'
    exact mergedRead_remote_fault _ _ _ env w patientId m'
  · intro m'
    exact mergedRead_remote_fault _ _ _ env w patientId m'

theorem merged_read_swallows_table_fault_witness :
    getPatientVisits none brokenTableEnv mixedWorld "P1"
      = .ok ((mixedWorld.remote.filter
          (fun d => d.patientId == "P1" && d.collection == "visits")).map onlineRecord) :=
  (merged_read_swallows_table_fault brokenTableEnv mixedWorld "P1" "database closed" rfl).2.1

/-- C22 as stated fails: with the table unreadable and a pending visit of `P1`
in it, `getPatientVisits` returns a result, the remote visit alone, and no
error. -/
theorem merged_read_returns_despite_table_fault :
    getOfflineData brokenTableEnv mixedWorld "P1"
      = .error "Failed to fetch offline data: database closed" ∧
    getPatientVisits none brokenTableEnv mixedWorld "P1"
      = .ok [[("id", .str "r0"), ("date", .str "2023-12-24"), ("symptoms", .str "rash"),
              ("createdAt", .str "2023-12-24T09:00:00.000Z")]] ∧
    mixedWorld.offlineData.map (fun r => (r.patientId, r.type, r.synced))
      = [("P1", "visit", false)] := by
  decide

/-- C23: when the write to the local table fails during an offline `submit`
(the table is unreachable or `put` rejects), `saveOfflineData` rejects, the
`add*` function rejects with that message and the stores are as before; and
whenever an `add*` function returns 'Saved offline', the client was offline
and the row is in the table. -/
theorem failed_enqueue_is_surfaced (parse : String → Option Int) (k : Kind) (env : Env)
    (w : World) (patientId : String) (data : Record) :
    (∀ m, env.online = false → (saveOfflineData env w k.type data patientId).2 = .error m →
      (submit parse k env w patientId data).2 = .error (messageOr m k.fallback) ∧
      (submit parse k env w patientId data).1 = w) ∧
    ((∃ m, (saveOfflineData env w k.type data patientId).2 = .error m) ↔
      ¬ (env.localFault = none ∧
        ∀ r ∈ w.offlineData, r.id ≠ (newDoc env k.type data patientId).id →
          ¬ (r.patientId = patientId ∧ r.type = k.type ∧ r.createdAt = env.isoNow))) ∧
    ((submit parse k env w patientId data).2 = .ok "Saved offline" →
      env.online = false ∧
      newDoc env k.type data patientId ∈ (submit parse k env w patientId data).1.offlineData) ∧
    (addPatientVisit parse env w patientId data = submit parse visitKind env w patientId data ∧
      addImmunization parse env w patientId data
        = submit parse immunizationKind env w patientId data ∧
      addReferral parse env w patientId data
        = submit parse referralKind env w patientId data) := by
  refine ⟨?_, ?_, ?_, ⟨rfl, rfl, rfl⟩⟩
  · intro m hoff hm
    have hsame : (saveOfflineData env w k.type data patientId).1 = w := by
      rw [saveOfflineData_eq] at hm ⊢
      cases hl : env.localFault with
      | some m' => rfl
      | none =>
        rw [hl] at hm
        simp only at hm ⊢
        cases hp : tablePut w.offlineData (newDoc env k.type data patientId) with
        | error m' => rfl
        | ok t =>
          rw [hp] at hm
          simp at hm
    simp only [submit, hoff, Bool.false_eq_true, if_false]
    cases hs : saveOfflineData env w k.type data patientId with
    | mk w1 r =>
      rw [hs] at hm hsame
      simp only at hm hsame
      subst hm
      subst hsame
      exact ⟨rfl, rfl⟩
  · have hiff := saveOfflineData_ok_iff env w k.type data patientId
    constructor
    · rintro ⟨m, hm⟩ hgood
      obtain ⟨id, hid⟩ := hiff.2 hgood
      rw [hm] at hid
      cases hid
    · intro hbad
      rcases except_ok_or_error (saveOfflineData env w k.type data patientId).2 with h | h
      · exact absurd (hiff.1 h) hbad
      · exact h
  · intro hv
    obtain ⟨hoff, hon, _, _⟩ := submit_ok_cases parse k env w patientId data _ hv
    cases ho : env.online with
    | true => exact absurd (hon ho).1.symm (remoteId_ne_marker _)
    | false =>
      refine ⟨rfl, ?_⟩
      rw [(hoff ho).2.2]
      exact mem_upsert_self _ _

theorem failed_enqueue_is_surfaced_witness :
    (submit parseISO visitKind { offlineEnv with localFault := some "quota exceeded" }
        emptyWorld "P1" feverPayload).2
      = .error (messageOr "quota exceeded" visitKind.fallback) ∧
    (submit parseISO visitKind { offlineEnv with localFault := some "quota exceeded" }
        emptyWorld "P1" feverPayload).1 = emptyWorld :=
  (failed_enqueue_is_surfaced parseISO visitKind
    { offlineEnv with localFault := some "quota exceeded" } emptyWorld "P1" feverPayload).1
    "quota exceeded" rfl (by decide)

/-- C24: when `navigator.onLine` is false at the call, `syncOfflineData`
returns 0, makes no turn of the loop, and leaves the table and the remote
store as they are. -/
theorem offline_sync_does_nothing (parse : String → Option Int) (se : SyncEnv) (w : World)
    (hoff : se.online = false) :
    (syncOfflineData parse se w).result = .ok 0 ∧
    (syncOfflineData parse se w).attempts = [] ∧
    (syncOfflineData parse se w).world = w := by
  simp [syncOfflineData, hoff]

theorem offline_sync_does_nothing_witness :
    (syncOfflineData parseISO { quietSync with online := false } twoPending).result = .ok 0 ∧
    (syncOfflineData parseISO { quietSync with online := false } twoPending).attempts = [] ∧
    (syncOfflineData parseISO { quietSync with online := false } twoPending).world
      = twoPending :=
  offline_sync_does_nothing parseISO { quietSync with online := false } twoPending rfl

theorem alertFor_offline (today : String) (displayedAlerts : List String) (imm : Record)
    (h : (getField imm "offline").truthy = true) : alertFor today displayedAlerts imm = none := by
  simp [alertFor, h]

theorem alertFor_some (today : String) (displayedAlerts : List String) (imm : Record)
    (a : Alert) (h : alertFor today displayedAlerts imm = some a) :
    ∃ due, getField imm "nextDueDate" = .str due ∧ due ≠ "" ∧ stringLt due today = true ∧
      (getField imm "offline").truthy = false ∧
      a.type = "followup" ∧
      a.key = "followup-" ++ (getField imm "vaccineType").toText ++ "-" ++ due ∧
      a.message = "Follow-up immunization due for " ++ (getField imm "vaccineType").toText
        ++ " on " ++ due ++ "." ∧
      a.key ∉ displayedAlerts := by
  unfold alertFor at h
  split at h
  · next hc =>
    simp only [Bool.and_eq_true, Bool.not_eq_true'] at hc
    obtain ⟨⟨ht, hlt⟩, hoff⟩ := hc
    cases hv : getField imm "nextDueDate" with
    | str due =>
      rw [hv] at ht hlt h
      simp only [] at h
      split at h
      · next hnot =>
        cases h
        refine ⟨due, rfl, ?_, by simpa [ltToday] using hlt, hoff, rfl, rfl, rfl, ?_⟩
        · simpa [JSVal.truthy] using ht
        · simpa [JSVal.toText] using hnot
      · cases h
    | undefined => rw [hv] at hlt; simp [ltToday] at hlt
    | null => rw [hv] at hlt; simp [ltToday] at hlt
    | bool b => rw [hv] at hlt; simp [ltToday] at hlt
    | num n => rw [hv] at hlt; simp [ltToday] at hlt
    | nan => rw [hv] at hlt; simp [ltToday] at hlt
  · cases h

theorem checkAlerts_drop_offline (iso : String) (displayedAlerts : List String)
    (imms : List Record) :
    checkAlerts iso displayedAlerts imms
      = checkAlerts iso displayedAlerts
          (imms.filter (fun r => !(getField r "offline").truthy)) := by
  unfold checkAlerts
  induction imms with
  | nil => rfl
  | cons r rs ih =>
    cases ho : (getField r "offline").truthy with
    | true =>
      rw [List.filterMap_cons, alertFor_offline _ _ _ ho, List.filter_cons]
      simpa [ho] using ih
    | false =>
      rw [List.filter_cons]
      simp only [ho, Bool.not_false, if_true, List.filterMap_cons]
      rw [ih]

theorem digitVal_eq (c : Char) (h : (digitVal c).isSome = true) :
    48 ≤ c.toNat ∧ c.toNat ≤ 57 ∧ digitVal c = some (c.toNat - 48) := by
  unfold digitVal at h ⊢
  by_cases hc : 48 ≤ c.toNat ∧ c.toNat ≤ 57
  · exact ⟨hc.1, hc.2, by simp [hc]⟩
  · simp [hc] at h

theorem utf16Units_digit (c : Char) (h : c.toNat ≤ 57) : utf16Units c = [c.toNat] := by
  unfold utf16Units
  rw [if_pos (by omega)]

theorem matchesDate_data (s : String) (h : matchesDate s = true) :
    ∃ y1 y2 y3 y4 m1 m2 d1 d2 : Char,
      s.data = [y1, y2, y3, y4, '-', m1, m2, '-', d1, d2] ∧
      (digitVal y1).isSome = true ∧ (digitVal y2).isSome = true ∧
      (digitVal y3).isSome = true ∧ (digitVal y4).isSome = true ∧
      (digitVal m1).isSome = true ∧ (digitVal m2).isSome = true ∧
      (digitVal d1).isSome = true ∧ (digitVal d2).isSome = true := by
  unfold matchesDate at h
  split at h
  · next y1 y2 y3 y4 m1 m2 d1 d2 hd =>
    refine ⟨y1, y2, y3, y4, m1, m2, d1, d2, hd, ?_⟩
    simpa using h
  · cases h

theorem dayNumber_units (s : String) (h : matchesDate s = true) :
    ∃ a b c d e f g i : Nat,
      (48 ≤ a ∧ a ≤ 57) ∧ (48 ≤ b ∧ b ≤ 57) ∧ (48 ≤ c ∧ c ≤ 57) ∧ (48 ≤ d ∧ d ≤ 57) ∧
      (48 ≤ e ∧ e ≤ 57) ∧ (48 ≤ f ∧ f ≤ 57) ∧ (48 ≤ g ∧ g ≤ 57) ∧ (48 ≤ i ∧ i ≤ 57) ∧
      dayNumber s = some ((a - 48) * 10000000 + (b - 48) * 1000000 + (c - 48) * 100000
        + (d - 48) * 10000 + (e - 48) * 1000 + (f - 48) * 100 + (g - 48) * 10 + (i - 48)) ∧
      codeUnits s.data = [a, b, c, d, 45, e, f, 45, g, i] := by
  obtain ⟨y1, y2, y3, y4, m1, m2, d1, d2, hd, h1, h2, h3, h4, h5, h6, h7, h8⟩ :=
    matchesDate_data s h
  obtain ⟨a1, a2, a3⟩ := digitVal_eq y1 h1
  obtain ⟨b1, b2, b3⟩ := digitVal_eq y2 h2
  obtain ⟨c1, c2, c3⟩ := digitVal_eq y3 h3
  obtain ⟨e1, e2, e3⟩ := digitVal_eq y4 h4
  obtain ⟨f1, f2, f3⟩ := digitVal_eq m1 h5
  obtain ⟨g1, g2, g3⟩ := digitVal_eq m2 h6
  obtain ⟨i1, i2, i3⟩ := digitVal_eq d1 h7
  obtain ⟨j1, j2, j3⟩ := digitVal_eq d2 h8
  refine ⟨y1.toNat, y2.toNat, y3.toNat, y4.toNat, m1.toNat, m2.toNat, d1.toNat, d2.toNat,
    ⟨a1, a2⟩, ⟨b1, b2⟩, ⟨c1, c2⟩, ⟨e1, e2⟩, ⟨f1, f2⟩, ⟨g1, g2⟩, ⟨i1, i2⟩, ⟨j1, j2⟩, ?_, ?_⟩
  · unfold dayNumber
    rw [hd]
    simp only [a3, b3, c3, e3, f3, g3, i3, j3]
  · rw [hd]
    have hdash : utf16Units '-' = [45] := by decide
    simp only [codeUnits, utf16Units_digit _ a2, utf16Units_digit _ b2, utf16Units_digit _ c2,
      utf16Units_digit _ e2, utf16Units_digit _ f2, utf16Units_digit _ g2,
      utf16Units_digit _ i2, utf16Units_digit _ j2, hdash, List.cons_append, List.nil_append,
      List.append_nil]

theorem unitsLt_cons (a b : Nat) (as bs : List Nat) :
    unitsLt (a :: as) (b :: bs)
      = if a < b then true else if b < a then false else unitsLt as bs := rfl

theorem unitsLt_nil : unitsLt [] [] = false := rfl

/-- For two dates written `YYYY-MM-DD`, the comparison of the strings is the
comparison of the days. -/
theorem stringLt_dates (s t : String) (hs : matchesDate s = true) (ht : matchesDate t = true) :
    ∃ m n, dayNumber s = some m ∧ dayNumber t = some n ∧ (stringLt s t = true ↔ m < n) := by
  obtain ⟨a, b, c, d, e, f, g, i, ha, hb, hc, hd, he, hf, hg, hi, hday, hunits⟩ :=
    dayNumber_units s hs
  obtain ⟨a', b', c', d', e', f', g', i', ha', hb', hc', hd', he', hf', hg', hi', hday', hunits'⟩ :=
    dayNumber_units t ht
  refine ⟨_, _, hday, hday', ?_⟩
  unfold stringLt
  rw [hunits, hunits']
  rw [unitsLt_cons, unitsLt_cons, unitsLt_cons, unitsLt_cons, unitsLt_cons, unitsLt_cons,
    unitsLt_cons, unitsLt_cons, unitsLt_cons, unitsLt_cons, unitsLt_nil]
  have hdash : ¬ (45 : Nat) < 45 := by decide
  by_cases hlt : a < a'
  · rw [if_pos hlt]
    exact ⟨fun _ => by omega, fun _ => rfl⟩
  rw [if_neg hlt]
  by_cases hgt : a' < a
  · rw [if_pos hgt]
    exact ⟨(fun h => by cases h), fun h => by omega⟩
  rw [if_neg hgt]
  have heq_a : a = a' := by omega
  clear hlt hgt
  by_cases hlt : b < b'
  · rw [if_pos hlt]
    exact ⟨fun _ => by omega, fun _ => rfl⟩
  rw [if_neg hlt]
  by_cases hgt : b' < b
  · rw [if_pos hgt]
    exact ⟨(fun h => by cases h), fun h => by omega⟩
  rw [if_neg hgt]
  have heq_b : b = b' := by omega
  clear hlt hgt
  by_cases hlt : c < c'
  · rw [if_pos hlt]
    exact ⟨fun _ => by omega, fun _ => rfl⟩
  rw [if_neg hlt]
  by_cases hgt : c' < c
  · rw [if_pos hgt]
    exact ⟨(fun h => by cases h), fun h => by omega⟩
  rw [if_neg hgt]
  have heq_c : c = c' := by omega
  clear hlt hgt
  by_cases hlt : d < d'
  · rw [if_pos hlt]
    exact ⟨fun _ => by omega, fun _ => rfl⟩
  rw [if_neg hlt]
  by_cases hgt : d' < d
  · rw [if_pos hgt]
    exact ⟨(fun h => by cases h), fun h => by omega⟩
  rw [if_neg hgt]
  have heq_d : d = d' := by omega
  clear hlt hgt
  rw [if_neg hdash, if_neg hdash]
  by_cases hlt : e < e'
  · rw [if_pos hlt]
    exact ⟨fun _ => by omega, fun _ => rfl⟩
  rw [if_neg hlt]
  by_cases hgt : e' < e
  · rw [if_pos hgt]
    exact ⟨(fun h => by cases h), fun h => by omega⟩
  rw [if_neg hgt]
  have heq_e : e = e' := by omega
  clear hlt hgt
  by_cases hlt : f < f'
  · rw [if_pos hlt]
    exact ⟨fun _ => by omega, fun _ => rfl⟩
  rw [if_neg hlt]
  by_cases hgt : f' < f
  · rw [if_pos hgt]
    exact ⟨(fun h => by cases h), fun h => by omega⟩
  rw [if_neg hgt]
  have heq_f : f = f' := by omega
  clear hlt hgt
  rw [if_neg hdash, if_neg hdash]
  by_cases hlt : g < g'
  · rw [if_pos hlt]
    exact ⟨fun _ => by omega, fun _ => rfl⟩
  rw [if_neg hlt]
  by_cases hgt : g' < g
  · rw [if_pos hgt]
    exact ⟨(fun h => by cases h), fun h => by omega⟩
  rw [if_neg hgt]
  have heq_g : g = g' := by omega
  clear hlt hgt
  by_cases hlt : i < i'
  · rw [if_pos hlt]
    exact ⟨fun _ => by omega, fun _ => rfl⟩
  rw [if_neg hlt]
  by_cases hgt : i' < i
  · rw [if_pos hgt]
    exact ⟨(fun h => by cases h), fun h => by omega⟩
  rw [if_neg hgt]
  have heq_i : i = i' := by omega
  clear hlt hgt
  exact ⟨(fun h => by cases h), fun h => by omega⟩

theorem digitsVal_two (a b : Char) (n : Nat) (h : digitsVal [a, b] = some n) :
    (digitVal a).isSome = true ∧ (digitVal b).isSome = true := by
  cases ha : digitVal a <;> cases hb : digitVal b <;>
    simp [digitsVal, ha, hb] at h ⊢

theorem digitsVal_four (a b c d : Char) (n : Nat) (h : digitsVal [a, b, c, d] = some n) :
    (digitVal a).isSome = true ∧ (digitVal b).isSome = true ∧
      (digitVal c).isSome = true ∧ (digitVal d).isSome = true := by
  cases ha : digitVal a <;> cases hb : digitVal b <;> cases hc : digitVal c <;>
    cases hd : digitVal d <;> simp [digitsVal, ha, hb, hc, hd] at h ⊢

theorem digit_ne_T (c : Char) (h : (digitVal c).isSome = true) : (c != 'T') = true := by
  obtain ⟨_, h2, _⟩ := digitVal_eq c h
  have hne : c ≠ 'T' := by
    intro e
    subst e
    revert h2
    decide
  simpa using hne

/-- The date part of a string in the format of `toISOString` is a date
`YYYY-MM-DD`. -/
theorem matchesDate_datePart (iso : String) (t : Int) (h : parseISO iso = some t) :
    matchesDate (datePart iso) = true := by
  unfold parseISO at h
  split at h
  · next y1 y2 y3 y4 m1 m2 d1 d2 h1 h2 n1 n2 s1 s2 f1 f2 f3 hdata =>
    split at h
    · next y m d hh n sec ms hy hm hd _ _ _ _ =>
      obtain ⟨a1, a2, a3, a4⟩ := digitsVal_four _ _ _ _ _ hy
      obtain ⟨b1, b2⟩ := digitsVal_two _ _ _ hm
      obtain ⟨c1, c2⟩ := digitsVal_two _ _ _ hd
      have hdash : ('-' != 'T') = true := by decide
      have hT : ('T' != 'T') = false := by decide
      unfold datePart matchesDate
      rw [hdata]
      simp only [List.takeWhile_cons, digit_ne_T _ a1, digit_ne_T _ a2, digit_ne_T _ a3,
        digit_ne_T _ a4, digit_ne_T _ b1, digit_ne_T _ b2, digit_ne_T _ c1, digit_ne_T _ c2,
        hdash, hT, if_true, Bool.false_eq_true, if_false]
      simp [a1, a2, a3, a4, b1, b2, c1, c2]
    · cases h
  · cases h

/-- C25: `checkAlerts` pushes no alert for a record whose `offline` tag is
set, whatever its `nextDueDate`, so that the result is that of the records
without the tag; every alert returned comes from a record of the list that
has no such tag and whose `nextDueDate` is a non-empty string below the date
of today; the date of today is written `YYYY-MM-DD`, and for dates written
so the string is below exactly when the day is earlier. -/
theorem pending_records_raise_no_alert (iso : String) (displayedAlerts : List String)
    (immunizations : List Record) :
    (∀ imm today, (getField imm "offline").truthy = true →
      alertFor today displayedAlerts imm = none) ∧
    checkAlerts iso displayedAlerts immunizations
      = checkAlerts iso displayedAlerts
          (immunizations.filter (fun r => !(getField r "offline").truthy)) ∧
    (∀ a ∈ checkAlerts iso displayedAlerts immunizations,
      ∃ imm ∈ immunizations, alertFor (datePart iso) displayedAlerts imm = some a ∧
        (getField imm "offline").truthy = false ∧
        ∃ due, getField imm "nextDueDate" = .str due ∧ due ≠ "" ∧
          stringLt due (datePart iso) = true ∧
          a.key = "followup-" ++ (getField imm "vaccineType").toText ++ "-" ++ due ∧
          a.key ∉ displayedAlerts) ∧
    (∀ t, parseISO iso = some t → matchesDate (datePart iso) = true) ∧
    (∀ due today, matchesDate due = true → matchesDate today = true →
      ∃ m n, dayNumber due = some m ∧ dayNumber today = some n ∧
        (stringLt due today = true ↔ m < n)) := by
  refine ⟨fun imm today h => alertFor_offline today displayedAlerts imm h,
    checkAlerts_drop_offline iso displayedAlerts immunizations, ?_,
    fun t h => matchesDate_datePart iso t h,
    fun due today h1 h2 => stringLt_dates due today h1 h2⟩
  intro a ha
  unfold checkAlerts at ha
  obtain ⟨imm, hmem, hsome⟩ := List.mem_filterMap.1 ha
  obtain ⟨due, h1, h2, h3, h4, _, h6, _, h8⟩ := alertFor_some _ _ _ _ hsome
  exact ⟨imm, hmem, hsome, h4, due, h1, h2, h3, h6, h8⟩

theorem pending_records_raise_no_alert_witness :
    alertFor "2024-01-02" []
      [("id", .str "immunization_P1_1"), ("vaccineType", .str "BCG"),
        ("nextDueDate", .str "2023-11-01"), ("offline", .bool true)] = none :=
  (pending_records_raise_no_alert "2024-01-02T00:00:00.000Z" [] shotRecords).1
    [("id", .str "immunization_P1_1"), ("vaccineType", .str "BCG"),
      ("nextDueDate", .str "2023-11-01"), ("offline", .bool true)] "2024-01-02" (by decide)

/-- C27: evaluation.  The table holds one pending visit of `P1`, with the
notes "rest ", and nothing else.  While the drain delivers it, the lookup of
`addPatientVisit` returns that very row, the resolver merges the payload with
itself, and the visit created has the notes "rest"; for the pending visit
without notes, the visit created has a field `notes` that the queued payload
does not have.  Submitted online with an empty table, the same payload is
created with its notes as they are. -/
theorem drain_pairs_entry_with_itself :
    pendingDocs restWorld = [restVisit] ∧
    conflictLookup visitKind restWorld "P1" restVisit.data = some restVisit ∧
    resolveConflict parseISO "visit" "P1" restVisit.data restVisit.data
      = .ok [("date", .str "2024-01-01"), ("symptoms", .str "fever"), ("notes", .str "rest")] ∧
    (syncOfflineData parseISO quietSync restWorld).world.remote.map (fun d => d.data)
      = [[("date", .str "2024-01-01"), ("symptoms", .str "fever"), ("notes", .str "rest"),
          ("createdAt", .str "2024-01-02T00:00:00.000Z")]] ∧
    restVisit.data
      = [("date", .str "2024-01-01"), ("symptoms", .str "fever"), ("notes", .str "rest ")] ∧
    conflictLookup visitKind oneVisit "P1" feverVisit.data = some feverVisit ∧
    (syncOfflineData parseISO quietSync oneVisit).world.remote.map (fun d => d.data)
      = [[("date", .str "2024-01-01"), ("symptoms", .str "fever"), ("notes", .str ""),
          ("createdAt", .str "2024-01-02T00:00:00.000Z")]] ∧
    feverVisit.data = [("date", .str "2024-01-01"), ("symptoms", .str "fever")] ∧
    (addPatientVisit parseISO quietEnv emptyWorld "P1" restPayload).1.remote.map
        (fun d => d.data)
      = [[("date", .str "2024-01-01"), ("symptoms", .str "fever"), ("notes", .str "rest "),
          ("createdAt", .str "2024-01-02T00:00:00.000Z")]] := by
  decide

theorem validateVisitForm_iff (f : VisitForm) :
    validateVisitForm f = true ↔
      matchesDate f.date = true ∧ isBlank f.symptoms = false ∧ isBlank f.diagnoses = false ∧
        isBlank f.treatments = false ∧ isBlank f.notes = false := by
  unfold validateVisitForm visitErrors
  cases matchesDate f.date <;> cases isBlank f.symptoms <;> cases isBlank f.diagnoses <;>
    cases isBlank f.treatments <;> cases isBlank f.notes <;> simp

theorem validateImmunizationForm_iff (toNumber : String → Option ℚ) (f : ImmunizationForm) :
    validateImmunizationForm toNumber f = true ↔
      isBlank f.vaccineType = false ∧ doseRejected toNumber f.dose = false ∧
        matchesDate f.dateAdministered = true ∧
        (f.nextDueDate = "" ∨ matchesDate f.nextDueDate = true) := by
  unfold validateImmunizationForm immunizationErrors
  by_cases hn : f.nextDueDate = ""
  · cases isBlank f.vaccineType <;> cases doseRejected toNumber f.dose <;>
      cases matchesDate f.dateAdministered <;> simp [hn]
  · cases isBlank f.vaccineType <;> cases doseRejected toNumber f.dose <;>
      cases matchesDate f.dateAdministered <;> cases matchesDate f.nextDueDate <;> simp [hn]

theorem validateReferralForm_iff (f : ReferralForm) :
    validateReferralForm f = true ↔
      isBlank f.facility = false ∧ isBlank f.reason = false ∧ isBlank f.notes = false ∧
        matchesDate f.referralDate = true := by
  unfold validateReferralForm referralErrors
  cases isBlank f.facility <;> cases isBlank f.reason <;> cases isBlank f.notes <;>
    cases matchesDate f.referralDate <;> simp

/-- C28: a form that fails its validation (a date that is not `YYYY-MM-DD`, a
required text that is blank, a dose that is empty or a number below 1) makes
its submit handler return before the `add*` call, with the table and the
remote store as they were; a form that passes is handed to the `add*`
function. -/
theorem invalid_form_is_not_submitted (parse : String → Option Int)
    (toNumber : String → Option ℚ) (parseInt : String → JSVal) (env : Env) (w : World)
    (patientId : String) (vf : VisitForm) (imf : ImmunizationForm) (rf : ReferralForm) :
    (validateVisitForm vf = false →
      handleVisitSubmit parse env w patientId vf = (w, .invalid)) ∧
    (validateImmunizationForm toNumber imf = false →
      handleImmunizationSubmit parse toNumber parseInt env w patientId imf = (w, .invalid)) ∧
    (validateReferralForm rf = false →
      handleReferralSubmit parse env w patientId rf = (w, .invalid)) ∧
    (validateVisitForm vf = true ↔
      matchesDate vf.date = true ∧ isBlank vf.symptoms = false ∧ isBlank vf.diagnoses = false ∧
        isBlank vf.treatments = false ∧ isBlank vf.notes = false) ∧
    (validateImmunizationForm toNumber imf = true ↔
      isBlank imf.vaccineType = false ∧ doseRejected toNumber imf.dose = false ∧
        matchesDate imf.dateAdministered = true ∧
        (imf.nextDueDate = "" ∨ matchesDate imf.nextDueDate = true)) ∧
    (validateReferralForm rf = true ↔
      isBlank rf.facility = false ∧ isBlank rf.reason = false ∧ isBlank rf.notes = false ∧
        matchesDate rf.referralDate = true) ∧
    (imf.dose = "" → doseRejected toNumber imf.dose = true) ∧
    (∀ q, toNumber imf.dose = some q → q < 1 → doseRejected toNumber imf.dose = true) ∧
    (validateVisitForm vf = true →
      handleVisitSubmit parse env w patientId vf
        = ((addPatientVisit parse env w patientId (visitPayload vf)).1,
           .submitted (addPatientVisit parse env w patientId (visitPayload vf)).2)) ∧
    (validateImmunizationForm toNumber imf = true →
      handleImmunizationSubmit parse toNumber parseInt env w patientId imf
        = ((addImmunization parse env w patientId (immunizationPayload parseInt imf)).1,
           .submitted
             (addImmunization parse env w patientId (immunizationPayload parseInt imf)).2)) ∧
    (validateReferralForm rf = true →
      handleReferralSubmit parse env w patientId rf
        = ((addReferral parse env w patientId (referralPayload rf)).1,
           .submitted (addReferral parse env w patientId (referralPayload rf)).2)) := by
  refine ⟨?_, ?_, ?_, validateVisitForm_iff vf, validateImmunizationForm_iff toNumber imf,
    validateReferralForm_iff rf, ?_, ?_, ?_, ?_, ?_⟩
  · intro h; simp [handleVisitSubmit, h]
  · intro h; simp [handleImmunizationSubmit, h]
  · intro h; simp [handleReferralSubmit, h]
  · intro h; simp [doseRejected, h]
  · intro q hq hlt; simp [doseRejected, hq, hlt]
  · intro h; simp [handleVisitSubmit, h]
  · intro h; simp [handleImmunizationSubmit, h]
  · intro h; simp [handleReferralSubmit, h]

theorem invalid_form_is_not_submitted_witness :
    handleVisitSubmit parseISO offlineEnv emptyWorld "P1" badDateForm = (emptyWorld, .invalid) ∧
    handleImmunizationSubmit parseISO decimalNumber decimalParseInt offlineEnv emptyWorld "P1"
        zeroDoseForm = (emptyWorld, .invalid) ∧
    handleReferralSubmit parseISO offlineEnv emptyWorld "P1" blankReasonForm
      = (emptyWorld, .invalid) :=
  ⟨(invalid_form_is_not_submitted parseISO decimalNumber decimalParseInt offlineEnv emptyWorld
      "P1" badDateForm zeroDoseForm blankReasonForm).1 (by decide),
   (invalid_form_is_not_submitted parseISO decimalNumber decimalParseInt offlineEnv emptyWorld
      "P1" badDateForm zeroDoseForm blankReasonForm).2.1 (by decide),
   (invalid_form_is_not_submitted parseISO decimalNumber decimalParseInt offlineEnv emptyWorld
      "P1" badDateForm zeroDoseForm blankReasonForm).2.2.1 (by decide)⟩

theorem dispatch_unknown (parse : String → Option Int) (env : Env) (w : World)
    (d : OfflineDoc) (hk : knownType d = false) : dispatch parse env w d = (w, .ok "") := by
  simp only [knownType, Bool.or_eq_false_iff, beq_eq_false_iff_ne, ne_eq] at hk
  obtain ⟨⟨h1, h2⟩, h3⟩ := hk
  simp [dispatch, h1, h2, h3]

theorem syncDoc_unknown (parse : String → Option Int) (env : Env) (w : World)
    (d : OfflineDoc) (hk : knownType d = false) (hm : env.markFault = none) :
    (syncDoc parse env w d).2
      = { docId := d.id, delivered := true, created := 0, marked := true } := by
  simp [syncDoc, dispatch_unknown parse env w d hk, hm]

theorem syncLoop_unknown (parse : String → Option Int) (envs : Nat → Env)
    (hmark : ∀ j, (envs j).markFault = none) (d : OfflineDoc) (hk : knownType d = false)
    (docs : List OfflineDoc) :
    ∀ (i : Nat) (w : World), d ∈ docs →
      ∃ a ∈ (syncLoop parse envs i docs w).2,
        a.docId = d.id ∧ a.delivered = true ∧ a.created = 0 ∧ a.marked = true := by
  induction docs with
  | nil => intro i w h; cases h
  | cons x xs ih =>
    intro i w h
    simp only [syncLoop]
    rcases List.mem_cons.1 h with h | h
    · subst h
      refine ⟨_, List.mem_cons_self _ _, ?_⟩
      rw [syncDoc_unknown parse (envs i) w d hk (hmark i)]
      exact ⟨rfl, rfl, rfl, rfl⟩
    · obtain ⟨a, ha, hfacts⟩ := ih (i + 1) (syncDoc parse (envs i) w x).1 h
      exact ⟨a, List.mem_cons_of_mem _ ha, hfacts⟩

/-- C29: in a call of the sync coordinator that stays online and in which no
marking rejects, a pending row whose type is none of 'visit', 'immunization'
and 'referral' has a turn that creates no remote document (its dispatch
touches no store) and yet marks the row; the row is counted in the returned
number, and afterwards it is synced, so that neither the pending rows of the
table nor any `getOfflineData` contains it. -/
theorem unknown_type_marked_undelivered (parse : String → Option Int) (se : SyncEnv)
    (w : World) (d : OfflineDoc)
    (hon : se.online = true) (hq : se.queryFault = none)
    (honline : ∀ j, (se.turn j).online = true)
    (hmark : ∀ j, (se.turn j).markFault = none)
    (hd : d ∈ pendingDocs w) (hk : knownType d = false) :
    (∀ env w0, dispatch parse env w0 d = (w0, .ok "")) ∧
    (∃ a ∈ (syncOfflineData parse se w).attempts,
      a.docId = d.id ∧ a.delivered = true ∧ a.created = 0 ∧ a.marked = true) ∧
    (syncOfflineData parse se w).result = .ok (pendingDocs w).length ∧
    0 < (pendingDocs w).length ∧
    (∀ r ∈ (syncOfflineData parse se w).world.offlineData, r.id = d.id → r.synced = true) ∧
    { d with synced := true } ∈ (syncOfflineData parse se w).world.offlineData ∧
    (∀ r ∈ pendingDocs (syncOfflineData parse se w).world, r.id ≠ d.id) ∧
    (∀ env pid docs, getOfflineData env (syncOfflineData parse se w).world pid = .ok docs →
      ∀ r ∈ docs, r.id ≠ d.id) := by
  obtain ⟨hw, ha, hr⟩ := syncOfflineData_online parse se w hon hq
  obtain ⟨h1, _⟩ := syncLoop_online parse se.turn honline (pendingDocs w) 0 w
  obtain ⟨a, hmem, hid, hdel, hcr, hmk⟩ :=
    syncLoop_unknown parse se.turn hmark d hk (pendingDocs w) 0 w hd
  have hmarked : markedIn (syncLoop parse se.turn 0 (pendingDocs w) w).2 d.id = true := by
    simp only [markedIn, List.any_eq_true, Bool.and_eq_true, beq_iff_eq]
    exact ⟨a, hmem, hid, hmk⟩
  have hsynced : ∀ r ∈ (syncOfflineData parse se w).world.offlineData,
      r.id = d.id → r.synced = true := by
    intro r hr' hrid
    rw [hw, h1, List.mem_map] at hr'
    obtain ⟨r0, _, he⟩ := hr'
    subst he
    simp only at hrid ⊢
    rw [hrid, hmarked]
    simp
  refine ⟨fun env w0 => dispatch_unknown parse env w0 d hk, ?_, hr,
    List.length_pos_of_mem hd, hsynced, ?_, ?_, ?_⟩
  · rw [ha]
    exact ⟨a, hmem, hid, hdel, hcr, hmk⟩
  · rw [hw, h1, List.mem_map]
    refine ⟨d, ((mem_pendingDocs w d).1 hd).1, ?_⟩
    rw [hmarked]
    simp
  · intro r hr' hrid
    obtain ⟨hin, hs⟩ := (mem_pendingDocs _ r).1 hr'
    rw [hsynced r hin hrid] at hs
    cases hs
  · intro env pid docs hget r hr' hrid
    unfold getOfflineData at hget
    cases hl : env.localFault with
    | some m => rw [hl] at hget; cases hget
    | none =>
      rw [hl] at hget
      simp only [Except.ok.injEq] at hget
      subst hget
      simp only [List.mem_filter, Bool.and_eq_true, beq_iff_eq] at hr'
      obtain ⟨hin, _, hs⟩ := hr'
      rw [hsynced r hin hrid] at hs
      cases hs

theorem unknown_type_marked_undelivered_witness :
    (∃ a ∈ (syncOfflineData parseISO quietSync strayWorld).attempts,
      a.docId = strayNote.id ∧ a.delivered = true ∧ a.created = 0 ∧ a.marked = true) ∧
    (syncOfflineData parseISO quietSync strayWorld).result
      = .ok (pendingDocs strayWorld).length :=
  ⟨(unknown_type_marked_undelivered parseISO quietSync strayWorld strayNote rfl rfl
      (fun _ => rfl) (fun _ => rfl) (by decide) (by decide)).2.1,
   (unknown_type_marked_undelivered parseISO quietSync strayWorld strayNote rfl rfl
      (fun _ => rfl) (fun _ => rfl) (by decide) (by decide)).2.2.1⟩

theorem numGt_none_left (b : Option Int) : numGt none b = false := rfl

theorem numGt_none_right (a : Option Int) : numGt a none = false := by
  cases a <;> rfl

theorem resolveConflict_of_no_local_stamp (parse : String → Option Int) (type pid : String)
    (l r : Record) (h : localTimestamp parse l = none) :
    resolveConflict parse type pid l r = mergeEqual type l r := by
  simp [resolveConflict, h, numGt_none_left, numGt_none_right]

theorem localTimestamp_of_missing (parse : String → Option Int) (l : Record)
    (h : hasField l "createdAt" = false) : localTimestamp parse l = none := by
  simp [localTimestamp, getField_of_hasField_false l "createdAt" h, dateGetTime]

/-! ## The drain, turn by turn -/

theorem accepts_iff (env : Env) :
    accepts env = true ↔ env.localFault = none ∧ env.createFault = none := by
  unfold accepts
  cases env.localFault <;> cases env.createFault <;> simp

theorem submit_online_rejected (parse : String → Option Int) (k : Kind) (env : Env)
    (w : World) (pid : String) (data : Record) (hon : env.online = true)
    (hacc : accepts env = false) :
    (submit parse k env w pid data).1 = w ∧
    ∃ m, (submit parse k env w pid data).2 = .error m := by
  simp only [submit, hon, if_true, getOfflineData, addDoc]
  cases hl : env.localFault with
  | some m => exact ⟨rfl, _, rfl⟩
  | none =>
    cases hc : env.createFault with
    | none => simp [accepts, hl, hc] at hacc
    | some m =>
      simp only []
      generalize (match List.find? (matchesKey k data)
          (List.filter (fun doc => doc.patientId == pid && doc.synced == false) w.offlineData) with
        | some offlineDoc => resolveConflict parse k.type pid data offlineDoc.data
        | none => Except.ok data) = resolved
      cases resolved with
      | error e => exact ⟨rfl, _, rfl⟩
      | ok d => exact ⟨rfl, _, rfl⟩

theorem submit_online_key (parse : String → Option Int) (k : Kind) (env : Env)
    (w : World) (pid : String) (data : Record) (hon : env.online = true)
    (hok : ∃ v, (submit parse k env w pid data).2 = .ok v) :
    (submit parse k env w pid data).1.remote.map remoteKey
      = w.remote.map remoteKey ++ [(pid, k.collection)] := by
  revert hok
  simp only [submit, hon, if_true, getOfflineData, addDoc, updateDoc]
  cases hl : env.localFault with
  | some m => simp
  | none =>
    simp only []
    generalize (match List.find? (matchesKey k data)
        (List.filter (fun doc => doc.patientId == pid && doc.synced == false) w.offlineData) with
      | some offlineDoc => resolveConflict parse k.type pid data offlineDoc.data
      | none => Except.ok data) = resolved
    cases resolved with
    | error m => simp
    | ok d =>
      cases hc : env.createFault with
      | some m => simp
      | none =>
        cases hs : k.stampsLastVisit with
        | false => simp [remoteKey]
        | true =>
          cases hu : env.updateFault with
          | some m => simp
          | none => simp [remoteKey]

theorem dispatch_known (parse : String → Option Int) (env : Env) (w : World)
    (doc : OfflineDoc) (hk : knownType doc = true) :
    ∃ k : Kind, k.collection = collectionOf doc.type ∧
      dispatch parse env w doc = submit parse k env w doc.patientId doc.data := by
  unfold dispatch addPatientVisit addImmunization addReferral collectionOf
  by_cases h1 : doc.type = "visit"
  · exact ⟨visitKind, by simp [h1], by simp [h1]⟩
  · by_cases h2 : doc.type = "immunization"
    · exact ⟨immunizationKind, by simp [h2], by simp [h2]⟩
    · by_cases h3 : doc.type = "referral"
      · exact ⟨referralKind, by simp [h3], by simp [h3]⟩
      · simp [knownType, h1, h2, h3] at hk

theorem syncDoc_rejected (parse : String → Option Int) (env : Env) (w : World)
    (doc : OfflineDoc) (hon : env.online = true) (hacc : accepts env = false)
    (hk : knownType doc = true) :
    (syncDoc parse env w doc).1 = w ∧ (syncDoc parse env w doc).2.marked = false := by
  obtain ⟨k, _, hd⟩ := dispatch_known parse env w doc hk
  obtain ⟨h1, m, h2⟩ := submit_online_rejected parse k env w doc.patientId doc.data hon hacc
  unfold syncDoc
  rw [hd]
  cases hs : submit parse k env w doc.patientId doc.data with
  | mk w1 r =>
    rw [hs] at h1 h2
    simp only at h1 h2
    subst h1
    subst h2
    exact ⟨rfl, rfl⟩

theorem syncDoc_accepted (parse : String → Option Int) (env : Env) (w : World)
    (doc : OfflineDoc) (hturn : settledTurn env) (hacc : accepts env = true)
    (hk : knownType doc = true) (hw : pendingNotesAreText w.offlineData)
    (hd : (doc.type = "visit" ∨ doc.type = "referral") → notesAreText doc.data = true) :
    (syncDoc parse env w doc).1.offlineData = tableMarkSynced w.offlineData doc.id ∧
    (syncDoc parse env w doc).1.remote.map remoteKey
      = w.remote.map remoteKey ++ [targetKey doc] ∧
    (syncDoc parse env w doc).2.marked = true := by
  obtain ⟨hon, hu, hm⟩ := hturn
  obtain ⟨hl, hc⟩ := (accepts_iff env).1 hacc
  have hok := dispatch_online_ok parse env w doc hon hl hc hu hw hd
  have hmarked := (syncDoc_ok parse env w doc hm hok).2
  have htable := (syncDoc_online_facts parse env w doc hon).1
  rw [hmarked] at htable
  refine ⟨htable, ?_, hmarked⟩
  obtain ⟨k, hcoll, hdisp⟩ := dispatch_known parse env w doc hk
  rw [syncDoc_remote, hdisp, targetKey, ← hcoll]
  rw [hdisp] at hok
  exact submit_online_key parse k env w doc.patientId doc.data hon hok

theorem syncLoop_docIds (parse : String → Option Int) (envs : Nat → Env)
    (docs : List OfflineDoc) :
    ∀ (i : Nat) (w : World),
      (syncLoop parse envs i docs w).2.map (fun a => a.docId) = docs.map (fun d => d.id) := by
  induction docs with
  | nil => intro i w; rfl
  | cons d ds ih =>
    intro i w
    simp only [syncLoop, List.map_cons, syncDoc_docId, ih]

/-- The loop under connectivity, for rows of the three types: the rows that
end marked are those whose turn lets the delivery through, and each of them
adds one document to the sub-collection of its patient. -/
theorem syncLoop_accepted (parse : String → Option Int) (envs : Nat → Env)
    (hturn : ∀ j, settledTurn (envs j)) (docs : List OfflineDoc) :
    ∀ (i : Nat) (w : World), pendingNotesAreText w.offlineData →
      (∀ d ∈ docs, knownType d = true) →
      (∀ d ∈ docs, (d.type = "visit" ∨ d.type = "referral") → notesAreText d.data = true) →
      (∀ id, markedIn (syncLoop parse envs i docs w).2 id
        = (acceptedRows envs i docs).any (fun d => d.id == id)) ∧
      (syncLoop parse envs i docs w).1.remote.map remoteKey
        = w.remote.map remoteKey ++ (acceptedRows envs i docs).map targetKey := by
  induction docs with
  | nil => intro i w _ _ _; simp [syncLoop, markedIn, acceptedRows]
  | cons d ds ih =>
    intro i w hw hknown hdocs
    have hkd := hknown d (List.mem_cons_self _ _)
    have hid := syncDoc_docId parse (envs i) w d
    simp only [syncLoop, acceptedRows]
    cases hacc : accepts (envs i) with
    | true =>
      obtain ⟨h1, h2, h3⟩ := syncDoc_accepted parse (envs i) w d (hturn i) hacc hkd hw
        (hdocs d (List.mem_cons_self _ _))
      have hw1 : pendingNotesAreText (syncDoc parse (envs i) w d).1.offlineData := by
        rw [h1]; exact pendingNotesAreText_mark _ _ hw
      obtain ⟨ih1, ih2⟩ := ih (i + 1) (syncDoc parse (envs i) w d).1 hw1
        (fun d' hd' => hknown d' (List.mem_cons_of_mem _ hd'))
        (fun d' hd' => hdocs d' (List.mem_cons_of_mem _ hd'))
      refine ⟨?_, ?_⟩
      · intro id
        rw [markedIn_cons, ih1, hid, h3]
        simp
      · rw [ih2, h2]
        simp
    | false =>
      obtain ⟨h1, h3⟩ := syncDoc_rejected parse (envs i) w d (hturn i).1 hacc hkd
      obtain ⟨ih1, ih2⟩ := ih (i + 1) (syncDoc parse (envs i) w d).1 (by rw [h1]; exact hw)
        (fun d' hd' => hknown d' (List.mem_cons_of_mem _ hd'))
        (fun d' hd' => hdocs d' (List.mem_cons_of_mem _ hd'))
      refine ⟨?_, ?_⟩
      · intro id
        rw [markedIn_cons, ih1, h3]
        simp
      · rw [ih2, h1]
        simp

theorem acceptedRows_sublist (envs : Nat → Env) (docs : List OfflineDoc) :
    ∀ i, List.Sublist (acceptedRows envs i docs) docs := by
  induction docs with
  | nil => intro i; exact List.Sublist.slnil
  | cons d ds ih =>
    intro i
    simp only [acceptedRows]
    split
    · exact (ih (i + 1)).cons₂ d
    · exact (ih (i + 1)).cons d

theorem acceptedRows_all (envs : Nat → Env) (hall : ∀ j, accepts (envs j) = true)
    (docs : List OfflineDoc) :
    ∀ i, acceptedRows envs i docs = docs ∧ rejectedRows envs i docs = [] := by
  induction docs with
  | nil => intro i; exact ⟨rfl, rfl⟩
  | cons d ds ih =>
    intro i
    simp [acceptedRows, rejectedRows, hall i, (ih (i + 1)).1, (ih (i + 1)).2]

theorem any_id_of_not_mem (l : List OfflineDoc) (id : String)
    (h : id ∉ l.map (fun d => d.id)) : l.any (fun d => d.id == id) = false := by
  cases hb : l.any (fun d => d.id == id) with
  | false => rfl
  | true =>
    exfalso
    simp only [List.any_eq_true, beq_iff_eq] at hb
    obtain ⟨d, hd, he⟩ := hb
    exact h (he ▸ List.mem_map_of_mem (fun d => d.id) hd)

/-- With distinct keys, the rows that no accepted turn matches are the rows
of the rejected turns. -/
theorem filter_not_accepted (envs : Nat → Env) (docs : List OfflineDoc) :
    ∀ i, (docs.map (fun d => d.id)).Nodup →
      docs.filter (fun r => !(acceptedRows envs i docs).any (fun d => d.id == r.id))
        = rejectedRows envs i docs := by
  induction docs with
  | nil => intro i _; rfl
  | cons d ds ih =>
    intro i hn
    simp only [List.map_cons, List.nodup_cons] at hn
    obtain ⟨hnot, hn'⟩ := hn
    have hsub : ∀ r ∈ ds, (d.id == r.id) = false := by
      intro r hr
      have : d.id ≠ r.id := fun e => hnot (e ▸ List.mem_map_of_mem (fun d => d.id) hr)
      simpa using this
    have hacc_not : (acceptedRows envs (i + 1) ds).any (fun x => x.id == d.id) = false := by
      apply any_id_of_not_mem
      intro hmem
      exact hnot (((acceptedRows_sublist envs ds (i + 1)).map _).subset hmem)
    simp only [acceptedRows, rejectedRows]
    cases hacc : accepts (envs i) with
    | true =>
      simp only [if_true, List.filter_cons, List.any_cons, beq_self_eq_true, Bool.true_or,
        Bool.not_true, Bool.false_eq_true, if_false]
      rw [← ih (i + 1) hn']
      apply List.filter_congr
      intro r hr
      rw [hsub r hr]
      simp
    | false =>
      simp only [Bool.false_eq_true, if_false, List.filter_cons, hacc_not, Bool.not_false,
        if_true]
      rw [ih (i + 1) hn']

theorem pending_after_marks (t : List OfflineDoc) (b : String → Bool) :
    (t.map (fun r => { r with synced := r.synced || b r.id })).filter
        (fun doc => doc.synced == false)
      = (t.filter (fun doc => doc.synced == false)).filter (fun r => !b r.id) := by
  induction t with
  | nil => rfl
  | cons r t ih =>
    simp only [List.map_cons, List.filter_cons]
    cases hs : r.synced with
    | true => simpa using ih
    | false =>
      cases hb : b r.id with
      | true => simpa [hb] using ih
      | false =>
        have hr : ({ r with synced := false } : OfflineDoc) = r := by
          cases r
          simp only at hs
          subst hs
          rfl
        simp only [Bool.or_false, beq_self_eq_true, if_true, hb, Bool.not_false, hr, ih,
          Bool.false_or, List.filter_cons]

/-- One call of the sync coordinator under connectivity over rows of the three
types: the stores afterwards in terms of the turns that let the delivery
through. -/
theorem syncOfflineData_accepted (parse : String → Option Int) (se : SyncEnv) (w : World)
    (hon : se.online = true) (hq : se.queryFault = none)
    (hturn : ∀ j, settledTurn (se.turn j))
    (hnotes : pendingNotesAreText w.offlineData)
    (hknown : ∀ d ∈ pendingDocs w, knownType d = true) :
    (syncOfflineData parse se w).world.remote.map remoteKey
      = w.remote.map remoteKey ++ (acceptedRows se.turn 0 (pendingDocs w)).map targetKey ∧
    (syncOfflineData parse se w).world.offlineData
      = w.offlineData.map (fun r =>
          { r with synced := r.synced ||
              (acceptedRows se.turn 0 (pendingDocs w)).any (fun d => d.id == r.id) }) ∧
    (uniqueIds w.offlineData →
      pendingDocs (syncOfflineData parse se w).world = rejectedRows se.turn 0 (pendingDocs w)) := by
  obtain ⟨hw, _, _⟩ := syncOfflineData_online parse se w hon hq
  obtain ⟨h1, _⟩ := syncLoop_online parse se.turn (fun j => (hturn j).1) (pendingDocs w) 0 w
  have hdocs : ∀ d ∈ pendingDocs w, (d.type = "visit" ∨ d.type = "referral") →
      notesAreText d.data = true :=
    fun d hd ht => hnotes d ((mem_pendingDocs w d).1 hd).1 ((mem_pendingDocs w d).1 hd).2 ht
  obtain ⟨h2, h3⟩ := syncLoop_accepted parse se.turn hturn (pendingDocs w) 0 w hnotes hknown hdocs
  have htable : (syncOfflineData parse se w).world.offlineData
      = w.offlineData.map (fun r =>
          { r with synced := r.synced ||
              (acceptedRows se.turn 0 (pendingDocs w)).any (fun d => d.id == r.id) }) := by
    rw [hw, h1]
    apply List.map_congr_left
    intro r _
    rw [h2]
  refine ⟨hw ▸ h3, htable, ?_⟩
  intro hids
  unfold pendingDocs at *
  rw [htable, pending_after_marks w.offlineData
    (fun id => (acceptedRows se.turn 0 (w.offlineData.filter (fun doc => doc.synced == false))).any
      (fun d => d.id == id))]
  exact filter_not_accepted se.turn _ 0 (uniqueIds_pendingDocs w hids)

theorem firstCreateFailsSync_settled (j : Nat) : settledTurn (firstCreateFailsSync.turn j) := by
  by_cases h : j = 0 <;> simp [settledTurn, firstCreateFailsSync, quietEnv, h]

theorem mem_of_synced_map (t : List OfflineDoc) (b : String → Bool) (d : OfflineDoc)
    (hd : d ∈ t) :
    ({ d with synced := d.synced || b d.id } : OfflineDoc)
      ∈ t.map (fun r => { r with synced := r.synced || b r.id }) :=
  List.mem_map_of_mem (fun r => ({ r with synced := r.synced || b r.id } : OfflineDoc)) hd

/-- C2 (amended): a call of the sync coordinator over pending rows of the three
types, with the client online in every turn and neither the update of
`lastVisit` nor the marking rejecting, whatever turns reject the delivery
(the read of the table or `addDoc`): the call returns, has one turn per
pending row, creates one remote document, in the sub-collection of the row's
patient, for exactly the rows whose turn lets the delivery through, marks
exactly those rows, and leaves the rows of the rejected turns as they were,
with `synced = false`. -/
theorem drain_isolates_failures (parse : String → Option Int) (se : SyncEnv) (w : World)
    (hon : se.online = true) (hq : se.queryFault = none)
    (hturn : ∀ j, settledTurn (se.turn j))
    (hnotes : pendingNotesAreText w.offlineData)
    (hknown : ∀ d ∈ pendingDocs w, knownType d = true)
    (hids : uniqueIds w.offlineData) :
    (∃ n, (syncOfflineData parse se w).result = .ok n) ∧
    (syncOfflineData parse se w).attempts.map (fun a => a.docId)
      = (pendingDocs w).map (fun d => d.id) ∧
    (syncOfflineData parse se w).world.remote.map remoteKey
      = w.remote.map remoteKey ++ (acceptedRows se.turn 0 (pendingDocs w)).map targetKey ∧
    (syncOfflineData parse se w).world.offlineData
      = w.offlineData.map (fun r =>
          { r with synced := r.synced ||
              (acceptedRows se.turn 0 (pendingDocs w)).any (fun d => d.id == r.id) }) ∧
    pendingDocs (syncOfflineData parse se w).world = rejectedRows se.turn 0 (pendingDocs w) ∧
    (∀ d ∈ acceptedRows se.turn 0 (pendingDocs w),
      { d with synced := true } ∈ (syncOfflineData parse se w).world.offlineData) ∧
    (∀ d ∈ rejectedRows se.turn 0 (pendingDocs w),
      d ∈ (syncOfflineData parse se w).world.offlineData ∧ d.synced = false) := by
  obtain ⟨_, ha, hr⟩ := syncOfflineData_online parse se w hon hq
  obtain ⟨h1, h2, h3⟩ := syncOfflineData_accepted parse se w hon hq hturn hnotes hknown
  have hpend := h3 hids
  refine ⟨⟨_, hr⟩, ?_, h1, h2, hpend, ?_, ?_⟩
  · rw [ha]
    exact syncLoop_docIds parse se.turn (pendingDocs w) 0 w
  · intro d hd
    have hdp : d ∈ pendingDocs w := (acceptedRows_sublist se.turn (pendingDocs w) 0).subset hd
    have hany : (acceptedRows se.turn 0 (pendingDocs w)).any (fun x => x.id == d.id) = true := by
      simp only [List.any_eq_true, beq_iff_eq]
      exact ⟨d, hd, rfl⟩
    have hmem := mem_of_synced_map w.offlineData
      (fun id => (acceptedRows se.turn 0 (pendingDocs w)).any (fun x => x.id == id)) d
      ((mem_pendingDocs w d).1 hdp).1
    rw [h2]
    simpa [hany] using hmem
  · intro d hd
    have hd' : d ∈ pendingDocs (syncOfflineData parse se w).world := by rw [hpend]; exact hd
    exact (mem_pendingDocs _ d).1 hd'

theorem drain_isolates_failures_witness :
    (syncOfflineData parseISO firstCreateFailsSync twoPending).world.remote.map remoteKey
      = twoPending.remote.map remoteKey
        ++ (acceptedRows firstCreateFailsSync.turn 0 (pendingDocs twoPending)).map targetKey ∧
    pendingDocs (syncOfflineData parseISO firstCreateFailsSync twoPending).world
      = rejectedRows firstCreateFailsSync.turn 0 (pendingDocs twoPending) ∧
    acceptedRows firstCreateFailsSync.turn 0 (pendingDocs twoPending) = [feverVisit] ∧
    rejectedRows firstCreateFailsSync.turn 0 (pendingDocs twoPending) = [mmrShot] :=
  ⟨(drain_isolates_failures parseISO firstCreateFailsSync twoPending rfl rfl
      firstCreateFailsSync_settled twoPending_notes (by decide) (by decide)).2.2.1,
   (drain_isolates_failures parseISO firstCreateFailsSync twoPending rfl rfl
      firstCreateFailsSync_settled twoPending_notes (by decide) (by decide)).2.2.2.2.1,
   by decide, by decide⟩

/-- C2 as stated fails.  A pending row of another type is marked although
nothing is delivered for it (here beside a visit whose remote create
rejects); when the connection drops during the call, the visit is marked with
nothing created remotely, a copy of it being queued under a new key; when the
marking, or the update of `lastVisit`, rejects, the visit is created remotely
and stays pending. -/
theorem drain_marks_apart_from_delivery :
    (syncOfflineData parseISO createFailsSync strayAndVisit).world.offlineData.map
        (fun r => (r.id, r.synced))
      = [("note_P1_1704067200000", true), ("visit_P1_1704067200000", false)] ∧
    (syncOfflineData parseISO createFailsSync strayAndVisit).world.remote = [] ∧
    (syncOfflineData parseISO dropSync oneVisit).world.offlineData.map
        (fun r => (r.id, r.synced))
      = [("visit_P1_1704067200000", true), ("visit_P1_1704153600000", false)] ∧
    (syncOfflineData parseISO dropSync oneVisit).world.remote = [] ∧
    (syncOfflineData parseISO markFailsSync oneVisit).world.offlineData.map
        (fun r => (r.id, r.synced))
      = [("visit_P1_1704067200000", false)] ∧
    (syncOfflineData parseISO markFailsSync oneVisit).world.remote.map remoteKey
      = [("P1", "visits")] ∧
    (syncOfflineData parseISO updateFailsSync oneVisit).world.offlineData.map
        (fun r => (r.id, r.synced))
      = [("visit_P1_1704067200000", false)] ∧
    (syncOfflineData parseISO updateFailsSync oneVisit).world.remote.map remoteKey
      = [("P1", "visits")] := by
  decide

/-- C4 (amended): when no call rejects and the client stays online, a call of
the sync coordinator over a table whose K pending rows are of the three
types has one turn per pending row, each fulfilled and marked, creates one
remote document per pending row, in the sub-collection of its patient and in
the order of the table, leaves every row synced with nothing else changed,
and returns K. -/
theorem drain_common_path (parse : String → Option Int) (se : SyncEnv) (w : World)
    (hon : se.online = true) (hq : se.queryFault = none)
    (hquiet : ∀ j, quietTurn (se.turn j))
    (hnotes : pendingNotesAreText w.offlineData)
    (hknown : ∀ d ∈ pendingDocs w, knownType d = true) :
    (syncOfflineData parse se w).attempts.map (fun a => a.docId)
      = (pendingDocs w).map (fun d => d.id) ∧
    (∀ a ∈ (syncOfflineData parse se w).attempts, a.delivered = true ∧ a.marked = true) ∧
    (syncOfflineData parse se w).world.remote.map remoteKey
      = w.remote.map remoteKey ++ (pendingDocs w).map targetKey ∧
    (syncOfflineData parse se w).world.remote.length
      = w.remote.length + (pendingDocs w).length ∧
    (syncOfflineData parse se w).world.offlineData
      = w.offlineData.map (fun r => { r with synced := true }) ∧
    (syncOfflineData parse se w).result = .ok (pendingDocs w).length := by
  obtain ⟨hw, ha, hr⟩ := syncOfflineData_online parse se w hon hq
  have hsettled : ∀ j, settledTurn (se.turn j) :=
    fun j => ⟨(hquiet j).1, (hquiet j).2.2.2.1, (hquiet j).2.2.2.2⟩
  have hacc : ∀ j, accepts (se.turn j) = true :=
    fun j => (accepts_iff _).2 ⟨(hquiet j).2.1, (hquiet j).2.2.1⟩
  obtain ⟨h1, h2, _⟩ := syncOfflineData_accepted parse se w hon hq hsettled hnotes hknown
  rw [(acceptedRows_all se.turn hacc (pendingDocs w) 0).1] at h1 h2
  have hdocs : ∀ d ∈ pendingDocs w, (d.type = "visit" ∨ d.type = "referral") →
      notesAreText d.data = true :=
    fun d hd ht => hnotes d ((mem_pendingDocs w d).1 hd).1 ((mem_pendingDocs w d).1 hd).2 ht
  have h3 := syncLoop_all_marked parse se.turn hquiet (pendingDocs w) 0 w hnotes hdocs
  refine ⟨?_, ha ▸ h3, h1, ?_, ?_, hr⟩
  · rw [ha]
    exact syncLoop_docIds parse se.turn (pendingDocs w) 0 w
  · have hlen := congrArg List.length h1
    simpa using hlen
  · rw [h2]
    apply List.map_congr_left
    intro r hr'
    cases hs : r.synced with
    | true => simp
    | false =>
      have hany : (pendingDocs w).any (fun d => d.id == r.id) = true := by
        simp only [List.any_eq_true, beq_iff_eq]
        exact ⟨r, (mem_pendingDocs w r).2 ⟨hr', hs⟩, rfl⟩
      simp [hany]

theorem drain_common_path_witness :
    (syncOfflineData parseISO quietSync twoPending).world.remote.map remoteKey
      = twoPending.remote.map remoteKey ++ (pendingDocs twoPending).map targetKey ∧
    (syncOfflineData parseISO quietSync twoPending).world.remote.length
      = twoPending.remote.length + (pendingDocs twoPending).length ∧
    (syncOfflineData parseISO quietSync twoPending).world.offlineData
      = twoPending.offlineData.map (fun r => { r with synced := true }) ∧
    (syncOfflineData parseISO quietSync twoPending).result = .ok (pendingDocs twoPending).length :=
  (drain_common_path parseISO quietSync twoPending rfl rfl
    (fun _ => ⟨rfl, rfl, rfl, rfl, rfl⟩) twoPending_notes (by decide)).2.2

/-- C4 as stated fails: over a table whose one pending row is of another type,
with no call rejecting, the call returns 1 and marks the row, and no
delivery is made: the remote store stays empty.  Over a table whose one
pending visit has a number for notes, `trim` raises in the resolver: the
call returns 1, nothing is created and the visit stays pending. -/
theorem common_path_without_delivery :
    pendingDocs strayWorld = [strayNote] ∧
    (syncOfflineData parseISO quietSync strayWorld).result = .ok 1 ∧
    (syncOfflineData parseISO quietSync strayWorld).world.remote = [] ∧
    (syncOfflineData parseISO quietSync strayWorld).world.offlineData.map (fun r => r.synced)
      = [true] ∧
    pendingDocs tallyWorld = [tallyVisit] ∧
    (syncOfflineData parseISO quietSync tallyWorld).result = .ok 1 ∧
    (syncOfflineData parseISO quietSync tallyWorld).world = tallyWorld := by
  decide

/-- C5 (amended): of two calls of the sync coordinator in succession, with no
write in between, over pending rows of the three types and with the client
online: the rows pending at the second call are the rows whose delivery the
first call's turns rejected, and the second call has its turns for exactly
those; when every turn of the first call lets the delivery through, the
first call delivers every pending row and returns their number N, and the
second call has no turn, changes nothing and returns 0. -/
theorem drain_twice (parse : String → Option Int) (se1 se2 : SyncEnv) (w : World)
    (hon1 : se1.online = true) (hq1 : se1.queryFault = none)
    (hon2 : se2.online = true) (hq2 : se2.queryFault = none)
    (hturn : ∀ j, settledTurn (se1.turn j))
    (hnotes : pendingNotesAreText w.offlineData)
    (hknown : ∀ d ∈ pendingDocs w, knownType d = true)
    (hids : uniqueIds w.offlineData) :
    pendingDocs (syncOfflineData parse se1 w).world = rejectedRows se1.turn 0 (pendingDocs w) ∧
    (syncOfflineData parse se2 (syncOfflineData parse se1 w).world).attempts.map
        (fun a => a.docId)
      = (rejectedRows se1.turn 0 (pendingDocs w)).map (fun d => d.id) ∧
    ((∀ j, accepts (se1.turn j) = true) →
      (syncOfflineData parse se1 w).result = .ok (pendingDocs w).length ∧
      (syncOfflineData parse se1 w).world.remote.map remoteKey
        = w.remote.map remoteKey ++ (pendingDocs w).map targetKey ∧
      (syncOfflineData parse se2 (syncOfflineData parse se1 w).world).result = .ok 0 ∧
      (syncOfflineData parse se2 (syncOfflineData parse se1 w).world).attempts = [] ∧
      (syncOfflineData parse se2 (syncOfflineData parse se1 w).world).world
        = (syncOfflineData parse se1 w).world) := by
  obtain ⟨_, _, hr1⟩ := syncOfflineData_online parse se1 w hon1 hq1
  obtain ⟨h1, _, h3⟩ := syncOfflineData_accepted parse se1 w hon1 hq1 hturn hnotes hknown
  have hpend := h3 hids
  obtain ⟨hw2, ha2, hr2⟩ :=
    syncOfflineData_online parse se2 (syncOfflineData parse se1 w).world hon2 hq2
  refine ⟨hpend, ?_, ?_⟩
  · rw [ha2, syncLoop_docIds, hpend]
  · intro hall
    obtain ⟨hacc, hrej⟩ := acceptedRows_all se1.turn hall (pendingDocs w) 0
    rw [hacc] at h1
    rw [hrej] at hpend
    refine ⟨hr1, h1, ?_, ?_, ?_⟩
    · rw [hr2, hpend]; rfl
    · rw [ha2, hpend]; rfl
    · rw [hw2, hpend]; rfl

theorem drain_twice_witness :
    pendingDocs (syncOfflineData parseISO firstCreateFailsSync twoPending).world
      = rejectedRows firstCreateFailsSync.turn 0 (pendingDocs twoPending) ∧
    (syncOfflineData parseISO quietSync
        (syncOfflineData parseISO firstCreateFailsSync twoPending).world).attempts.map
        (fun a => a.docId)
      = (rejectedRows firstCreateFailsSync.turn 0 (pendingDocs twoPending)).map (fun d => d.id) ∧
    (syncOfflineData parseISO quietSync (syncOfflineData parseISO quietSync twoPending).world).result
      = .ok 0 :=
  ⟨(drain_twice parseISO firstCreateFailsSync quietSync twoPending rfl rfl rfl rfl
      firstCreateFailsSync_settled twoPending_notes (by decide) (by decide)).1,
   (drain_twice parseISO firstCreateFailsSync quietSync twoPending rfl rfl rfl rfl
      firstCreateFailsSync_settled twoPending_notes (by decide) (by decide)).2.1,
   ((drain_twice parseISO quietSync quietSync twoPending rfl rfl rfl rfl
      (fun _ => ⟨rfl, rfl, rfl⟩) twoPending_notes (by decide) (by decide)).2.2
      (fun _ => rfl)).2.2.1⟩

/-! ## The lookup of the router, the stored row and the unstamped candidate -/

/-- C11: the online branch of the `add*` functions resolves the candidate
against the first row, in key order, that is of the same patient and type,
is pending and agrees (`===`) with the candidate on the match key (date for
a visit; vaccineType and dateAdministered for an immunization; referralDate
and facility for a referral), and writes the outcome; when no row is such it
writes the candidate itself without a resolution.  A row is selected only if
it is such a row of the table, none is selected exactly when the table has no
such row, and no other field of the candidate or of a row has an influence. -/
theorem conflict_lookup_criterion (parse : String → Option Int) (k : Kind) (env : Env)
    (w : World) (patientId : String) (candidate : Record) :
    (env.online = true → env.localFault = none → env.createFault = none →
      ∀ r, (match (w.offlineData.filter (qualifies k patientId candidate)).head? with
          | some entry => resolveConflict parse k.type patientId candidate entry.data
          | none => .ok candidate) = .ok r →
        (submit parse k env w patientId candidate).1.remote
          = w.remote ++ [{ patientId := patientId, collection := k.collection,
                           id := "r" ++ toString w.remote.length,
                           data := stamped r env.isoNow }]) ∧
    (env.online = true → env.localFault = none →
      ∀ m, (match (w.offlineData.filter (qualifies k patientId candidate)).head? with
          | some entry => resolveConflict parse k.type patientId candidate entry.data
          | none => .ok candidate) = .error m →
        submit parse k env w patientId candidate = (w, .error (messageOr m k.fallback))) ∧
    conflictLookup k w patientId candidate
      = (w.offlineData.filter (qualifies k patientId candidate)).head? ∧
    (∀ doc, qualifies k patientId candidate doc = true ↔
      doc.patientId = patientId ∧ doc.type = k.type ∧ doc.synced = false ∧
        ∀ f ∈ k.matchKey, (getField doc.data f).strictEq (getField candidate f) = true) ∧
    (∀ doc, conflictLookup k w patientId candidate = some doc →
      doc ∈ w.offlineData ∧ qualifies k patientId candidate doc = true) ∧
    (conflictLookup k w patientId candidate = none ↔
      ∀ doc ∈ w.offlineData, qualifies k patientId candidate doc = false) ∧
    (visitKind.type = "visit" ∧ visitKind.matchKey = ["date"] ∧
      immunizationKind.type = "immunization" ∧
      immunizationKind.matchKey = ["vaccineType", "dateAdministered"] ∧
      referralKind.type = "referral" ∧
      referralKind.matchKey = ["referralDate", "facility"]) ∧
    (∀ candidate', (∀ f ∈ k.matchKey, getField candidate' f = getField candidate f) →
      conflictLookup k w patientId candidate' = conflictLookup k w patientId candidate) ∧
    (∀ doc doc', doc'.patientId = doc.patientId → doc'.type = doc.type →
      doc'.synced = doc.synced →
      (∀ f ∈ k.matchKey, getField doc'.data f = getField doc.data f) →
      qualifies k patientId candidate doc' = qualifies k patientId candidate doc) ∧
    (env.online = true → env.localFault = none → env.createFault = none →
      conflictLookup k w patientId candidate = none →
      (submit parse k env w patientId candidate).1.remote
        = w.remote ++ [{ patientId := patientId, collection := k.collection,
                         id := "r" ++ toString w.remote.length,
                         data := stamped candidate env.isoNow }]) := by
  have hhead := conflictLookup_eq_head k w patientId candidate
  refine ⟨?_, ?_, hhead, qualifies_iff k patientId candidate, ?_, ?_, ?_, ?_, ?_, ?_⟩
  · intro hon hl hc r hr
    rw [← hhead] at hr
    exact submit_online_remote parse k env w patientId candidate r hon hl hc hr
  · intro hon hl m hm
    rw [← hhead] at hm
    unfold conflictLookup at hm
    simp only [submit, hon, if_true, getOfflineData, hl, hm]
  · intro doc hdoc
    rw [hhead] at hdoc
    have hmem := List.mem_of_mem_head? hdoc
    rw [List.mem_filter] at hmem
    exact hmem
  · rw [hhead, List.head?_eq_none_iff, List.filter_eq_nil_iff]
    constructor
    · intro h doc hdoc
      simpa using h doc hdoc
    · intro h doc hdoc
      simp [h doc hdoc]
  · exact ⟨rfl, rfl, rfl, rfl, rfl, rfl⟩
  · intro candidate' h
    unfold conflictLookup
    congr 1
    funext doc
    exact matchesKey_congr k candidate candidate' doc h
  · intro doc doc' h1 h2 h3 h4
    unfold qualifies
    rw [h1, h2, h3, all_strictEq_congr_left k.matchKey doc.data doc'.data candidate h4]
  · intro hon hl hc hnone
    exact submit_online_remote parse k env w patientId candidate candidate hon hl hc
      (by rw [hnone])

theorem conflict_lookup_criterion_witness :
    (submit parseISO visitKind quietEnv restWorld "P1" coughPayload).1.remote
      = restWorld.remote ++ [RemoteDoc.mk "P1" visitKind.collection
          ("r" ++ toString restWorld.remote.length)
          (stamped [("date", .str "2024-01-01"), ("symptoms", .str "cough"),
            ("notes", .str "rest")] quietEnv.isoNow)] :=
  (conflict_lookup_criterion parseISO visitKind quietEnv restWorld "P1" coughPayload).1
    rfl rfl rfl [("date", .str "2024-01-01"), ("symptoms", .str "cough"), ("notes", .str "rest")]
    (by decide)

theorem saveOfflineData_stores_witness :
    ({ id := "visit_P1_1704153600000", type := "visit", patientId := "P1", data := coughPayload,
       createdAt := offlineEnvLater.isoNow, synced := false } : OfflineDoc)
      ∈ (saveOfflineData offlineEnvLater oneVisit "visit" coughPayload "P1").1.offlineData ∧
    oneVisit.offlineData.map (fun r => r.id) = ["visit_P1_1704067200000"] ∧
    (saveOfflineData offlineEnvLater oneVisit "visit" coughPayload "P1").1.offlineData.map
        (fun r => r.id)
      = ["visit_P1_1704067200000", "visit_P1_1704153600000"] :=
  ⟨(saveOfflineData_stores offlineEnvLater oneVisit "visit" coughPayload "P1"
    "visit_P1_1704153600000" (by decide)).2.1, by decide, by decide⟩

theorem mergeEqual_fields (type : String) (l r : Record)
    (hl : uniqueKeys l) (hr : uniqueKeys r)
    (hnotes : (type = "visit" ∨ type = "referral") →
      notesAreText l = true ∧ notesAreText r = true) :
    ∃ merged, mergeEqual type l r = .ok merged ∧
      (∀ f, hasField merged f = true ↔
        (hasField r f = true ∨ hasField l f = true ∨
          (f = "notes" ∧ (type = "visit" ∨ type = "referral")))) ∧
      (∀ f, f ≠ "notes" →
        getField merged f = if hasField l f then getField l f else getField r f) ∧
      ((type = "visit" ∨ type = "referral") →
        getField merged "notes" = .str (notesUnion (notesText r) (notesText l))) ∧
      (type ≠ "visit" → type ≠ "referral" →
        getField merged "notes"
          = if hasField l "notes" then getField l "notes" else getField r "notes") := by
  by_cases ht : type = "visit" ∨ type = "referral"
  · obtain ⟨hnl, hnr⟩ := hnotes ht
    refine ⟨_, mergeEqual_notes_type type l r ht hnl hnr, ?_, ?_, ?_, ?_⟩
    · intro f
      rw [hasField_setField, hasField_merged]
      simp only [Bool.or_eq_true, decide_eq_true_eq]
      constructor
      · rintro ((h | h) | h)
        · exact Or.inl h
        · exact Or.inr (Or.inl h)
        · exact Or.inr (Or.inr ⟨h, ht⟩)
      · rintro (h | h | ⟨h, _⟩)
        · exact Or.inl (Or.inl h)
        · exact Or.inl (Or.inr h)
        · exact Or.inr h
    · intro f hf
      rw [getField_setField, if_neg hf, getField_merged l r hl hr]
    · intro _
      rw [getField_setField]
      simp
    · intro h1 h2
      rcases ht with h | h
      · exact absurd h h1
      · exact absurd h h2
  · have h1 : type ≠ "visit" := fun h => ht (Or.inl h)
    have h2 : type ≠ "referral" := fun h => ht (Or.inr h)
    refine ⟨_, mergeEqual_other_type type l r h1 h2, ?_, ?_, ?_, ?_⟩
    · intro f
      rw [hasField_merged]
      simp only [Bool.or_eq_true]
      constructor
      · rintro (h | h)
        · exact Or.inl h
        · exact Or.inr (Or.inl h)
      · rintro (h | h | ⟨_, h⟩)
        · exact Or.inl h
        · exact Or.inr h
        · exact absurd h ht
    · intro f _
      exact getField_merged l r hl hr f
    · intro h
      exact absurd h ht
    · intro _ _
      exact getField_merged l r hl hr "notes"

/-- C30: when the record passed as `localData` has no `createdAt`, or one that
is a string the engine cannot parse, then whatever `remoteData` and its
`createdAt` are, `resolveConflict` returns the union of the fields of the two
records: every field other than `notes` has the local value when the local
record has the field and the remote value otherwise, and `notes` is the union
of the notes for a visit or a referral (overlaid like the others for another
type).  The payloads that the forms pass to the `add*` functions have no
`createdAt`, so that an online `submit` of such a payload that finds a
pending row creates the remote document with these fields, `createdAt` being
the time of the write. -/
theorem unstamped_local_is_merged (parse : String → Option Int) (k : Kind) (env : Env)
    (w : World) (patientId : String) (data : Record) (entry : OfflineDoc) :
    (∀ type pid l r, localTimestamp parse l = none → uniqueKeys l → uniqueKeys r →
      ((type = "visit" ∨ type = "referral") →
        notesAreText l = true ∧ notesAreText r = true) →
      ∃ merged, resolveConflict parse type pid l r = .ok merged ∧
        (∀ f, hasField merged f = true ↔
          (hasField r f = true ∨ hasField l f = true ∨
            (f = "notes" ∧ (type = "visit" ∨ type = "referral")))) ∧
        (∀ f, f ≠ "notes" →
          getField merged f = if hasField l f then getField l f else getField r f) ∧
        ((type = "visit" ∨ type = "referral") →
          getField merged "notes" = .str (notesUnion (notesText r) (notesText l))) ∧
        (type ≠ "visit" → type ≠ "referral" →
          getField merged "notes"
            = if hasField l "notes" then getField l "notes" else getField r "notes")) ∧
    (∀ l, hasField l "createdAt" = false → localTimestamp parse l = none) ∧
    (∀ l s, getField l "createdAt" = .str s → parse s = none →
      localTimestamp parse l = none) ∧
    (env.online = true → env.localFault = none → env.createFault = none →
      hasField data "createdAt" = false → uniqueKeys data → uniqueKeys entry.data →
      ((k.type = "visit" ∨ k.type = "referral") →
        notesAreText data = true ∧ notesAreText entry.data = true) →
      conflictLookup k w patientId data = some entry →
      ∃ payload,
        (submit parse k env w patientId data).1.remote
          = w.remote ++ [{ patientId := patientId, collection := k.collection,
                           id := "r" ++ toString w.remote.length, data := payload }] ∧
        getField payload "createdAt" = .str env.isoNow ∧
        (∀ f, f ≠ "notes" → f ≠ "createdAt" →
          getField payload f
            = if hasField data f then getField data f else getField entry.data f) ∧
        (∀ f, hasField payload f = true ↔
          (hasField entry.data f = true ∨ hasField data f = true ∨ f = "createdAt" ∨
            (f = "notes" ∧ (k.type = "visit" ∨ k.type = "referral")))) ∧
        ((k.type = "visit" ∨ k.type = "referral") →
          getField payload "notes"
            = .str (notesUnion (notesText entry.data) (notesText data)))) ∧
    (∀ f, hasField (visitPayload f) "createdAt" = false) ∧
    (∀ parseInt f, hasField (immunizationPayload parseInt f) "createdAt" = false) ∧
    (∀ f, hasField (referralPayload f) "createdAt" = false) := by
  refine ⟨?_, fun l h => localTimestamp_of_missing parse l h, ?_, ?_, ?_, ?_, ?_⟩
  · intro type pid l r hnone hl hr hnotes
    rw [resolveConflict_of_no_local_stamp parse type pid l r hnone]
    exact mergeEqual_fields type l r hl hr hnotes
  · intro l s hs hp
    simp only [localTimestamp, hs, dateGetTime]
    split
    · rfl
    · exact hp
  · intro hon hl hc hdata hkd hke hnotes hlook
    obtain ⟨merged, hm, hf1, hf2, hf3, _⟩ := mergeEqual_fields k.type data entry.data hkd hke hnotes
    have hres : resolveConflict parse k.type patientId data entry.data = .ok merged := by
      rw [resolveConflict_of_no_local_stamp parse _ _ _ _
        (localTimestamp_of_missing parse data hdata), hm]
    have hku : uniqueKeys merged :=
      uniqueKeys_resolveConflict parse k.type patientId data entry.data merged hkd hke hres
    refine ⟨stamped merged env.isoNow,
      submit_online_remote parse k env w patientId data merged hon hl hc
        (by rw [hlook]; exact hres), ?_, ?_, ?_, ?_⟩
    · rw [getField_stamped _ _ hku]; simp
    · intro f h1 h2
      rw [getField_stamped _ _ hku, if_neg h2, hf2 f h1]
    · intro f
      rw [hasField_stamped]
      simp only [Bool.or_eq_true, decide_eq_true_eq, hf1 f]
      tauto
    · intro ht
      rw [getField_stamped _ _ hku, if_neg (by decide), hf3 ht]
  · intro f; simp [visitPayload, hasField]
  · intro parseInt f; simp [immunizationPayload, hasField]
  · intro f; simp [referralPayload, hasField]

theorem unstamped_local_is_merged_witness :
    ∃ merged, resolveConflict parseISO "visit" "P1" coughPayload onlineVisitLater = .ok merged ∧
      getField merged "symptoms" = .str "cough" ∧
      getField merged "createdAt" = .str "2024-01-02T12:00:00.000Z" ∧
      getField merged "notes" = .str "" :=
  match (unstamped_local_is_merged parseISO visitKind quietEnv oneVisit "P1" coughPayload
      feverVisit).1 "visit" "P1" coughPayload onlineVisitLater (by decide) (by decide)
      (by decide) (fun _ => ⟨by decide, by decide⟩) with
  | ⟨merged, hm, _, hf, hn, _⟩ =>
    ⟨merged, hm, (hf "symptoms" (by decide)).trans (by decide),
      (hf "createdAt" (by decide)).trans (by decide), (hn (Or.inl rfl)).trans (by decide)⟩

end Ehr
